import Mathlib

/-!
# Nanoleaf Aurora plugins: Patterned Beats and Soft Lightning

A shallow embedding of `PatternedBeatsPlugin/src/AuroraPlugin.cpp` and
`SoftLightningPlugin/src/AuroraPlugin.cpp`.

Modelling conventions
* C `int` is `Int`; `/` and `%` on `int` are the truncating `Int.tdiv` and
  `Int.tmod`; a division or remainder by zero, and a palette read outside the
  palette, end the call with `none`.
* The static `maxBinIndexSum` grows from call to call without a bound, so
  `maxBinIndexSum += maxBinIndex` is the 32-bit addition `wrap32 (a + b)`
  (two's-complement wrap-around). Every other `int` of the two plugins stays
  far inside the 32-bit range in the states the plugins reach (bins are bytes,
  there are 32 of them, counters are 0, 1 or 2), so no reduction is written there.
* C `float` is `ℚ`. The float operations whose rounding decides what the code
  does next are parameters of the environment: `sqrt` of `math.h`, the quotient
  `(float) rand() / RAND_MAX` and the conversion of a `double` constant to
  `float`. The remaining float arithmetic is exact arithmetic on `ℚ`.
* `rand()` reads the next element of a stream `rand : Nat → Nat` fixed by the seed;
  the state counts the calls made so far.
* `pattern` has `MAX_PANELS` entries. A write past the array is undefined in C and
  is dropped; what is proved about the mask is proved for `nPanels ≤ MAX_PANELS`.
* `uint8_t` FFT bins and the `uint16_t` energy are `Nat`.
* The host's output buffer `frames` is a map from index to record.
-/

namespace Aurora

/-! ## Types of the host SDK -/

/-- Palette entry (`RGB_t` of `ColorUtils.h`). -/
structure RGB_t where
  R : Int
  G : Int
  B : Int
deriving DecidableEq

/-- Output record (`Frame_t` of `AuroraPlugin.h`). -/
structure Frame_t where
  panelId : Int
  r : Int
  g : Int
  b : Int
  transTime : Int
deriving DecidableEq

/-- A point of the layout plane. -/
structure Point where
  x : ℚ
  y : ℚ
deriving DecidableEq

/-- A panel: its identifier and `shape->getCentroid()`. -/
structure Panel where
  panelId : Int
  centroid : Point
deriving DecidableEq

/-- The layout (`LayoutData`): `panels[0..nPanels)` and the geometric center. -/
structure LayoutData where
  panels : List Panel
  layoutGeometricCenter : Point

/-- Field `nPanels` of `LayoutData`. -/
def LayoutData.nPanels (l : LayoutData) : Nat := l.panels.length

/-- What the audio front end supplies on one invocation: `getFftBins()`,
`getEnergy()`, `getIsBeat()`, `getIsOnset()`. -/
structure Features where
  fftBins : List Nat
  energy : Nat
  isBeat : Bool
  isOnset : Bool

/-- The caller-owned output of `getPluginFrame`: the buffer and `*nFrames`. -/
structure Output where
  frames : Nat → Frame_t
  nFrames : Int

def FFT_BINS : Nat := 32

def ENERGY_THRESHOLD : Int := 50

/-- A frame as the front end delivers it: 32 bins, each a `uint8_t`. -/
def Features.wf (f : Features) : Prop :=
  f.fftBins.length = FFT_BINS ∧ ∀ b ∈ f.fftBins, b ≤ 255

/-- Read `paletteColors[i]`; `none` outside the palette. -/
def paletteAt (palette : List RGB_t) (i : Int) : Option RGB_t :=
  if 0 ≤ i then palette.get? i.toNat else none

/-! ## The bin scan shared by both plugins

`beatDetection` lines 102-131 of Patterned Beats and `getPluginFrame` lines 301-328
of Soft Lightning are the same text. -/

/-- Locals and statics touched by the scan loop. -/
structure Scan where
  latest_min : Int
  avg : Int
  bins : Int
  maxBin : Int
  maxBinIndex : Int
deriving DecidableEq

/-- One iteration of `for (i = 0; i < FFT_BINS; i++)` with `b = fftBins[i]`. -/
def scanBin (s : Scan) (i : Nat) (b : Nat) : Scan :=
  if (b : Int) > s.maxBin then
    { latest_min :=
        if s.latest_min = 0 ∨ (b : Int) < s.latest_min then (b : Int)
        else if s.latest_min > 0 then s.latest_min - 1
        else s.latest_min
      avg := s.avg + (b : Int)
      bins := s.bins + 1
      maxBin := (b : Int)
      maxBinIndex := (i : Int) }
  else s

/-- The scan entered with the statics `latest_min`, `avg` and the locals
`bins = 1`, `maxBin = 0`, `maxBinIndex = 0`. -/
def scanStart (latest_min avg : Int) : Scan :=
  { latest_min := latest_min, avg := avg, bins := 1, maxBin := 0, maxBinIndex := 0 }

/-- The whole loop over the 32 bins. -/
def scanLoop (fftBins : List Nat) (latest_min avg : Int) : Scan :=
  (List.range FFT_BINS).foldl (fun s i => scanBin s i (fftBins.getD i 0))
    (scanStart latest_min avg)

/-- Values after the loop and `avg /= bins`. -/
structure Detect where
  latest_min : Int
  avg : Int
  maxBin : Int
  maxBinIndex : Int
deriving DecidableEq

/-- The scan followed by `avg /= bins`. -/
def detect (fftBins : List Nat) (latest_min avg : Int) : Detect :=
  let s := scanLoop fftBins latest_min avg
  { latest_min := s.latest_min, avg := s.avg.tdiv s.bins,
    maxBin := s.maxBin, maxBinIndex := s.maxBinIndex }

/-- The local `n`: declared `int n = 0;` on every call and incremented once
before the trigger test. -/
def sampleCount : Int := 0 + 1

/-- The value a 32-bit `int` holds after an addition whose exact result is `x`:
the representative of `x` modulo `2 ^ 32` in `[-2 ^ 31, 2 ^ 31)`. -/
def wrap32 (x : Int) : Int := (x + 2147483648) % 4294967296 - 2147483648

/-! ## Patterned Beats -/

namespace PatternedBeats

def MAX_PANELS : Nat := 50

/-- What `initPlugin` obtains from the host, and the `rand()` stream. -/
structure Env where
  layoutData : LayoutData
  paletteColors : List RGB_t
  rand : Nat → Nat

/-- The static `nColors` filled by `getColorPalette`. -/
def Env.nColors (env : Env) : Int := (env.paletteColors.length : Int)

/-- The file-level and function-level statics. `pattern` has `MAX_PANELS`
entries; `randCalls` is the number of `rand()` calls made so far. -/
structure State where
  whichCol : Int
  pattern : List Int
  avg : Int
  latest_min : Int
  maxBinIndexSum : Int
  randCalls : Nat

/-- The statics as the loader zero-initialises them. -/
def State.zero : State :=
  { whichCol := 0, pattern := List.replicate MAX_PANELS 0, avg := 0, latest_min := 0,
    maxBinIndexSum := 0, randCalls := 0 }

/-- Body of the loop of `generatePattern`: `pattern[i] = rand() % 2`. A write
beyond `MAX_PANELS` (undefined in C) is dropped. -/
def generatePatternStep (env : Env) (st : State) (i : Nat) : State :=
  { st with
    pattern := st.pattern.set i ((env.rand st.randCalls % 2 : Nat) : Int)
    randCalls := st.randCalls + 1 }

/-- The source's `generatePattern`. -/
def generatePattern (env : Env) (st : State) : State :=
  (List.range env.layoutData.nPanels).foldl (generatePatternStep env) st

/-- The source's `initPlugin`. -/
def initPlugin (env : Env) : State :=
  generatePattern env State.zero

/-- The condition of the `if` on line 137. -/
def triggers (f : Features) (d : Detect) : Bool :=
  f.isBeat || (decide (d.maxBin > d.latest_min + 2 * d.avg) &&
    decide ((f.energy : Int) ≤ ENERGY_THRESHOLD))

/-- The source's `beatDetection`. -/
def beatDetection (env : Env) (f : Features) (st : State) : Option State :=
  let d := detect f.fftBins st.latest_min st.avg
  let maxBinIndexSum := wrap32 (st.maxBinIndexSum + d.maxBinIndex)
  let n := sampleCount
  if triggers f d then
    if n = 0 then none
    else if env.nColors = 0 then none
    else
      let maxBinIndex := maxBinIndexSum.tdiv n
      some (generatePattern env
        { st with
          avg := d.avg, latest_min := d.latest_min, maxBinIndexSum := 0,
          whichCol := maxBinIndex.tmod env.nColors })
  else
    some { st with avg := d.avg, latest_min := d.latest_min, maxBinIndexSum := maxBinIndexSum }

/-- The record written for panel `i` by the loop of `getPluginFrame`. -/
def panelFrame (env : Env) (st : State) (c : RGB_t) (i : Nat) : Frame_t :=
  let panelId := (env.layoutData.panels.getD i ⟨0, ⟨0, 0⟩⟩).panelId
  if st.pattern.getD i 0 = 1 then
    { panelId := panelId, r := c.R, g := c.G, b := c.B, transTime := 3 }
  else
    { panelId := panelId, r := 255, g := 255, b := 255, transTime := 3 }

/-- The rendering loop of `getPluginFrame`: `frames[i]` is written for every
`i < nPanels`. -/
def renderFrames (env : Env) (st : State) (c : RGB_t) (frames : Nat → Frame_t) :
    Nat → Frame_t :=
  (List.range env.layoutData.nPanels).foldl
    (fun fr i => Function.update fr i (panelFrame env st c i)) frames

/-- The source's `getPluginFrame`. -/
def getPluginFrame (env : Env) (f : Features) (st : State) (out : Output) :
    Option (State × Output) :=
  match beatDetection env f st with
  | none => none
  | some st1 =>
    match paletteAt env.paletteColors st1.whichCol with
    | none => none
    | some c =>
      some (st1, { frames := renderFrames env st1 c out.frames
                   nFrames := (env.layoutData.nPanels : Int) })

/-- States of the plugin: after `initPlugin` and any number of completed calls
of `getPluginFrame` on well-formed frames. -/
inductive Reachable (env : Env) : State → Prop
  | init : Reachable env (initPlugin env)
  | frame {st st1 : State} {f : Features} {out out1 : Output} :
      Reachable env st → f.wf → getPluginFrame env f st out = some (st1, out1) →
      Reachable env st1

end PatternedBeats

/-! ## Soft Lightning -/

namespace SoftLightning

/-- The macro `TILE_DISTANCE`, 86.6. -/
def TILE_DISTANCE : ℚ := 433 / 5

def MAX_SOURCES : Int := 2

def SKIP_COUNT : Int := 1

/-- The source's `light_t`. -/
structure light_t where
  x : ℚ
  y : ℚ
  dirx : ℚ
  diry : ℚ
  speed : ℚ
  radius : ℚ
  R : Int
  G : Int
  B : Int
deriving DecidableEq

/-- What `initPlugin` obtains from the host, the `rand()` stream with its
`RAND_MAX`, and the float operations of the platform: `sqrt` of `math.h`,
`floatQuot r m` for the value of `(float) r / (m)` and `toFloat q` for the `float`
a `double` expression of exact value `q` is converted to on assignment. -/
structure Env where
  layoutData : LayoutData
  paletteColours : List RGB_t
  rand : Nat → Nat
  RAND_MAX : Nat
  sqrt : ℚ → ℚ
  floatQuot : Nat → Nat → ℚ
  toFloat : ℚ → ℚ

/-- The static `nColours` filled by `getColorPalette`. -/
def Env.nColours (env : Env) : Int := (env.paletteColours.length : Int)

/-- The file-level and function-level statics. `lights` is the array indexed by
slot; `cnt` is the frame-skip counter; `randCalls` counts `rand()` calls. -/
structure State where
  lights : Int → light_t
  nLights : Int
  maxY : ℚ
  minY : ℚ
  maxX : ℚ
  minX : ℚ
  avg : Int
  latest_min : Int
  maxBinIndexSum : Int
  cnt : Int
  randCalls : Nat

/-- A zero-initialised `light_t`. -/
def light_t.zero : light_t :=
  { x := 0, y := 0, dirx := 0, diry := 0, speed := 0, radius := 0, R := 0, G := 0, B := 0 }

/-- The statics as the loader zero-initialises them. -/
def State.zero : State :=
  { lights := fun _ => light_t.zero, nLights := 0, maxY := 0, minY := 0, maxX := 0, minX := 0,
    avg := 0, latest_min := 0, maxBinIndexSum := 0, cnt := 0, randCalls := 0 }

/-- The cast `(int) q` of a float: truncation toward zero. -/
def truncToInt (q : ℚ) : Int := q.num.tdiv (q.den : Int)

/-- The source's `distance`. -/
def distance (env : Env) (x1 y1 x2 y2 : ℚ) : ℚ :=
  let dx := x2 - x1
  let dy := y2 - y1
  env.sqrt (dx * dx + dy * dy)

/-- The source's `colorize`. -/
def colorize (env : Env) (colour : Int) (st : State) : Option State :=
  match paletteAt env.paletteColours colour with
  | none => none
  | some c =>
    some { st with
      lights := Function.update st.lights 0 { st.lights 0 with R := c.R, G := c.G, B := c.B } }

/-- The source's `getMaxYCoord`. -/
def getMaxYCoord (env : Env) : ℚ :=
  env.layoutData.panels.foldl (fun m p => if p.centroid.y > m then p.centroid.y else m)
    env.layoutData.layoutGeometricCenter.y

/-- The source's `getMinYCoord`. -/
def getMinYCoord (env : Env) : ℚ :=
  env.layoutData.panels.foldl (fun m p => if p.centroid.y < m then p.centroid.y else m)
    env.layoutData.layoutGeometricCenter.y

/-- The source's `getMaxXCoord`. -/
def getMaxXCoord (env : Env) : ℚ :=
  env.layoutData.panels.foldl (fun m p => if p.centroid.x > m then p.centroid.x else m)
    env.layoutData.layoutGeometricCenter.x

/-- The source's `getMinXCoord`. -/
def getMinXCoord (env : Env) : ℚ :=
  env.layoutData.panels.foldl (fun m p => if p.centroid.x < m then p.centroid.x else m)
    env.layoutData.layoutGeometricCenter.x

/-- The source's `removeLight`: `memmove` of `nLights - idx - 1` records from slot
`idx + 1` down to slot `idx`, then `nLights--`. Every call site has
`idx < nLights`, so the count is never negative. -/
def removeLight (idx : Int) (st : State) : State :=
  { st with
    lights := fun k =>
      if idx ≤ k ∧ k < idx + (st.nLights - idx - 1) then st.lights (k + 1) else st.lights k
    nLights := st.nLights - 1 }

/-- The record `createLight` assembles in `lights[nLights]`, from the edge draw
`topOrBot` and the X draw `rx`. -/
def newLight (env : Env) (st : State) (topOrBot : ℚ) (rx : Int) (dist : Int) : light_t :=
  { y := if topOrBot ≥ 1 / 2 then getMinYCoord env else getMaxYCoord env
    diry := if topOrBot ≥ 1 / 2 then 1 else -1
    R := 255, G := 255, B := 255
    x := ((rx.tmod dist + truncToInt st.minX : Int) : ℚ)
    dirx := 0
    speed := env.toFloat (2 * TILE_DISTANCE)
    radius := 1 }

/-- The source's `createLight`. `rand() % dist` with `dist = 0` ends the call. -/
def createLight (env : Env) (st : State) : Option State :=
  let st1 := if st.nLights ≥ MAX_SOURCES then removeLight 1 st else st
  let topOrBot : ℚ := env.floatQuot (env.rand st1.randCalls) env.RAND_MAX
  let dist : Int := truncToInt st1.maxX - truncToInt st1.minX
  if dist = 0 then none
  else
    let rx : Int := (env.rand (st1.randCalls + 1) : Int)
    some { st1 with
      lights := Function.update st1.lights st1.nLights (newLight env st1 topOrBot rx dist)
      nLights := st1.nLights + 1
      randCalls := st1.randCalls + 2 }

/-- The source's `initPlugin`. -/
def initPlugin (env : Env) : State :=
  { State.zero with
    maxY := getMaxYCoord env
    minY := getMinYCoord env
    maxX := getMaxXCoord env
    minX := getMinXCoord env
    lights := Function.update State.zero.lights 0
      { State.zero.lights 0 with
        x := env.layoutData.layoutGeometricCenter.x
        y := env.layoutData.layoutGeometricCenter.y }
    nLights := State.zero.nLights + 1 }

/-- Slot `i` advanced by `(dirx * speed, diry * speed)`. -/
def advance (l : light_t) : light_t :=
  { l with x := l.x + l.dirx * l.speed, y := l.y + l.diry * l.speed }

/-- The loop of `propogateSources` from index `i`: a removal is followed by
`i--` and the loop's `i++`, so the same slot is examined again. -/
def propogateLoop (env : Env) (i : Int) (st : State) : State :=
  if i < st.nLights then
    let st1 := { st with lights := Function.update st.lights i (advance (st.lights i)) }
    let d := distance env env.layoutData.layoutGeometricCenter.x
      env.layoutData.layoutGeometricCenter.y (st1.lights i).x (st1.lights i).y
    if d > 10 * TILE_DISTANCE then propogateLoop env i (removeLight i st1)
    else propogateLoop env (i + 1) st1
  else st
termination_by (st.nLights - i).toNat
decreasing_by
  all_goals first
    | omega
    | (simp only [removeLight]; omega)

/-- The source's `propogateSources`. -/
def propogateSources (env : Env) (st : State) : State :=
  propogateLoop env 1 st

/-- Accumulators `R`, `G`, `B` of `renderPanel`. -/
structure Accum where
  R : ℚ
  G : ℚ
  B : ℚ
deriving DecidableEq

/-- One iteration of the loop of `renderPanel` for the source in slot `i`. -/
def blend (env : Env) (st : State) (panel : Panel) (acc : Accum) (i : Int) : Accum :=
  let d0 := distance env panel.centroid.x panel.centroid.y (st.lights i).x (st.lights i).y
  let d1 := d0 / TILE_DISTANCE
  let d := d1 - (st.lights i).radius
  let d2 := d * d
  let factor : ℚ := 1 / (d2 * (3 / 2) + 1)
  { R := acc.R * (1 - factor) + ((st.lights i).R : ℚ) * factor
    G := acc.G * (1 - factor) + ((st.lights i).G : ℚ) * factor
    B := acc.B * (1 - factor) + ((st.lights i).B : ℚ) * factor }

/-- The source's `renderPanel`: the three returned channels. -/
def renderPanel (env : Env) (st : State) (panel : Panel) : Int × Int × Int :=
  let acc0 : Accum :=
    { R := ((st.lights 0).R : ℚ), G := ((st.lights 0).G : ℚ), B := ((st.lights 0).B : ℚ) }
  let acc := (List.range (st.nLights - 1).toNat).foldl
    (fun acc k => blend env st panel acc ((k : Int) + 1)) acc0
  (truncToInt acc.R, truncToInt acc.G, truncToInt acc.B)

/-- The condition shared by the two `if`s on lines 334 and 348, with the onset flag
or the beat flag as `flag`; `1.8` is the exact `9 / 5`. -/
def triggers (flag : Bool) (f : Features) (d : Detect) : Bool :=
  flag || (decide ((d.maxBin : ℚ) > (d.latest_min : ℚ) + (9 / 5) * (d.avg : ℚ)) &&
    decide ((f.energy : Int) ≤ ENERGY_THRESHOLD))

/-- The record written for panel `i` by the loop of `getPluginFrame`. -/
def panelFrame (env : Env) (st : State) (i : Nat) : Frame_t :=
  let panel := env.layoutData.panels.getD i ⟨0, ⟨0, 0⟩⟩
  let rgb := renderPanel env st panel
  { panelId := panel.panelId, r := rgb.1, g := rgb.2.1, b := rgb.2.2, transTime := 3 }

/-- The rendering loop of `getPluginFrame`. -/
def renderFrames (env : Env) (st : State) (frames : Nat → Frame_t) : Nat → Frame_t :=
  (List.range env.layoutData.nPanels).foldl
    (fun fr i => Function.update fr i (panelFrame env st i)) frames

/-- The value passed to `colorize` on line 354. -/
def colourArg (env : Env) (maxBinIndexSum n : Int) : Option Int :=
  if n = 0 then none
  else if env.nColours = 0 then none
  else some ((maxBinIndexSum.tdiv n).tmod env.nColours)

/-- Lines 348-355: the recolour step. -/
def recolour (env : Env) (f : Features) (d : Detect) (st : State) : Option State :=
  if triggers f.isBeat f d then
    match colourArg env st.maxBinIndexSum sampleCount with
    | none => none
    | some colour => colorize env colour { st with maxBinIndexSum := 0 }
  else some st

/-- The source's `getPluginFrame`. -/
def getPluginFrame (env : Env) (f : Features) (st : State) (out : Output) :
    Option (State × Output) :=
  let d := detect f.fftBins st.latest_min st.avg
  let st1 := { st with
    avg := d.avg, latest_min := d.latest_min,
    maxBinIndexSum := wrap32 (st.maxBinIndexSum + d.maxBinIndex) }
  match (if triggers f.isOnset f d then createLight env st1 else some st1) with
  | none => none
  | some st2 =>
    if st2.cnt < SKIP_COUNT then some ({ st2 with cnt := st2.cnt + 1 }, out)
    else
      match recolour env f d { st2 with cnt := 0 } with
      | none => none
      | some st3 =>
        some (propogateSources env st3,
          { frames := renderFrames env st3 out.frames
            nFrames := (env.layoutData.nPanels : Int) })

/-- States of the plugin: after `initPlugin` and any number of completed calls
of `getPluginFrame` on well-formed frames. -/
inductive Reachable (env : Env) : State → Prop
  | init : Reachable env (initPlugin env)
  | frame {st st1 : State} {f : Features} {out out1 : Output} :
      Reachable env st → f.wf → getPluginFrame env f st out = some (st1, out1) →
      Reachable env st1

/-- States of the light-source field: after `initPlugin` and any sequence of
completed `createLight`, `propogateSources` and `colorize` calls. -/
inductive FieldReachable (env : Env) : State → Prop
  | init : FieldReachable env (initPlugin env)
  | create {st st1 : State} :
      FieldReachable env st → createLight env st = some st1 → FieldReachable env st1
  | propogate {st : State} :
      FieldReachable env st → FieldReachable env (propogateSources env st)
  | colour {st st1 : State} {c : Int} :
      FieldReachable env st → colorize env c st = some st1 → FieldReachable env st1

end SoftLightning

/-! ## Predicates used in the statements -/

/-- The properties of the scan state that every iteration keeps. -/
def ScanOk (s : Scan) : Prop :=
  0 ≤ s.latest_min ∧ 0 ≤ s.avg ∧ 1 ≤ s.bins ∧ 0 ≤ s.maxBin ∧ 0 ≤ s.maxBinIndex


/-- A value in the range of a 32-bit `int`. -/
def InInt32 (x : Int) : Prop := -2147483648 ≤ x ∧ x < 2147483648

/-- What holds of the Patterned Beats statics in every reachable state. -/
def PatternedBeats.Inv (env : PatternedBeats.Env) (st : PatternedBeats.State) : Prop :=
  0 ≤ st.latest_min ∧ 0 ≤ st.avg ∧ InInt32 st.maxBinIndexSum ∧ 0 ≤ st.whichCol ∧
  (env.paletteColors ≠ [] → st.whichCol < env.nColors) ∧
  st.pattern.length = PatternedBeats.MAX_PANELS

/-- What holds of the Soft Lightning detector statics in every reachable state. -/
def SoftLightning.Inv (st : SoftLightning.State) : Prop :=
  0 ≤ st.latest_min ∧ 0 ≤ st.avg ∧ InInt32 st.maxBinIndexSum ∧ (st.cnt = 0 ∨ st.cnt = 1)

/-- The scan of frame `f` entered from the Patterned Beats statics `st`. -/
def PatternedBeats.detectOf (f : Features) (st : PatternedBeats.State) : Detect :=
  detect f.fftBins st.latest_min st.avg

/-- The scan of frame `f` entered from the Soft Lightning statics `st`. -/
def SoftLightning.detectOf (f : Features) (st : SoftLightning.State) : Detect :=
  detect f.fftBins st.latest_min st.avg

/-- The truncated X extent `(int)maxX - (int)minX` that `createLight` divides by. -/
def SoftLightning.xExtent (st : SoftLightning.State) : Int :=
  SoftLightning.truncToInt st.maxX - SoftLightning.truncToInt st.minX

/-- The bounding extents are those computed by `initPlugin` from the layout. -/
def SoftLightning.ExtentsFixed (env : SoftLightning.Env) (st : SoftLightning.State) : Prop :=
  st.maxX = SoftLightning.getMaxXCoord env ∧ st.minX = SoftLightning.getMinXCoord env ∧
  st.maxY = SoftLightning.getMaxYCoord env ∧ st.minY = SoftLightning.getMinYCoord env

/-- What holds of the light-source field in every state of `FieldReachable`. -/
def SoftLightning.FieldInv (env : SoftLightning.Env) (st : SoftLightning.State) : Prop :=
  1 ≤ st.nLights ∧ st.nLights ≤ SoftLightning.MAX_SOURCES ∧
  (st.lights 0).x = env.layoutData.layoutGeometricCenter.x ∧
  (st.lights 0).y = env.layoutData.layoutGeometricCenter.y ∧
  SoftLightning.ExtentsFixed env st ∧
  (st.nLights = 2 → SoftLightning.xExtent st ≠ 0)

/-- States of Soft Lightning after `initPlugin` and exactly `k` completed calls of
`getPluginFrame`. -/
inductive SoftLightning.ReachableIn (env : SoftLightning.Env) :
    Nat → SoftLightning.State → Prop
  | init : SoftLightning.ReachableIn env 0 (SoftLightning.initPlugin env)
  | frame {k : Nat} {st st1 : SoftLightning.State} {f : Features} {out out1 : Output} :
      SoftLightning.ReachableIn env k st → f.wf →
      SoftLightning.getPluginFrame env f st out = some (st1, out1) →
      SoftLightning.ReachableIn env (k + 1) st1

/-- The bins as the scan reads them: `fftBins[0]`, ..., `fftBins[FFT_BINS - 1]`. -/
def binsRead (fftBins : List Nat) : List Nat :=
  (List.range FFT_BINS).map (fun i => fftBins.getD i 0)

/-- After the spec's words: the magnitudes, in scan order, of the bins that set a new
maximum, `m` being the maximum before the first of them. -/
def newMaxima : List Nat → Int → List Nat
  | [], _ => []
  | b :: bs, m => if (b : Int) > m then b :: newMaxima bs (b : Int) else newMaxima bs m

/-- After the spec's words: the contributing-bin count, 1 plus the number of bins
that set a new maximum during the scan. -/
def contributingBins (fftBins : List Nat) : Int :=
  1 + ((newMaxima (binsRead fftBins) 0).length : Int)

/-- After the spec's words: the sum of the magnitudes of the bins that set a new
maximum during the scan. -/
def newMaximaSum (fftBins : List Nat) : Int :=
  (((newMaxima (binsRead fftBins) 0).sum : Nat) : Int)

/-- The local `factor` of `renderPanel` for the source in slot `i`. -/
def SoftLightning.blendFactor (env : SoftLightning.Env) (st : SoftLightning.State)
    (panel : Panel) (i : Int) : ℚ :=
  let d0 := SoftLightning.distance env panel.centroid.x panel.centroid.y
    (st.lights i).x (st.lights i).y
  let d1 := d0 / SoftLightning.TILE_DISTANCE
  let d := d1 - (st.lights i).radius
  let d2 := d * d
  1 / (d2 * (3 / 2) + 1)

/-- A colour channel in 0..255. -/
def InByte (c : Int) : Prop := 0 ≤ c ∧ c ≤ 255

/-- The transient sources of the field, slots `1 .. nLights - 1` in slot order. -/
def SoftLightning.transients (st : SoftLightning.State) : List SoftLightning.light_t :=
  (List.range (st.nLights - 1).toNat).map (fun (k : Nat) => st.lights ((k : Int) + 1))

/-- The distance `d` that `propogateSources` computes for a source: from the
layout's geometric center to the source. -/
def SoftLightning.centerDistance (env : SoftLightning.Env) (l : SoftLightning.light_t) : ℚ :=
  SoftLightning.distance env env.layoutData.layoutGeometricCenter.x
    env.layoutData.layoutGeometricCenter.y l.x l.y

/-- The source is not removed by the test `d > 10.0 * TILE_DISTANCE`. -/
def SoftLightning.staysInField (env : SoftLightning.Env) (l : SoftLightning.light_t) : Bool :=
  !decide (SoftLightning.centerDistance env l > 10 * SoftLightning.TILE_DISTANCE)

/-- The host's frame loop for Patterned Beats: `getPluginFrame` called once per
frame of the list, each time on the buffer `out`; the statics after the last call,
`none` when a call does not complete. -/
def PatternedBeats.run (env : PatternedBeats.Env) (out : Output) :
    List Features → PatternedBeats.State → Option PatternedBeats.State
  | [], st => some st
  | f :: fs, st =>
    match PatternedBeats.getPluginFrame env f st out with
    | none => none
    | some p => PatternedBeats.run env out fs p.1

/-- The value `m` is the greatest of `c` and the coordinates `g p` of the panels. -/
def IsMaxOver (g : Panel → ℚ) (panels : List Panel) (c m : ℚ) : Prop :=
  c ≤ m ∧ (∀ p ∈ panels, g p ≤ m) ∧ (m = c ∨ ∃ p ∈ panels, g p = m)

/-- The value `m` is the least of `c` and the coordinates `g p` of the panels. -/
def IsMinOver (g : Panel → ℚ) (panels : List Panel) (c m : ℚ) : Prop :=
  m ≤ c ∧ (∀ p ∈ panels, m ≤ g p) ∧ (m = c ∨ ∃ p ∈ panels, g p = m)

/-- The bounding box of a layout: `maxX`, `minX`, `maxY`, `minY` are the greatest
and the least X and Y among the geometric center and the panel centroids. -/
def IsBoundingBox (l : LayoutData) (maxX minX maxY minY : ℚ) : Prop :=
  IsMaxOver (fun p => p.centroid.x) l.panels l.layoutGeometricCenter.x maxX ∧
  IsMinOver (fun p => p.centroid.x) l.panels l.layoutGeometricCenter.x minX ∧
  IsMaxOver (fun p => p.centroid.y) l.panels l.layoutGeometricCenter.y maxY ∧
  IsMinOver (fun p => p.centroid.y) l.panels l.layoutGeometricCenter.y minY


/-! ## Concrete inputs -/

/-- A three-colour palette. -/
def exPalette : List RGB_t := [⟨255, 0, 0⟩, ⟨0, 255, 0⟩, ⟨0, 0, 255⟩]

/-- A three-panel layout. -/
def exLayout : LayoutData :=
  { panels := [⟨101, ⟨0, 0⟩⟩, ⟨102, ⟨100, 50⟩⟩, ⟨103, ⟨200, 0⟩⟩]
    layoutGeometricCenter := ⟨100, 20⟩ }

/-- A frame whose only non-zero bin is `idx`, of magnitude `val`. -/
def exFrame (idx val energy : Nat) (isBeat isOnset : Bool) : Features :=
  { fftBins := (List.replicate 32 0).set idx val, energy := energy,
    isBeat := isBeat, isOnset := isOnset }

/-- A silent frame. -/
def exSilent (energy : Nat) (isBeat isOnset : Bool) : Features :=
  { fftBins := List.replicate 32 0, energy := energy, isBeat := isBeat, isOnset := isOnset }

/-- An output buffer as the host hands it over, `*nFrames` preset to `-1`. -/
def exOut : Output := { frames := fun _ => ⟨0, 0, 0, 0, 0⟩, nFrames := -1 }

/-- A Patterned Beats environment. -/
def PatternedBeats.exEnv : PatternedBeats.Env :=
  { layoutData := exLayout, paletteColors := exPalette, rand := fun k => 3 * k + 1 }

/-- The Patterned Beats statics after one loud frame without a beat. -/
def PatternedBeats.exState1 : PatternedBeats.State :=
  match PatternedBeats.getPluginFrame PatternedBeats.exEnv (exFrame 3 10 100 false false)
      (PatternedBeats.initPlugin PatternedBeats.exEnv) exOut with
  | some p => p.1
  | none => PatternedBeats.State.zero

/-- A square root to three decimals, standing for `sqrt` of `math.h`. -/
def exSqrt (q : ℚ) : ℚ := (Nat.sqrt (q.num.toNat * 1000000 / q.den) : ℚ) / 1000

/-- The Patterned Beats statics after one faint frame (bin 0 at magnitude 1)
without a beat: floor 1, average 0. -/
def PatternedBeats.exState0 : PatternedBeats.State :=
  match PatternedBeats.beatDetection PatternedBeats.exEnv (exFrame 0 1 100 false false)
      (PatternedBeats.initPlugin PatternedBeats.exEnv) with
  | some s => s
  | none => PatternedBeats.State.zero

/-- The quotient `(float) r / (m)` without rounding. For `m = 32767` and a draw
`r ≤ 32767` the exact quotient is at least `1/2` exactly when `r ≥ 16384`, and so is
every rounding of it to 24 significant bits, `1/2` being such a value. -/
def exFloatQuot (r m : Nat) : ℚ := (r : ℚ) / (m : ℚ)

/-- The conversion to `float` without rounding. -/
def exToFloat (q : ℚ) : ℚ := q

/-- A Soft Lightning environment. -/
def SoftLightning.exEnv : SoftLightning.Env :=
  { layoutData := exLayout, paletteColours := exPalette,
    rand := fun k => (9001 * k + 20000) % 32768, RAND_MAX := 32767, sqrt := exSqrt,
    floatQuot := exFloatQuot, toFloat := exToFloat }

/-- The Soft Lightning statics after one loud frame without onset or beat. -/
def SoftLightning.exState1 : SoftLightning.State :=
  match SoftLightning.getPluginFrame SoftLightning.exEnv (exFrame 3 10 100 false false)
      (SoftLightning.initPlugin SoftLightning.exEnv) exOut with
  | some p => p.1
  | none => SoftLightning.State.zero

/-- The field after `initPlugin` and one `createLight`: the ambient source and one
transient source. -/
def SoftLightning.exField1 : SoftLightning.State :=
  match SoftLightning.createLight SoftLightning.exEnv
      (SoftLightning.initPlugin SoftLightning.exEnv) with
  | some s => s
  | none => SoftLightning.State.zero

/-- The example environment with draws that put the new source on the centroid of
panel 101: edge draw 20000 / 32767 (at least 0.5, so `y = minY = 0`) and X draw 200
(so `x = 200 % 200 + 0 = 0`). -/
def SoftLightning.exEnvAtPanel : SoftLightning.Env :=
  { layoutData := exLayout, paletteColours := exPalette,
    rand := fun k => if k = 1 then 200 else 20000, RAND_MAX := 32767, sqrt := exSqrt,
    floatQuot := exFloatQuot, toFloat := exToFloat }

/-- The field after `initPlugin` and one `createLight` with those draws. -/
def SoftLightning.exFieldAtPanel : SoftLightning.State :=
  match SoftLightning.createLight SoftLightning.exEnvAtPanel
      (SoftLightning.initPlugin SoftLightning.exEnvAtPanel) with
  | some s => s
  | none => SoftLightning.State.zero

/-- Panel 101 of the example layout. -/
def exPanel101 : Panel := ⟨101, ⟨0, 0⟩⟩

/-- A layout of one panel, whose centroid is the geometric center. -/
def exLayoutOnePanel : LayoutData :=
  { panels := [⟨101, ⟨100, 100⟩⟩], layoutGeometricCenter := ⟨100, 100⟩ }

/-- A Soft Lightning environment on the one-panel layout. -/
def SoftLightning.exEnvOnePanel : SoftLightning.Env :=
  { layoutData := exLayoutOnePanel, paletteColours := exPalette,
    rand := fun k => (9001 * k + 20000) % 32768, RAND_MAX := 32767, sqrt := exSqrt,
    floatQuot := exFloatQuot, toFloat := exToFloat }

/-- A layout of two panels with centroids at `x = 1/2` and `x = 21/2`. -/
def exLayoutFraction : LayoutData :=
  { panels := [⟨101, ⟨1 / 2, 0⟩⟩, ⟨102, ⟨21 / 2, 10⟩⟩], layoutGeometricCenter := ⟨11 / 2, 5⟩ }

/-- A Soft Lightning environment on that layout whose X draw is 30. -/
def SoftLightning.exEnvFraction : SoftLightning.Env :=
  { layoutData := exLayoutFraction, paletteColours := exPalette,
    rand := fun k => if k = 1 then 30 else 20000, RAND_MAX := 32767, sqrt := exSqrt,
    floatQuot := exFloatQuot, toFloat := exToFloat }

/-- A layout without panels. -/
def exLayoutEmpty : LayoutData := { panels := [], layoutGeometricCenter := ⟨0, 0⟩ }

/-- A Patterned Beats environment with an empty palette and no panels. -/
def PatternedBeats.exEnvEmpty : PatternedBeats.Env :=
  { layoutData := exLayoutEmpty, paletteColors := [], rand := fun k => 3 * k + 1 }

/-- A Soft Lightning environment with an empty palette and no panels. -/
def SoftLightning.exEnvEmpty : SoftLightning.Env :=
  { layoutData := exLayoutEmpty, paletteColours := [],
    rand := fun k => (9001 * k + 20000) % 32768, RAND_MAX := 32767, sqrt := exSqrt,
    floatQuot := exFloatQuot, toFloat := exToFloat }

/-- The Soft Lightning statics on the empty environment after one frame without
onset (the call returns at the gate). -/
def SoftLightning.exStateEmpty1 : SoftLightning.State :=
  match SoftLightning.getPluginFrame SoftLightning.exEnvEmpty (exFrame 3 10 100 false false)
      (SoftLightning.initPlugin SoftLightning.exEnvEmpty) exOut with
  | some p => p.1
  | none => SoftLightning.State.zero

/-- Newton's iteration for the integer square root of `n` from the estimate `x`. -/
def exRootAux : Nat → Nat → Nat → Nat
  | 0, _, x => x
  | fuel + 1, n, x =>
    if (x + n / x) / 2 < x then exRootAux fuel n ((x + n / x) / 2) else x

/-- The integer square root of `n` (for `n` below `2 ^ 64`). -/
def exRoot (n : Nat) : Nat := if n = 0 then 0 else exRootAux 64 n n

/-- A square root to three decimals, by Newton's iteration. -/
def exSqrtNewton (q : ℚ) : ℚ := (exRoot (q.num.toNat * 1000000 / q.den) : ℚ) / 1000

/-- A layout with a panel one tile distance, 86.6, to the right of panel 101. -/
def exLayoutTile : LayoutData :=
  { panels := [⟨101, ⟨0, 0⟩⟩, ⟨102, ⟨433 / 5, 0⟩⟩, ⟨103, ⟨200, 50⟩⟩]
    layoutGeometricCenter := ⟨100, 20⟩ }

/-- A Soft Lightning environment on that layout whose draws put the new source on
the centroid of panel 101: edge draw 20000 / 32767 and X draw 200. -/
def SoftLightning.exEnvTile : SoftLightning.Env :=
  { layoutData := exLayoutTile, paletteColours := exPalette,
    rand := fun k => if k = 1 then 200 else 20000, RAND_MAX := 32767, sqrt := exSqrtNewton,
    floatQuot := exFloatQuot, toFloat := exToFloat }

/-- The field after `initPlugin` and one `createLight` in that environment: the
ambient source and a white source at `(0, 0)`. -/
def SoftLightning.exFieldTile : SoftLightning.State :=
  match SoftLightning.createLight SoftLightning.exEnvTile
      (SoftLightning.initPlugin SoftLightning.exEnvTile) with
  | some s => s
  | none => SoftLightning.State.zero

/-- Panel 102 of that layout, at distance 86.6 from the source. -/
def exPanelTile : Panel := ⟨102, ⟨433 / 5, 0⟩⟩


/-! ## The scan: what every iteration keeps -/

set_option maxRecDepth 100000

/-- A property kept by every iteration of the scan holds after any number of them. -/
theorem foldl_scan_inv (P : Scan → Prop) (fftBins : List Nat)
    (hstep : ∀ s i, P s → P (scanBin s i (fftBins.getD i 0))) :
    ∀ (l : List Nat) (s : Scan), P s →
      P (l.foldl (fun s i => scanBin s i (fftBins.getD i 0)) s) := by
  intro l
  induction l with
  | nil => intro s hs; simpa using hs
  | cons a t ih =>
    intro s hs
    simp only [List.foldl_cons]
    exact ih _ (hstep s a hs)

/-- One iteration keeps the floor, the sum, the maximum and its index non-negative and the bin count positive. -/
theorem scanBin_ok (s : Scan) (i b : Nat) (h : ScanOk s) : ScanOk (scanBin s i b) := by
  obtain ⟨h1, h2, h3, h4, h5⟩ := h
  unfold scanBin
  split_ifs <;> refine ⟨?_, ?_, ?_, ?_, ?_⟩ <;> (try dsimp only) <;> omega

/-- The whole scan keeps them, entered with a non-negative floor and average. -/
theorem scanLoop_ok (fftBins : List Nat) (lm avg : Int) (h1 : 0 ≤ lm) (h2 : 0 ≤ avg) :
    ScanOk (scanLoop fftBins lm avg) := by
  unfold scanLoop
  apply foldl_scan_inv ScanOk fftBins (fun s i hs => scanBin_ok s i _ hs)
  exact ⟨h1, h2, by simp [scanStart], by simp [scanStart], by simp [scanStart]⟩

/-- After `avg /= bins` the floor, the average, `maxBin` and `maxBinIndex` are non-negative. -/
theorem detect_ok (fftBins : List Nat) (lm avg : Int) (h1 : 0 ≤ lm) (h2 : 0 ≤ avg) :
    0 ≤ (detect fftBins lm avg).latest_min ∧ 0 ≤ (detect fftBins lm avg).avg ∧
    0 ≤ (detect fftBins lm avg).maxBin ∧ 0 ≤ (detect fftBins lm avg).maxBinIndex := by
  obtain ⟨a, b, c, d, e⟩ := scanLoop_ok fftBins lm avg h1 h2
  refine ⟨a, ?_, d, e⟩
  simp only [detect]
  exact Int.tdiv_nonneg b (by omega)

/-- Every read of a frame whose bins are all 0 gives 0. -/
theorem getD_of_all_zero (l : List Nat) (h : ∀ b ∈ l, b = 0) (i : Nat) : l.getD i 0 = 0 := by
  by_cases hi : i < l.length
  · rw [List.getD_eq_getElem _ _ hi]
    exact h _ (List.getElem_mem _)
  · exact List.getD_eq_default _ _ (by omega)

/-- A zero bin is never a new maximum. -/
theorem scanBin_zero (s : Scan) (i : Nat) (h : 0 ≤ s.maxBin) : scanBin s i 0 = s := by
  unfold scanBin
  rw [if_neg]
  simpa using h

/-- The scan of an all-zero frame changes nothing and ends with `maxBin = 0`, `maxBinIndex = 0`. -/
theorem detect_silent (fftBins : List Nat) (h : ∀ b ∈ fftBins, b = 0) (lm avg : Int) :
    detect fftBins lm avg = { latest_min := lm, avg := avg, maxBin := 0, maxBinIndex := 0 } := by
  have key : scanLoop fftBins lm avg = scanStart lm avg := by
    unfold scanLoop
    apply foldl_scan_inv (fun s => s = scanStart lm avg) fftBins _ _ _ rfl
    intro s i hs
    subst hs
    rw [getD_of_all_zero fftBins h i]
    exact scanBin_zero _ i (by simp [scanStart])
  simp [detect, key, scanStart]

/-- A read at an index inside the palette succeeds. -/
theorem paletteAt_some (p : List RGB_t) (i : Int) (h0 : 0 ≤ i) (h1 : i < (p.length : Int)) :
    ∃ c, paletteAt p i = some c := by
  have hlt : i.toNat < p.length := by omega
  refine ⟨p.get ⟨i.toNat, hlt⟩, ?_⟩
  unfold paletteAt
  rw [if_pos h0]
  simp [List.get?_eq_get hlt]

/-- A read outside the palette fails. -/
theorem paletteAt_none (p : List RGB_t) (i : Int) (h : i < 0 ∨ (p.length : Int) ≤ i) :
    paletteAt p i = none := by
  unfold paletteAt
  split_ifs with h0
  · have : p.length ≤ i.toNat := by omega
    simpa using this
  · rfl

/-- A read that succeeds was made at an index inside the palette. -/
theorem paletteAt_range (p : List RGB_t) (i : Int) (c : RGB_t) (h : paletteAt p i = some c) :
    0 ≤ i ∧ i < (p.length : Int) := by
  by_contra hn
  have : i < 0 ∨ (p.length : Int) ≤ i := by omega
  rw [paletteAt_none p i this] at h
  exact Option.noConfusion h

/-- A 32-bit addition leaves a value in the 32-bit range. -/
theorem wrap32_range (x : Int) : InInt32 (wrap32 x) := by
  unfold InInt32 wrap32
  omega

/-- A 32-bit addition is the exact one when the exact sum is in the 32-bit range. -/
theorem wrap32_of_range (x : Int) (h : InInt32 x) : wrap32 x = x := by
  unfold InInt32 at h
  unfold wrap32
  omega

/-- A 32-bit addition whose exact sum is `2 ^ 31` or more, and below `2 ^ 32 + 2 ^ 31`,
leaves the sum less `2 ^ 32`. -/
theorem wrap32_overflow (x : Int) (h1 : 2147483648 ≤ x) (h2 : x < 6442450944) :
    wrap32 x = x - 4294967296 := by
  unfold wrap32
  omega


/-! ## The scan: maximum, sum and bounds -/

/-- The scan over the first `n` bins. -/
theorem scanPrefix_succ (fftBins : List Nat) (s0 : Scan) (n : Nat) :
    (List.range (n + 1)).foldl (fun s i => scanBin s i (fftBins.getD i 0)) s0 =
      scanBin ((List.range n).foldl (fun s i => scanBin s i (fftBins.getD i 0)) s0) n
        (fftBins.getD n 0) := by
  simp only [List.range_succ, List.foldl_append, List.foldl_cons, List.foldl_nil]

/-- After the first `n` bins `maxBin` bounds them, and either no bin was positive
or `maxBinIndex` is the first index holding `maxBin`. -/
theorem scanPrefix_max (fftBins : List Nat) (lm avg : Int) (n : Nat) :
    let s := (List.range n).foldl (fun s i => scanBin s i (fftBins.getD i 0)) (scanStart lm avg)
    (∀ j, j < n → (fftBins.getD j 0 : Int) ≤ s.maxBin) ∧
    ((s.maxBin = 0 ∧ s.maxBinIndex = 0) ∨
      (∃ k : Nat, s.maxBinIndex = (k : Int) ∧ k < n ∧ (fftBins.getD k 0 : Int) = s.maxBin ∧
        ∀ j, j < k → (fftBins.getD j 0 : Int) < s.maxBin)) := by
  induction n with
  | zero =>
    refine ⟨fun j hj => absurd hj (by omega), Or.inl ⟨rfl, rfl⟩⟩
  | succ n ih =>
    rw [scanPrefix_succ]
    obtain ⟨h1, h2⟩ := ih
    generalize (List.range n).foldl (fun s i => scanBin s i (fftBins.getD i 0))
      (scanStart lm avg) = s at h1 h2
    unfold scanBin
    by_cases hb : (fftBins.getD n 0 : Int) > s.maxBin
    · rw [if_pos hb]
      dsimp only
      refine ⟨?_, Or.inr ⟨n, rfl, by omega, rfl, ?_⟩⟩
      · intro j hj
        by_cases hjn : j = n
        · subst hjn; exact le_rfl
        · have := h1 j (by omega); omega
      · intro j hj
        have := h1 j hj; omega
    · rw [if_neg hb]
      refine ⟨?_, ?_⟩
      · intro j hj
        by_cases hjn : j = n
        · subst hjn; omega
        · exact h1 j (by omega)
      · rcases h2 with h2 | ⟨k, a, b, c, d⟩
        · exact Or.inl h2
        · exact Or.inr ⟨k, a, by omega, c, d⟩

/-- The scan adds to `avg` the magnitudes of the new maxima and counts them in
`bins`. -/
theorem scan_sum_count (fftBins : List Nat) (l : List Nat) (s : Scan) :
    (l.foldl (fun s i => scanBin s i (fftBins.getD i 0)) s).avg =
      s.avg + (((newMaxima (l.map (fun i => fftBins.getD i 0)) s.maxBin).sum : Nat) : Int) ∧
    (l.foldl (fun s i => scanBin s i (fftBins.getD i 0)) s).bins =
      s.bins + ((newMaxima (l.map (fun i => fftBins.getD i 0)) s.maxBin).length : Int) := by
  induction l generalizing s with
  | nil => simp [newMaxima]
  | cons a t ih =>
    simp only [List.foldl_cons, List.map_cons]
    obtain ⟨h1, h2⟩ := ih (scanBin s a (fftBins.getD a 0))
    rw [h1, h2]
    unfold scanBin
    by_cases hb : (fftBins.getD a 0 : Int) > s.maxBin
    · rw [if_pos hb]
      dsimp only
      rw [newMaxima, if_pos hb]
      simp only [List.sum_cons, List.length_cons]
      push_cast
      constructor <;> ring
    · rw [if_neg hb]
      rw [newMaxima, if_neg hb]
      exact ⟨rfl, rfl⟩

/-- The average after a scan: the average before it plus the new maxima of this
scan, divided by the contributing-bin count. -/
theorem detect_avg (fftBins : List Nat) (lm avg : Int) :
    (detect fftBins lm avg).avg = (avg + newMaximaSum fftBins).tdiv (contributingBins fftBins) := by
  obtain ⟨h1, h2⟩ := scan_sum_count fftBins (List.range FFT_BINS) (scanStart lm avg)
  show (scanLoop fftBins lm avg).avg.tdiv (scanLoop fftBins lm avg).bins = _
  unfold scanLoop
  rw [h1, h2]
  rfl

/-- One iteration keeps the floor at most 255 and the sum at most 255 per counted
bin, for a bin of at most 255. -/
theorem scanBin_upper (s : Scan) (i b : Nat) (hb : b ≤ 255)
    (h : s.latest_min ≤ 255 ∧ s.avg ≤ 255 * s.bins) :
    (scanBin s i b).latest_min ≤ 255 ∧ (scanBin s i b).avg ≤ 255 * (scanBin s i b).bins := by
  obtain ⟨h1, h2⟩ := h
  unfold scanBin
  split_ifs <;> refine ⟨?_, ?_⟩ <;> (try dsimp only) <;> omega

/-- Every read of a well-formed frame is at most 255. -/
theorem getD_le_of_wf (f : Features) (h : f.wf) (i : Nat) : f.fftBins.getD i 0 ≤ 255 := by
  by_cases hi : i < f.fftBins.length
  · rw [List.getD_eq_getElem _ _ hi]
    exact h.2 _ (List.getElem_mem _)
  · rw [List.getD_eq_default _ _ (by omega)]
    omega

/-- After the scan of a well-formed frame entered with floor and average in 0..255
both are in 0..255 again. -/
theorem detect_upper (f : Features) (hf : f.wf) (lm avg : Int)
    (h1 : 0 ≤ lm) (h2 : lm ≤ 255) (h3 : 0 ≤ avg) (h4 : avg ≤ 255) :
    (detect f.fftBins lm avg).latest_min ≤ 255 ∧ (detect f.fftBins lm avg).avg ≤ 255 := by
  have hs : (scanLoop f.fftBins lm avg).latest_min ≤ 255 ∧
      (scanLoop f.fftBins lm avg).avg ≤ 255 * (scanLoop f.fftBins lm avg).bins := by
    unfold scanLoop
    apply foldl_scan_inv (fun s => s.latest_min ≤ 255 ∧ s.avg ≤ 255 * s.bins) f.fftBins
      (fun s i hs => scanBin_upper s i _ (getD_le_of_wf f hf i) hs)
    exact ⟨h2, by simp only [scanStart]; omega⟩
  obtain ⟨-, a2, a3, -, -⟩ := scanLoop_ok f.fftBins lm avg h1 h3
  refine ⟨hs.1, ?_⟩
  show (scanLoop f.fftBins lm avg).avg.tdiv (scanLoop f.fftBins lm avg).bins ≤ 255
  rw [Int.tdiv_eq_ediv a2 (by omega)]
  exact Int.ediv_le_of_le_mul (by omega) hs.2

/-! ## Patterned Beats: lemmas -/

namespace PatternedBeats

/-- Reading a C array after one write. -/
theorem getD_set_int (l : List Int) (i j : Nat) (v : Int) :
    (l.set i v).getD j 0 = if i = j ∧ i < l.length then v else l.getD j 0 := by
  simp only [List.getD_eq_getElem?_getD, List.getElem?_set]
  by_cases h : i = j
  · subst h
    by_cases hi : i < l.length
    · simp [hi]
    · have : l[i]? = none := List.getElem?_eq_none (by omega)
      simp [hi, this]
  · simp [h]

/-- What the loop of `generatePattern` leaves after `n` iterations. -/
theorem generatePattern_range (env : Env) (n : Nat) (st : State) :
    let r := (List.range n).foldl (generatePatternStep env) st
    r.whichCol = st.whichCol ∧ r.avg = st.avg ∧ r.latest_min = st.latest_min ∧
    r.maxBinIndexSum = st.maxBinIndexSum ∧ r.randCalls = st.randCalls + n ∧
    r.pattern.length = st.pattern.length ∧
    (∀ i, i < n → i < st.pattern.length →
      r.pattern.getD i 0 = ((env.rand (st.randCalls + i) % 2 : Nat) : Int)) ∧
    (∀ i, n ≤ i → r.pattern.getD i 0 = st.pattern.getD i 0) := by
  induction n with
  | zero => simp
  | succ n ih =>
    obtain ⟨h1, h2, h3, h4, h5, h6, h7, h8⟩ := ih
    simp only [List.range_succ, List.foldl_append, List.foldl_cons, List.foldl_nil]
    refine ⟨?_, ?_, ?_, ?_, ?_, ?_, ?_, ?_⟩
    · simpa [generatePatternStep] using h1
    · simpa [generatePatternStep] using h2
    · simpa [generatePatternStep] using h3
    · simpa [generatePatternStep] using h4
    · simp only [generatePatternStep]; omega
    · simpa [generatePatternStep] using h6
    · intro i hi hlen
      simp only [generatePatternStep, getD_set_int]
      by_cases hin : n = i
      · subst hin
        rw [if_pos ⟨rfl, by omega⟩, h5]
      · rw [if_neg (fun h => hin h.1)]
        exact h7 i (by omega) hlen
    · intro i hi
      simp only [generatePatternStep, getD_set_int]
      rw [if_neg (fun h => by omega)]
      exact h8 i (by omega)
/-- A non-empty palette has a positive colour count. -/
theorem nColors_pos (env : Env) (h : env.paletteColors ≠ []) : 0 < env.nColors := by
  unfold Env.nColors
  have := List.length_pos.mpr h
  omega

/-- The statics `generatePattern` leaves alone, and the number of draws it makes. -/
theorem generatePattern_fields (env : Env) (st : State) :
    (generatePattern env st).whichCol = st.whichCol ∧ (generatePattern env st).avg = st.avg ∧
    (generatePattern env st).latest_min = st.latest_min ∧
    (generatePattern env st).maxBinIndexSum = st.maxBinIndexSum ∧
    (generatePattern env st).randCalls = st.randCalls + env.layoutData.nPanels ∧
    (generatePattern env st).pattern.length = st.pattern.length := by
  obtain ⟨h1, h2, h3, h4, h5, h6, -, -⟩ := generatePattern_range env env.layoutData.nPanels st
  exact ⟨h1, h2, h3, h4, h5, h6⟩

/-- The reduced index lies in the palette when the accumulated sum is not negative. -/
theorem paletteIndex_range (s n : Int) (hs : 0 ≤ s) (hn : 0 < n) :
    0 ≤ (s.tdiv sampleCount).tmod n ∧ (s.tdiv sampleCount).tmod n < n := by
  have h1 : s.tdiv sampleCount = s := by simp [sampleCount]
  rw [h1]
  exact ⟨Int.tmod_nonneg _ hs, Int.tmod_lt_of_pos _ hn⟩

/-- The source function `beatDetection` keeps the floor and the average
non-negative, the accumulator in the 32-bit range and the length of the mask. -/
theorem beatDetection_inv (env : Env) (f : Features) (st st1 : State)
    (h : Inv env st) (hb : beatDetection env f st = some st1) :
    0 ≤ st1.latest_min ∧ 0 ≤ st1.avg ∧ InInt32 st1.maxBinIndexSum ∧
    st1.pattern.length = MAX_PANELS := by
  obtain ⟨h1, h2, h3, h4, h5, h6⟩ := h
  obtain ⟨d1, d2, d3, d4⟩ := detect_ok f.fftBins st.latest_min st.avg h1 h2
  unfold beatDetection at hb
  simp only at hb
  split_ifs at hb with ht hn hc
  · obtain ⟨g1, g2, g3, g4, g5, g6⟩ := generatePattern_fields env
      { st with
        avg := (detect f.fftBins st.latest_min st.avg).avg
        latest_min := (detect f.fftBins st.latest_min st.avg).latest_min
        maxBinIndexSum := 0
        whichCol := ((wrap32 (st.maxBinIndexSum +
          (detect f.fftBins st.latest_min st.avg).maxBinIndex)).tdiv sampleCount).tmod
            env.nColors }
    have hst1 := Option.some.inj hb
    subst hst1
    refine ⟨?_, ?_, ?_, ?_⟩
    · rw [g3]; exact d1
    · rw [g2]; exact d2
    · rw [g4]; exact ⟨by norm_num, by norm_num⟩
    · rw [g6]; exact h6
  · have hst1 := Option.some.inj hb
    subst hst1
    exact ⟨d1, d2, wrap32_range _, h6⟩

/-- The source function `getPluginFrame` keeps the invariant. -/
theorem getPluginFrame_inv (env : Env) (f : Features) (st st1 : State) (out out1 : Output)
    (h : Inv env st) (hg : getPluginFrame env f st out = some (st1, out1)) : Inv env st1 := by
  unfold getPluginFrame at hg
  cases hb : beatDetection env f st with
  | none => simp [hb] at hg
  | some s =>
    simp only [hb] at hg
    cases hp : paletteAt env.paletteColors s.whichCol with
    | none => simp [hp] at hg
    | some c =>
      simp only [hp, Option.some.injEq, Prod.mk.injEq] at hg
      rw [← hg.1]
      obtain ⟨b1, b2, b3, b4⟩ := beatDetection_inv env f st s h hb
      obtain ⟨r1, r2⟩ := paletteAt_range env.paletteColors s.whichCol c hp
      exact ⟨b1, b2, b3, r1, fun _ => r2, b4⟩

/-- The invariant holds after `initPlugin`. -/
theorem initPlugin_inv (env : Env) : Inv env (initPlugin env) := by
  obtain ⟨g1, g2, g3, g4, g5, g6⟩ := generatePattern_fields env State.zero
  unfold initPlugin
  refine ⟨?_, ?_, ?_, ?_, ?_, ?_⟩
  · rw [g3]; simp [State.zero]
  · rw [g2]; simp [State.zero]
  · rw [g4]; exact ⟨by simp [State.zero], by simp [State.zero]⟩
  · rw [g1]; simp [State.zero]
  · intro h; rw [g1]; simpa [State.zero] using nColors_pos env h
  · rw [g6]; simp [State.zero]

/-- Every reachable state satisfies the invariant. -/
theorem reachable_inv (env : Env) (st : State) (h : Reachable env st) : Inv env st := by
  induction h with
  | init => exact initPlugin_inv env
  | frame _ _ hg ih => exact getPluginFrame_inv env _ _ _ _ _ ih hg

/-- An array entry read with a default is the entry itself inside the array. -/
theorem getElem?_of_getD (l : List Int) (i : Nat) (h : i < l.length) :
    l[i]? = some (l.getD i 0) := by
  rw [List.getD_eq_getElem _ _ h, List.getElem?_eq_getElem h]

/-- What `generatePattern` leaves: the mask entries below `nPanels` are the next
draws, the others are untouched. -/
theorem generatePattern_spec (env : Env) (st : State) :
    (generatePattern env st).randCalls = st.randCalls + env.layoutData.nPanels ∧
    (generatePattern env st).pattern.length = st.pattern.length ∧
    (∀ i, i < env.layoutData.nPanels → i < st.pattern.length →
      (generatePattern env st).pattern.getD i 0 =
        ((env.rand (st.randCalls + i) % 2 : Nat) : Int)) ∧
    (∀ i, env.layoutData.nPanels ≤ i →
      (generatePattern env st).pattern.getD i 0 = st.pattern.getD i 0) := by
  obtain ⟨-, -, -, -, h5, h6, h7, h8⟩ := generatePattern_range env env.layoutData.nPanels st
  exact ⟨h5, h6, h7, h8⟩

/-- The rendering loop writes `frames[i]` for `i < n` and nothing else. -/
theorem renderFrames_range (env : Env) (st : State) (c : RGB_t) (frames : Nat → Frame_t)
    (n i : Nat) :
    (List.range n).foldl (fun fr i => Function.update fr i (panelFrame env st c i)) frames i =
      if i < n then panelFrame env st c i else frames i := by
  induction n with
  | zero => simp
  | succ n ih =>
    simp only [List.range_succ, List.foldl_append, List.foldl_cons, List.foldl_nil]
    by_cases h : i = n
    · subst h
      simp
    · rw [Function.update_noteq h, ih]
      by_cases h2 : i < n
      · rw [if_pos h2, if_pos (by omega)]
      · rw [if_neg h2, if_neg (by omega)]

/-- A call of `getPluginFrame` completes when `beatDetection` does and leaves a
palette index inside the palette. -/
theorem getPluginFrame_of_beatDetection (env : Env) (f : Features) (st st1 : State)
    (out : Output) (hb : beatDetection env f st = some st1)
    (h0 : 0 ≤ st1.whichCol) (h1 : st1.whichCol < env.nColors) :
    ∃ c, paletteAt env.paletteColors st1.whichCol = some c ∧
      getPluginFrame env f st out = some (st1,
        { frames := renderFrames env st1 c out.frames
          nFrames := (env.layoutData.nPanels : Int) }) := by
  obtain ⟨c, hc⟩ := paletteAt_some env.paletteColors st1.whichCol h0 h1
  refine ⟨c, hc, ?_⟩
  unfold getPluginFrame
  simp only [hb, hc]

/-- A call of `getPluginFrame` that completes leaves the statics `beatDetection`
leaves. -/
theorem getPluginFrame_state (env : Env) (f : Features) (st st1 st2 : State)
    (out out2 : Output) (hb : beatDetection env f st = some st1)
    (hg : getPluginFrame env f st out = some (st2, out2)) : st2 = st1 := by
  unfold getPluginFrame at hg
  simp only [hb] at hg
  cases hp : paletteAt env.paletteColors st1.whichCol with
  | none => simp [hp] at hg
  | some c =>
    simp only [hp, Option.some.injEq, Prod.mk.injEq] at hg
    exact hg.1.symm

end PatternedBeats

/-! ## Soft Lightning: lemmas -/

namespace SoftLightning

/-- Removing a transient slot leaves slot 0 alone. -/
theorem removeLight_lights_zero (idx : Int) (st : State) (h : 1 ≤ idx) :
    (removeLight idx st).lights 0 = st.lights 0 := by
  simp only [removeLight]
  rw [if_neg]
  omega

/-- The statics `createLight` leaves alone. -/
theorem createLight_fields (env : Env) (st st1 : State) (h : createLight env st = some st1) :
    st1.avg = st.avg ∧ st1.latest_min = st.latest_min ∧
    st1.maxBinIndexSum = st.maxBinIndexSum ∧ st1.cnt = st.cnt ∧
    st1.maxX = st.maxX ∧ st1.minX = st.minX ∧ st1.maxY = st.maxY ∧ st1.minY = st.minY := by
  unfold createLight at h
  simp only at h
  split_ifs at h with h1 h2 h2
  all_goals
    have := Option.some.inj h
    subst this
    simp [removeLight]

/-- The statics `colorize` leaves alone; slot 0 keeps its position. -/
theorem colorize_fields (env : Env) (c : Int) (st st1 : State) (h : colorize env c st = some st1) :
    st1.avg = st.avg ∧ st1.latest_min = st.latest_min ∧
    st1.maxBinIndexSum = st.maxBinIndexSum ∧ st1.cnt = st.cnt ∧ st1.nLights = st.nLights ∧
    (st1.lights 0).x = (st.lights 0).x ∧ (st1.lights 0).y = (st.lights 0).y ∧
    (st1.maxX = st.maxX ∧ st1.minX = st.minX ∧ st1.maxY = st.maxY ∧ st1.minY = st.minY ∧
      st1.randCalls = st.randCalls) := by
  unfold colorize at h
  cases hp : paletteAt env.paletteColours c with
  | none => simp [hp] at h
  | some col =>
    simp only [hp, Option.some.injEq] at h
    subst h
    simp

/-- The statics the loop of `propogateSources` leaves alone, and the bounds on the count. -/
theorem propogateLoop_fields (env : Env) (i : Int) (st : State) :
    (propogateLoop env i st).avg = st.avg ∧
    (propogateLoop env i st).latest_min = st.latest_min ∧
    (propogateLoop env i st).maxBinIndexSum = st.maxBinIndexSum ∧
    (propogateLoop env i st).cnt = st.cnt ∧
    ((propogateLoop env i st).maxX = st.maxX ∧ (propogateLoop env i st).minX = st.minX ∧
      (propogateLoop env i st).maxY = st.maxY ∧ (propogateLoop env i st).minY = st.minY ∧
      (propogateLoop env i st).randCalls = st.randCalls) ∧
    (propogateLoop env i st).nLights ≤ st.nLights ∧
    (i ≤ st.nLights → i ≤ (propogateLoop env i st).nLights) ∧
    (1 ≤ i → (propogateLoop env i st).lights 0 = st.lights 0) := by
  induction i, st using propogateLoop.induct env with
  | case1 i st hlt st1 d hd ih =>
    have e : propogateLoop env i st = propogateLoop env i (removeLight i st1) := by
      rw [propogateLoop.eq_1, if_pos hlt]
      exact if_pos hd
    rw [e]
    obtain ⟨a1, a2, a3, a4, a0, a5, a6, a7⟩ := ih
    have hn : (removeLight i st1).nLights = st.nLights - 1 := rfl
    refine ⟨a1, a2, a3, a4, a0, ?_, ?_, ?_⟩
    · omega
    · intro _; apply a6; omega
    · intro h1
      rw [a7 h1, removeLight_lights_zero _ _ h1]
      show Function.update st.lights i (advance (st.lights i)) 0 = st.lights 0
      rw [Function.update_noteq]
      omega
  | case2 i st hlt st1 d hd ih =>
    have e : propogateLoop env i st = propogateLoop env (i + 1) st1 := by
      rw [propogateLoop.eq_1, if_pos hlt]
      exact if_neg hd
    rw [e]
    obtain ⟨a1, a2, a3, a4, a0, a5, a6, a7⟩ := ih
    have hn : st1.nLights = st.nLights := rfl
    refine ⟨a1, a2, a3, a4, a0, a5, ?_, ?_⟩
    · intro _
      have := a6 (by omega)
      omega
    · intro h1
      rw [a7 (by omega)]
      show Function.update st.lights i (advance (st.lights i)) 0 = st.lights 0
      rw [Function.update_noteq]
      omega
  | case3 i st hlt =>
    rw [propogateLoop.eq_1, if_neg hlt]
    simp

/-- The statics the recolour step leaves alone; the accumulator is kept or zeroed. -/
theorem recolour_fields (env : Env) (f : Features) (d : Detect) (st st1 : State)
    (h : recolour env f d st = some st1) :
    st1.avg = st.avg ∧ st1.latest_min = st.latest_min ∧ st1.cnt = st.cnt ∧
    st1.nLights = st.nLights ∧
    (st1.maxBinIndexSum = st.maxBinIndexSum ∨ st1.maxBinIndexSum = 0) := by
  unfold recolour at h
  split_ifs at h with ht
  · cases hc : colourArg env st.maxBinIndexSum sampleCount with
    | none => simp [hc] at h
    | some c =>
      simp only [hc] at h
      obtain ⟨a1, a2, a3, a4, a5, -, -, -⟩ := colorize_fields env c _ st1 h
      exact ⟨a1, a2, a4, a5, Or.inr a3⟩
  · have := Option.some.inj h
    subst this
    simp

/-- The source function `getPluginFrame` keeps the invariant. -/
theorem soft_getPluginFrame_inv (env : Env) (f : Features) (st st1 : State) (out out1 : Output)
    (h : Inv st) (hg : getPluginFrame env f st out = some (st1, out1)) : Inv st1 := by
  obtain ⟨h1, h2, h3, h4⟩ := h
  obtain ⟨d1, d2, d3, d4⟩ := detect_ok f.fftBins st.latest_min st.avg h1 h2
  unfold getPluginFrame at hg
  simp only at hg
  generalize hst0 : ({ st with
      avg := (detect f.fftBins st.latest_min st.avg).avg
      latest_min := (detect f.fftBins st.latest_min st.avg).latest_min
      maxBinIndexSum := wrap32 (st.maxBinIndexSum + (detect f.fftBins st.latest_min st.avg).maxBinIndex) } :
      State) = st0 at hg
  have i0 : Inv st0 := by
    subst hst0
    exact ⟨d1, d2, wrap32_range _, h4⟩
  have i2 : ∀ st2, (if triggers f.isOnset f (detect f.fftBins st.latest_min st.avg) = true
      then createLight env st0 else some st0) = some st2 → Inv st2 := by
    intro st2 h2
    split_ifs at h2 with ht
    · obtain ⟨a1, a2, a3, a4, -⟩ := createLight_fields env st0 st2 h2
      obtain ⟨b1, b2, b3, b4⟩ := i0
      exact ⟨by rw [a2]; exact b1, by rw [a1]; exact b2, by rw [a3]; exact b3, by rw [a4]; exact b4⟩
    · have := Option.some.inj h2
      subst this
      exact i0
  cases hc : (if triggers f.isOnset f (detect f.fftBins st.latest_min st.avg) = true
      then createLight env st0 else some st0) with
  | none => simp [hc] at hg
  | some st2 =>
    obtain ⟨b1, b2, b3, b4⟩ := i2 st2 hc
    simp only [hc] at hg
    split_ifs at hg with hcnt
    · simp only [Option.some.injEq, Prod.mk.injEq] at hg
      rw [← hg.1]
      refine ⟨b1, b2, b3, ?_⟩
      simp only [SKIP_COUNT] at hcnt
      right
      show st2.cnt + 1 = 1
      omega
    · cases hr : recolour env f (detect f.fftBins st.latest_min st.avg) { st2 with cnt := 0 } with
      | none => simp [hr] at hg
      | some st3 =>
        simp only [hr, Option.some.injEq, Prod.mk.injEq] at hg
        rw [← hg.1]
        obtain ⟨r1, r2, r3, r4, r5⟩ := recolour_fields env f _ _ st3 hr
        obtain ⟨p1, p2, p3, p4, -⟩ := propogateLoop_fields env 1 st3
        unfold propogateSources
        refine ⟨by rw [p2, r2]; exact b1, by rw [p1, r1]; exact b2, ?_, ?_⟩
        · rw [p3]
          rcases r5 with r5 | r5
          · rw [r5]; exact b3
          · rw [r5]; exact ⟨by norm_num, by norm_num⟩
        · left; rw [p4, r3]

/-- The invariant holds after `initPlugin`. -/
theorem soft_initPlugin_inv (env : Env) : Inv (initPlugin env) := by
  refine ⟨?_, ?_, ⟨?_, ?_⟩, ?_⟩ <;> simp [initPlugin, State.zero]

/-- Every reachable state satisfies the invariant. -/
theorem soft_reachable_inv (env : Env) (st : State) (h : Reachable env st) : Inv st := by
  induction h with
  | init => exact soft_initPlugin_inv env
  | frame _ _ hg ih => exact soft_getPluginFrame_inv env _ _ _ _ _ ih hg

/-- What a completed `createLight` does to a field of one or two sources: the
divisor was not zero, the field has two sources, slot 0 is untouched and slot 1 is
the new source; two draws were made. -/
theorem createLight_spec (env : Env) (st st1 : State) (h : createLight env st = some st1)
    (h1 : 1 ≤ st.nLights) (h2 : st.nLights ≤ 2) :
    xExtent st ≠ 0 ∧ st1.nLights = 2 ∧ st1.lights 0 = st.lights 0 ∧
    st1.lights 1 = newLight env st (env.floatQuot (env.rand st.randCalls) env.RAND_MAX)
      (env.rand (st.randCalls + 1) : Int) (xExtent st) ∧
    st1.randCalls = st.randCalls + 2 := by
  unfold createLight at h
  simp only at h
  by_cases hn : st.nLights ≥ MAX_SOURCES
  · have hn2 : st.nLights = 2 := by simp only [MAX_SOURCES] at hn; omega
    rw [if_pos hn] at h
    have hx : (removeLight 1 st).maxX = st.maxX ∧ (removeLight 1 st).minX = st.minX ∧
        (removeLight 1 st).randCalls = st.randCalls ∧
        (removeLight 1 st).nLights = 1 := by
      simp [removeLight, hn2]
    obtain ⟨x1, x2, x3, x4⟩ := hx
    rw [x1, x2, x3, x4] at h
    by_cases hd : truncToInt st.maxX - truncToInt st.minX = 0
    · rw [if_pos hd] at h
      exact absurd h (by simp)
    · rw [if_neg hd] at h
      have e := (Option.some.inj h).symm
      refine ⟨hd, by rw [e]; norm_num, ?_, ?_, by rw [e]⟩
      · rw [e]
        dsimp only
        rw [Function.update_noteq (by decide), removeLight_lights_zero 1 st (by decide)]
      · rw [e]
        dsimp only
        rw [Function.update_same]
        simp only [newLight, x2, xExtent]
  · have hn1 : st.nLights = 1 := by simp only [MAX_SOURCES] at hn; omega
    rw [if_neg hn] at h
    by_cases hd : truncToInt st.maxX - truncToInt st.minX = 0
    · rw [if_pos hd] at h
      exact absurd h (by simp)
    · rw [if_neg hd] at h
      have e := (Option.some.inj h).symm
      refine ⟨hd, by rw [e]; simp [hn1], ?_, ?_, by rw [e]⟩
      · rw [e]
        dsimp only
        rw [Function.update_noteq (by omega)]
      · rw [e]
        dsimp only
        rw [hn1, Function.update_same]
        simp only [newLight, xExtent]

/-- A call of `createLight` completes when the truncated X extent is not zero. -/
theorem createLight_isSome (env : Env) (st : State) (h : xExtent st ≠ 0) :
    ∃ st1, createLight env st = some st1 := by
  unfold createLight
  simp only
  by_cases hn : st.nLights ≥ MAX_SOURCES
  · rw [if_pos hn]
    have hx : (removeLight 1 st).maxX = st.maxX ∧ (removeLight 1 st).minX = st.minX := by
      simp [removeLight]
    rw [hx.1, hx.2, if_neg (show ¬ (truncToInt st.maxX - truncToInt st.minX = 0) from h)]
    exact ⟨_, rfl⟩
  · rw [if_neg hn, if_neg (show ¬ (truncToInt st.maxX - truncToInt st.minX = 0) from h)]
    exact ⟨_, rfl⟩

/-- The field invariant holds after `initPlugin`. -/
theorem initPlugin_fieldInv (env : Env) : FieldInv env (initPlugin env) := by
  refine ⟨?_, ?_, ?_, ?_, ⟨rfl, rfl, rfl, rfl⟩, ?_⟩
  · simp [initPlugin, State.zero]
  · simp [initPlugin, State.zero, MAX_SOURCES]
  · simp [initPlugin]
  · simp [initPlugin]
  · simp [initPlugin, State.zero]

/-- A completed `createLight` keeps the field invariant. -/
theorem createLight_fieldInv (env : Env) (st st1 : State) (hi : FieldInv env st)
    (h : createLight env st = some st1) : FieldInv env st1 := by
  obtain ⟨i1, i2, i3, i4, ⟨e1, e2, e3, e4⟩, i6⟩ := hi
  obtain ⟨c1, c2, c3, c4, c5⟩ := createLight_spec env st st1 h i1 (by simpa [MAX_SOURCES] using i2)
  obtain ⟨-, -, -, -, f1, f2, f3, f4⟩ := createLight_fields env st st1 h
  refine ⟨by omega, by simp [MAX_SOURCES, c2], by rw [c3]; exact i3, by rw [c3]; exact i4,
    ⟨f1.trans e1, f2.trans e2, f3.trans e3, f4.trans e4⟩, ?_⟩
  intro _
  simpa [xExtent, f1, f2] using c1

/-- The source function `propogateSources` keeps the field invariant. -/
theorem propogateSources_fieldInv (env : Env) (st : State) (hi : FieldInv env st) :
    FieldInv env (propogateSources env st) := by
  obtain ⟨i1, i2, i3, i4, ⟨e1, e2, e3, e4⟩, i6⟩ := hi
  obtain ⟨-, -, -, -, ⟨f1, f2, f3, f4, -⟩, p5, p6, p7⟩ := propogateLoop_fields env 1 st
  unfold propogateSources
  refine ⟨p6 i1, le_trans p5 i2, by rw [p7 le_rfl]; exact i3, by rw [p7 le_rfl]; exact i4,
    ⟨f1.trans e1, f2.trans e2, f3.trans e3, f4.trans e4⟩, ?_⟩
  intro h2
  have : st.nLights = 2 := by simp only [MAX_SOURCES] at i2; omega
  simpa [xExtent, f1, f2] using i6 this

/-- A completed `colorize` keeps the field invariant. -/
theorem colorize_fieldInv (env : Env) (c : Int) (st st1 : State) (hi : FieldInv env st)
    (h : colorize env c st = some st1) : FieldInv env st1 := by
  obtain ⟨i1, i2, i3, i4, ⟨e1, e2, e3, e4⟩, i6⟩ := hi
  obtain ⟨-, -, -, -, a5, a6, a7, f1, f2, f3, f4, -⟩ := colorize_fields env c st st1 h
  refine ⟨by omega, by omega, a6.trans i3, a7.trans i4,
    ⟨f1.trans e1, f2.trans e2, f3.trans e3, f4.trans e4⟩, ?_⟩
  intro h2
  simpa [xExtent, f1, f2] using i6 (a5 ▸ h2)

/-- Every state of the light-source field satisfies the field invariant. -/
theorem fieldReachable_inv (env : Env) (st : State) (h : FieldReachable env st) :
    FieldInv env st := by
  induction h with
  | init => exact initPlugin_fieldInv env
  | create _ hc ih => exact createLight_fieldInv env _ _ ih hc
  | propogate _ ih => exact propogateSources_fieldInv env _ ih
  | colour _ hc ih => exact colorize_fieldInv env _ _ _ ih hc

/-- The field invariant only reads the light array, its count and the extents. -/
theorem fieldInv_congr (env : Env) (st st1 : State) (h : FieldInv env st)
    (h1 : st1.lights = st.lights) (h2 : st1.nLights = st.nLights)
    (h3 : st1.maxX = st.maxX) (h4 : st1.minX = st.minX)
    (h5 : st1.maxY = st.maxY) (h6 : st1.minY = st.minY) : FieldInv env st1 := by
  unfold FieldInv ExtentsFixed xExtent at *
  rw [h1, h2, h3, h4, h5, h6]
  exact h

/-- The two outcomes of a completed call of `getPluginFrame`: a return at the gate
with the output untouched, or a rendering of every panel. -/
theorem getPluginFrame_some (env : Env) (f : Features) (st st1 : State) (out out1 : Output)
    (hg : getPluginFrame env f st out = some (st1, out1)) :
    ∃ st2,
      (if triggers f.isOnset f (detectOf f st) = true then
          createLight env { st with
            avg := (detectOf f st).avg, latest_min := (detectOf f st).latest_min,
            maxBinIndexSum := wrap32 (st.maxBinIndexSum + (detectOf f st).maxBinIndex) }
        else some { st with
            avg := (detectOf f st).avg, latest_min := (detectOf f st).latest_min,
            maxBinIndexSum := wrap32 (st.maxBinIndexSum + (detectOf f st).maxBinIndex) }) = some st2 ∧
      st2.cnt = st.cnt ∧
      ((st2.cnt < SKIP_COUNT ∧ st1 = { st2 with cnt := st2.cnt + 1 } ∧ out1 = out) ∨
       (¬ st2.cnt < SKIP_COUNT ∧ ∃ st3,
          recolour env f (detectOf f st) { st2 with cnt := 0 } = some st3 ∧
          st1 = propogateSources env st3 ∧
          out1 = { frames := renderFrames env st3 out.frames
                   nFrames := (env.layoutData.nPanels : Int) })) := by
  unfold getPluginFrame at hg
  simp only at hg
  unfold detectOf
  cases hc : (if triggers f.isOnset f (detect f.fftBins st.latest_min st.avg) = true then
          createLight env { st with
            avg := (detect f.fftBins st.latest_min st.avg).avg
            latest_min := (detect f.fftBins st.latest_min st.avg).latest_min
            maxBinIndexSum := wrap32 (st.maxBinIndexSum +
              (detect f.fftBins st.latest_min st.avg).maxBinIndex) }
        else some { st with
            avg := (detect f.fftBins st.latest_min st.avg).avg
            latest_min := (detect f.fftBins st.latest_min st.avg).latest_min
            maxBinIndexSum := wrap32 (st.maxBinIndexSum +
              (detect f.fftBins st.latest_min st.avg).maxBinIndex) }) with
  | none => simp [hc] at hg
  | some st2 =>
    simp only [hc] at hg
    have hcnt : st2.cnt = st.cnt := by
      split_ifs at hc with ht
      · exact (createLight_fields env _ st2 hc).2.2.2.1
      · rw [← Option.some.inj hc]
    refine ⟨st2, rfl, hcnt, ?_⟩
    by_cases hk : st2.cnt < SKIP_COUNT
    · rw [if_pos hk] at hg
      simp only [Option.some.injEq, Prod.mk.injEq] at hg
      exact Or.inl ⟨hk, hg.1.symm, hg.2.symm⟩
    · rw [if_neg hk] at hg
      cases hr : recolour env f (detect f.fftBins st.latest_min st.avg) { st2 with cnt := 0 } with
      | none => simp [hr] at hg
      | some st3 =>
        simp only [hr, Option.some.injEq, Prod.mk.injEq] at hg
        exact Or.inr ⟨hk, st3, rfl, hg.1.symm, hg.2.symm⟩

/-- A completed recolour step keeps the field invariant. -/
theorem recolour_fieldInv (env : Env) (f : Features) (d : Detect) (st st1 : State)
    (hi : FieldInv env st) (h : recolour env f d st = some st1) : FieldInv env st1 := by
  unfold recolour at h
  split_ifs at h with ht
  · cases hc : colourArg env st.maxBinIndexSum sampleCount with
    | none => simp [hc] at h
    | some c =>
      simp only [hc] at h
      exact colorize_fieldInv env c { st with maxBinIndexSum := 0 } st1
        (fieldInv_congr env st { st with maxBinIndexSum := 0 } hi rfl rfl rfl rfl rfl rfl) h
  · rw [← Option.some.inj h]
    exact hi

/-- A completed call of `getPluginFrame` keeps the field invariant. -/
theorem getPluginFrame_fieldInv (env : Env) (f : Features) (st st1 : State)
    (out out1 : Output) (hi : FieldInv env st)
    (hg : getPluginFrame env f st out = some (st1, out1)) : FieldInv env st1 := by
  obtain ⟨st2, h2, -, h3⟩ := getPluginFrame_some env f st st1 out out1 hg
  have i0 : FieldInv env { st with
      avg := (detectOf f st).avg, latest_min := (detectOf f st).latest_min,
      maxBinIndexSum := wrap32 (st.maxBinIndexSum + (detectOf f st).maxBinIndex) } :=
    fieldInv_congr env st _ hi rfl rfl rfl rfl rfl rfl
  have i2 : FieldInv env st2 := by
    split_ifs at h2 with ht
    · exact createLight_fieldInv env _ st2 i0 h2
    · rw [← Option.some.inj h2]
      exact i0
  rcases h3 with ⟨-, e, -⟩ | ⟨-, st3, hr, e, -⟩
  · rw [e]
    exact fieldInv_congr env st2 _ i2 rfl rfl rfl rfl rfl rfl
  · rw [e]
    exact propogateSources_fieldInv env st3
      (recolour_fieldInv env f (detectOf f st) { st2 with cnt := 0 } st3
        (fieldInv_congr env st2 { st2 with cnt := 0 } i2 rfl rfl rfl rfl rfl rfl) hr)

/-- Every reachable state satisfies the field invariant. -/
theorem reachable_fieldInv (env : Env) (st : State) (h : Reachable env st) :
    FieldInv env st := by
  induction h with
  | init => exact initPlugin_fieldInv env
  | frame _ _ hg ih => exact getPluginFrame_fieldInv env _ _ _ _ _ ih hg

/-- After `k` completed calls the state is reachable and the skip counter is
`k mod 2`. -/
theorem reachableIn_cnt (env : Env) (k : Nat) (st : State) (h : ReachableIn env k st) :
    Reachable env st ∧ st.cnt = ((k % 2 : Nat) : Int) := by
  induction h with
  | init => exact ⟨Reachable.init, rfl⟩
  | @frame k st st1 f out out1 _ hf hg ih =>
    refine ⟨Reachable.frame ih.1 hf hg, ?_⟩
    obtain ⟨st2, -, hc, h3⟩ := getPluginFrame_some env f st st1 out out1 hg
    have ih2 := ih.2
    simp only [SKIP_COUNT] at h3
    rcases h3 with ⟨hk, e, -⟩ | ⟨hk, st3, hr, e, -⟩
    · rw [e]
      show st2.cnt + 1 = _
      omega
    · rw [e]
      obtain ⟨-, -, r3, -⟩ := recolour_fields env f _ _ st3 hr
      obtain ⟨-, -, -, p4, -⟩ := propogateLoop_fields env 1 st3
      unfold propogateSources
      rw [p4, r3]
      show (0 : Int) = _
      omega

/-- The recolour step completes when the palette is not empty and the accumulator
is not negative. -/
theorem recolour_isSome (env : Env) (f : Features) (d : Detect) (st : State)
    (hpal : env.paletteColours ≠ []) (hs : 0 ≤ st.maxBinIndexSum) :
    ∃ st1, recolour env f d st = some st1 := by
  have hpos : 0 < env.nColours := by
    unfold Env.nColours
    have := List.length_pos.mpr hpal
    omega
  have hr := PatternedBeats.paletteIndex_range st.maxBinIndexSum env.nColours hs hpos
  obtain ⟨c, hc⟩ := paletteAt_some env.paletteColours _ hr.1 hr.2
  unfold recolour
  split_ifs with ht
  · have e : colourArg env st.maxBinIndexSum sampleCount =
        some ((st.maxBinIndexSum.tdiv sampleCount).tmod env.nColours) := by
      unfold colourArg
      rw [if_neg (by decide), if_neg (by omega)]
    simp only [e]
    unfold colorize
    simp only [hc]
    exact ⟨_, rfl⟩
  · exact ⟨_, rfl⟩

/-- A call of `getPluginFrame` from a reachable state completes when the palette is
not empty, the truncated X extent of the layout is not zero and the accumulator has
not wrapped to a negative value. -/
theorem getPluginFrame_isSome (env : Env) (f : Features) (st : State) (out : Output)
    (hr : Reachable env st) (hpal : env.paletteColours ≠ [])
    (hx : truncToInt (getMaxXCoord env) - truncToInt (getMinXCoord env) ≠ 0)
    (hacc : 0 ≤ wrap32 (st.maxBinIndexSum + (detectOf f st).maxBinIndex)) :
    ∃ st1 out1, getPluginFrame env f st out = some (st1, out1) := by
  unfold detectOf at hacc
  obtain ⟨h1, h2, h3, -⟩ := soft_reachable_inv env st hr
  obtain ⟨-, -, -, -, ⟨e1, e2, -, -⟩, -⟩ := reachable_fieldInv env st hr
  obtain ⟨-, -, -, d4⟩ := detect_ok f.fftBins st.latest_min st.avg h1 h2
  have hs2 : ∃ st2, (if triggers f.isOnset f (detect f.fftBins st.latest_min st.avg) = true then
          createLight env { st with
            avg := (detect f.fftBins st.latest_min st.avg).avg
            latest_min := (detect f.fftBins st.latest_min st.avg).latest_min
            maxBinIndexSum := wrap32 (st.maxBinIndexSum +
              (detect f.fftBins st.latest_min st.avg).maxBinIndex) }
        else some { st with
            avg := (detect f.fftBins st.latest_min st.avg).avg
            latest_min := (detect f.fftBins st.latest_min st.avg).latest_min
            maxBinIndexSum := wrap32 (st.maxBinIndexSum +
              (detect f.fftBins st.latest_min st.avg).maxBinIndex) }) = some st2 ∧
        0 ≤ st2.maxBinIndexSum := by
    split_ifs with ht
    · obtain ⟨st2, hc⟩ := createLight_isSome env { st with
            avg := (detect f.fftBins st.latest_min st.avg).avg
            latest_min := (detect f.fftBins st.latest_min st.avg).latest_min
            maxBinIndexSum := wrap32 (st.maxBinIndexSum +
              (detect f.fftBins st.latest_min st.avg).maxBinIndex) }
        (by simp only [xExtent]; rw [e1, e2]; exact hx)
      refine ⟨st2, hc, ?_⟩
      rw [(createLight_fields env _ st2 hc).2.2.1]
      exact hacc
    · exact ⟨_, rfl, hacc⟩
  obtain ⟨st2, hc, hs⟩ := hs2
  unfold getPluginFrame
  simp only [hc]
  split_ifs with hk
  · exact ⟨_, _, rfl⟩
  · obtain ⟨st3, h3⟩ := recolour_isSome env f (detect f.fftBins st.latest_min st.avg)
      { st2 with cnt := 0 } hpal hs
    simp only [h3]
    exact ⟨_, _, rfl⟩

/-- The rendering loop writes `frames[i]` for `i < n` and nothing else. -/
theorem soft_renderFrames_range (env : Env) (st : State) (frames : Nat → Frame_t) (n i : Nat) :
    (List.range n).foldl (fun fr i => Function.update fr i (panelFrame env st i)) frames i =
      if i < n then panelFrame env st i else frames i := by
  induction n with
  | zero => simp
  | succ n ih =>
    simp only [List.range_succ, List.foldl_append, List.foldl_cons, List.foldl_nil]
    by_cases h : i = n
    · subst h
      simp
    · rw [Function.update_noteq h, ih]
      by_cases h2 : i < n
      · rw [if_pos h2, if_pos (by omega)]
      · rw [if_neg h2, if_neg (by omega)]

end SoftLightning

/-! ## Soft Lightning: the bounding box -/

namespace SoftLightning

/-- The loop of `getMaxXCoord` and `getMaxYCoord` leaves the greatest of the start
value and the coordinates of the panels. -/
theorem foldl_max_spec (g : Panel → ℚ) (l : List Panel) :
    ∀ m0 : ℚ, IsMaxOver g l m0 (l.foldl (fun m p => if g p > m then g p else m) m0) := by
  induction l with
  | nil =>
    intro m0
    exact ⟨le_rfl, fun p hp => absurd hp (List.not_mem_nil p), Or.inl rfl⟩
  | cons a t ih =>
    intro m0
    simp only [List.foldl_cons]
    by_cases h : g a > m0
    · rw [if_pos h]
      obtain ⟨h1, h2, h3⟩ := ih (g a)
      refine ⟨le_trans (le_of_lt h) h1, ?_, ?_⟩
      · intro p hp
        rcases List.mem_cons.mp hp with e | e
        · rw [e]; exact h1
        · exact h2 p e
      · rcases h3 with e | ⟨p, hp, e⟩
        · exact Or.inr ⟨a, List.mem_cons_self a t, e.symm⟩
        · exact Or.inr ⟨p, List.mem_cons_of_mem a hp, e⟩
    · rw [if_neg h]
      obtain ⟨h1, h2, h3⟩ := ih m0
      refine ⟨h1, ?_, ?_⟩
      · intro p hp
        rcases List.mem_cons.mp hp with e | e
        · rw [e]; exact le_trans (not_lt.mp h) h1
        · exact h2 p e
      · rcases h3 with e | ⟨p, hp, e⟩
        · exact Or.inl e
        · exact Or.inr ⟨p, List.mem_cons_of_mem a hp, e⟩

/-- The loop of `getMinXCoord` and `getMinYCoord` leaves the least of the start
value and the coordinates of the panels. -/
theorem foldl_min_spec (g : Panel → ℚ) (l : List Panel) :
    ∀ m0 : ℚ, IsMinOver g l m0 (l.foldl (fun m p => if g p < m then g p else m) m0) := by
  induction l with
  | nil =>
    intro m0
    exact ⟨le_rfl, fun p hp => absurd hp (List.not_mem_nil p), Or.inl rfl⟩
  | cons a t ih =>
    intro m0
    simp only [List.foldl_cons]
    by_cases h : g a < m0
    · rw [if_pos h]
      obtain ⟨h1, h2, h3⟩ := ih (g a)
      refine ⟨le_trans h1 (le_of_lt h), ?_, ?_⟩
      · intro p hp
        rcases List.mem_cons.mp hp with e | e
        · rw [e]; exact h1
        · exact h2 p e
      · rcases h3 with e | ⟨p, hp, e⟩
        · exact Or.inr ⟨a, List.mem_cons_self a t, e.symm⟩
        · exact Or.inr ⟨p, List.mem_cons_of_mem a hp, e⟩
    · rw [if_neg h]
      obtain ⟨h1, h2, h3⟩ := ih m0
      refine ⟨h1, ?_, ?_⟩
      · intro p hp
        rcases List.mem_cons.mp hp with e | e
        · rw [e]; exact le_trans h1 (not_lt.mp h)
        · exact h2 p e
      · rcases h3 with e | ⟨p, hp, e⟩
        · exact Or.inl e
        · exact Or.inr ⟨p, List.mem_cons_of_mem a hp, e⟩

/-- The four extents `initPlugin` computes are the bounding box of the layout. -/
theorem getCoords_boundingBox (env : Env) :
    IsBoundingBox env.layoutData (getMaxXCoord env) (getMinXCoord env) (getMaxYCoord env)
      (getMinYCoord env) :=
  ⟨foldl_max_spec (fun p => p.centroid.x) env.layoutData.panels _,
   foldl_min_spec (fun p => p.centroid.x) env.layoutData.panels _,
   foldl_max_spec (fun p => p.centroid.y) env.layoutData.panels _,
   foldl_min_spec (fun p => p.centroid.y) env.layoutData.panels _⟩

/-- In every state with the extents of `initPlugin` the statics `maxX`, `minX`,
`maxY`, `minY` are the bounding box of the layout. -/
theorem extentsFixed_boundingBox (env : Env) (st : State) (h : ExtentsFixed env st) :
    IsBoundingBox env.layoutData st.maxX st.minX st.maxY st.minY := by
  obtain ⟨e1, e2, e3, e4⟩ := h
  rw [e1, e2, e3, e4]
  exact getCoords_boundingBox env

end SoftLightning

/-! ## The detector statics after a call -/

/-- A completed call of Patterned Beats `getPluginFrame` stores the floor and the
average of this frame's scan. -/
theorem PatternedBeats.pat_getPluginFrame_detect (env : PatternedBeats.Env) (f : Features)
    (st st1 : PatternedBeats.State) (out out1 : Output)
    (hg : PatternedBeats.getPluginFrame env f st out = some (st1, out1)) :
    st1.avg = (PatternedBeats.detectOf f st).avg ∧
    st1.latest_min = (PatternedBeats.detectOf f st).latest_min := by
  unfold PatternedBeats.getPluginFrame at hg
  cases hb : PatternedBeats.beatDetection env f st with
  | none => simp [hb] at hg
  | some s =>
    simp only [hb] at hg
    cases hp : paletteAt env.paletteColors s.whichCol with
    | none => simp [hp] at hg
    | some c =>
      simp only [hp, Option.some.injEq, Prod.mk.injEq] at hg
      rw [← hg.1]
      unfold PatternedBeats.beatDetection at hb
      simp only at hb
      split_ifs at hb with h1 h2 h3
      · have e := Option.some.inj hb
        rw [← e]
        obtain ⟨-, g2, g3, -⟩ := PatternedBeats.generatePattern_fields env
          { st with
            avg := (detect f.fftBins st.latest_min st.avg).avg
            latest_min := (detect f.fftBins st.latest_min st.avg).latest_min
            maxBinIndexSum := 0
            whichCol := ((wrap32 (st.maxBinIndexSum +
              (detect f.fftBins st.latest_min st.avg).maxBinIndex)).tdiv sampleCount).tmod
                env.nColors }
        exact ⟨g2, g3⟩
      · have e := Option.some.inj hb
        rw [← e]
        exact ⟨rfl, rfl⟩

/-- A completed call of Soft Lightning `getPluginFrame` stores the floor and the
average of this frame's scan. -/
theorem SoftLightning.soft_getPluginFrame_detect (env : SoftLightning.Env) (f : Features)
    (st st1 : SoftLightning.State) (out out1 : Output)
    (hg : SoftLightning.getPluginFrame env f st out = some (st1, out1)) :
    st1.avg = (SoftLightning.detectOf f st).avg ∧
    st1.latest_min = (SoftLightning.detectOf f st).latest_min := by
  obtain ⟨st2, h2, -, h3⟩ := SoftLightning.getPluginFrame_some env f st st1 out out1 hg
  have i2 : st2.avg = (SoftLightning.detectOf f st).avg ∧
      st2.latest_min = (SoftLightning.detectOf f st).latest_min := by
    split_ifs at h2 with ht
    · obtain ⟨a1, a2, -⟩ := SoftLightning.createLight_fields env _ st2 h2
      exact ⟨a1, a2⟩
    · rw [← Option.some.inj h2]
      exact ⟨rfl, rfl⟩
  rcases h3 with ⟨-, e, -⟩ | ⟨-, st3, hr, e, -⟩
  · rw [e]
    exact i2
  · rw [e]
    obtain ⟨r1, r2, -⟩ := SoftLightning.recolour_fields env f _ _ st3 hr
    obtain ⟨p1, p2, -⟩ := SoftLightning.propogateLoop_fields env 1 st3
    unfold SoftLightning.propogateSources
    exact ⟨by rw [p1, r1]; exact i2.1, by rw [p2, r2]; exact i2.2⟩

/-- In every reachable Patterned Beats state the floor and the average are at
most 255. -/
theorem PatternedBeats.pat_reachable_upper (env : PatternedBeats.Env) (st : PatternedBeats.State)
    (h : PatternedBeats.Reachable env st) : st.latest_min ≤ 255 ∧ st.avg ≤ 255 := by
  induction h with
  | init =>
    obtain ⟨-, g2, g3, -⟩ := PatternedBeats.generatePattern_fields env PatternedBeats.State.zero
    unfold PatternedBeats.initPlugin
    rw [g2, g3]
    simp [PatternedBeats.State.zero]
  | @frame st st1 f out out1 hr hf hg ih =>
    obtain ⟨i1, i2, -⟩ := PatternedBeats.reachable_inv env st hr
    obtain ⟨e1, e2⟩ := PatternedBeats.pat_getPluginFrame_detect env f st st1 out out1 hg
    rw [e1, e2]
    exact detect_upper f hf st.latest_min st.avg i1 ih.1 i2 ih.2

/-- In every reachable Soft Lightning state the floor and the average are at
most 255. -/
theorem SoftLightning.soft_reachable_upper (env : SoftLightning.Env) (st : SoftLightning.State)
    (h : SoftLightning.Reachable env st) : st.latest_min ≤ 255 ∧ st.avg ≤ 255 := by
  induction h with
  | init => simp [SoftLightning.initPlugin, SoftLightning.State.zero]
  | @frame st st1 f out out1 hr hf hg ih =>
    obtain ⟨i1, i2, -⟩ := SoftLightning.soft_reachable_inv env st hr
    obtain ⟨e1, e2⟩ := SoftLightning.soft_getPluginFrame_detect env f st st1 out out1 hg
    rw [e1, e2]
    exact detect_upper f hf st.latest_min st.avg i1 ih.1 i2 ih.2

/-! ## Soft Lightning: the renderer -/

namespace SoftLightning

/-- The cast of an `int` to float and back is the `int`. -/
theorem truncToInt_intCast (n : Int) : truncToInt (n : ℚ) = n := by
  simp [truncToInt]

/-- The cast to `int` of a float in 0..255 is in 0..255. -/
theorem truncToInt_byte (q : ℚ) (h0 : 0 ≤ q) (h1 : q ≤ 255) : InByte (truncToInt q) := by
  have hnum : 0 ≤ q.num := Rat.num_nonneg.mpr h0
  have hden : (0 : Int) < (q.den : Int) := by exact_mod_cast q.den_pos
  unfold truncToInt
  rw [Int.tdiv_eq_ediv hnum (le_of_lt hden)]
  refine ⟨Int.ediv_nonneg hnum (le_of_lt hden), Int.ediv_le_of_le_mul hden ?_⟩
  have hq : (q.num : ℚ) / (q.den : ℚ) ≤ 255 := by rw [Rat.num_div_den]; exact h1
  have hden' : (0 : ℚ) < (q.den : ℚ) := by exact_mod_cast q.den_pos
  have := (div_le_iff₀ hden').mp hq
  exact_mod_cast this

/-- The cast to `int` of `3/5 * a + 2/5 * s` for channels that are not negative is
the integer quotient `(3 * a + 2 * s) / 5`. -/
theorem truncToInt_mix (a s : Int) (ha : 0 ≤ a) (hs : 0 ≤ s) :
    truncToInt ((a : ℚ) * (3 / 5) + (s : ℚ) * (2 / 5)) = (3 * a + 2 * s).tdiv 5 := by
  have e : (a : ℚ) * (3 / 5) + (s : ℚ) * (2 / 5) =
      ((3 * a + 2 * s : Int) : ℚ) / ((5 : Nat) : ℚ) := by
    push_cast
    ring
  have hq : (0 : ℚ) ≤ (a : ℚ) * (3 / 5) + (s : ℚ) * (2 / 5) := by
    have : (0 : ℚ) ≤ (a : ℚ) := by exact_mod_cast ha
    have : (0 : ℚ) ≤ (s : ℚ) := by exact_mod_cast hs
    positivity
  unfold truncToInt
  rw [Int.tdiv_eq_ediv (Rat.num_nonneg.mpr hq) (by positivity), ← Rat.floor_def, e,
    Rat.floor_intCast_div_natCast, Int.tdiv_eq_ediv (by omega) (by norm_num)]
  rfl

/-- The iteration of `renderPanel` blends with `blendFactor`. -/
theorem blend_eq (env : Env) (st : State) (panel : Panel) (acc : Accum) (i : Int) :
    blend env st panel acc i =
      { R := acc.R * (1 - blendFactor env st panel i) +
          ((st.lights i).R : ℚ) * blendFactor env st panel i
        G := acc.G * (1 - blendFactor env st panel i) +
          ((st.lights i).G : ℚ) * blendFactor env st panel i
        B := acc.B * (1 - blendFactor env st panel i) +
          ((st.lights i).B : ℚ) * blendFactor env st panel i } := rfl

/-- The blend factor lies in (0, 1]. -/
theorem blendFactor_range (env : Env) (st : State) (panel : Panel) (i : Int) :
    0 < blendFactor env st panel i ∧ blendFactor env st panel i ≤ 1 := by
  unfold blendFactor
  simp only
  generalize distance env panel.centroid.x panel.centroid.y (st.lights i).x (st.lights i).y /
    TILE_DISTANCE - (st.lights i).radius = d
  have hd : 0 ≤ d * d := mul_self_nonneg d
  have hpos : (1 : ℚ) ≤ d * d * (3 / 2) + 1 := by linarith
  constructor
  · exact div_pos one_pos (by linarith)
  · rw [div_le_one (by linarith)]
    exact hpos

/-- A blend of two values in 0..255 with a factor in [0, 1] is in 0..255. -/
theorem mix_byte (a c f : ℚ) (ha0 : 0 ≤ a) (ha1 : a ≤ 255) (hc0 : 0 ≤ c) (hc1 : c ≤ 255)
    (hf0 : 0 ≤ f) (hf1 : f ≤ 1) :
    0 ≤ a * (1 - f) + c * f ∧ a * (1 - f) + c * f ≤ 255 := by
  have h1 : 0 ≤ 1 - f := by linarith
  constructor
  · have := mul_nonneg ha0 h1
    have := mul_nonneg hc0 hf0
    linarith
  · have e1 : a * (1 - f) ≤ 255 * (1 - f) := mul_le_mul_of_nonneg_right ha1 h1
    have e2 : c * f ≤ 255 * f := mul_le_mul_of_nonneg_right hc1 hf0
    linarith

/-- The source function `renderPanel` as a loop over the slots `1 .. nLights - 1`. -/
theorem renderPanel_eq (env : Env) (st : State)
    (panel : Panel) :
    renderPanel env st panel =
      (truncToInt ((List.range (st.nLights - 1).toNat).foldl
          (fun acc (k : Nat) => blend env st panel acc ((k : Int) + 1))
          { R := ((st.lights 0).R : ℚ), G := ((st.lights 0).G : ℚ),
            B := ((st.lights 0).B : ℚ) }).R,
       truncToInt ((List.range (st.nLights - 1).toNat).foldl
          (fun acc (k : Nat) => blend env st panel acc ((k : Int) + 1))
          { R := ((st.lights 0).R : ℚ), G := ((st.lights 0).G : ℚ),
            B := ((st.lights 0).B : ℚ) }).G,
       truncToInt ((List.range (st.nLights - 1).toNat).foldl
          (fun acc (k : Nat) => blend env st panel acc ((k : Int) + 1))
          { R := ((st.lights 0).R : ℚ), G := ((st.lights 0).G : ℚ),
            B := ((st.lights 0).B : ℚ) }).B) := by
  unfold renderPanel
  simp only [List.foldl_map, bind_pure_comp, List.map_eq_map]

/-- The accumulators of `renderPanel` stay in 0..255 over the loop. -/
theorem renderLoop_byte (env : Env) (st : State)
    (panel : Panel)
    (hc : ∀ j : Int, 0 ≤ j → j < st.nLights →
      InByte (st.lights j).R ∧ InByte (st.lights j).G ∧ InByte (st.lights j).B)
    (n : Nat) (hn : (n : Int) + 1 ≤ st.nLights) (acc0 : Accum)
    (h0 : (0 ≤ acc0.R ∧ acc0.R ≤ 255) ∧ (0 ≤ acc0.G ∧ acc0.G ≤ 255) ∧
      (0 ≤ acc0.B ∧ acc0.B ≤ 255)) :
    (0 ≤ ((List.range n).foldl
        (fun acc (k : Nat) => blend env st panel acc ((k : Int) + 1)) acc0).R ∧
      ((List.range n).foldl
        (fun acc (k : Nat) => blend env st panel acc ((k : Int) + 1)) acc0).R ≤ 255) ∧
    (0 ≤ ((List.range n).foldl
        (fun acc (k : Nat) => blend env st panel acc ((k : Int) + 1)) acc0).G ∧
      ((List.range n).foldl
        (fun acc (k : Nat) => blend env st panel acc ((k : Int) + 1)) acc0).G ≤ 255) ∧
    (0 ≤ ((List.range n).foldl
        (fun acc (k : Nat) => blend env st panel acc ((k : Int) + 1)) acc0).B ∧
      ((List.range n).foldl
        (fun acc (k : Nat) => blend env st panel acc ((k : Int) + 1)) acc0).B ≤ 255) := by
  induction n with
  | zero => simpa using h0
  | succ n ih =>
    simp only [List.range_succ, List.foldl_append, List.foldl_cons, List.foldl_nil]
    obtain ⟨⟨r0, r1⟩, ⟨g0, g1⟩, ⟨b0, b1⟩⟩ := ih (by omega)
    obtain ⟨⟨cr0, cr1⟩, ⟨cg0, cg1⟩, ⟨cb0, cb1⟩⟩ := hc ((n : Int) + 1) (by omega) (by omega)
    obtain ⟨f0, f1⟩ := blendFactor_range env st panel ((n : Int) + 1)
    rw [blend_eq]
    refine ⟨mix_byte _ _ _ r0 r1 (by exact_mod_cast cr0) (by exact_mod_cast cr1)
        (le_of_lt f0) f1,
      mix_byte _ _ _ g0 g1 (by exact_mod_cast cg0) (by exact_mod_cast cg1)
        (le_of_lt f0) f1,
      mix_byte _ _ _ b0 b1 (by exact_mod_cast cb0) (by exact_mod_cast cb1)
        (le_of_lt f0) f1⟩

end SoftLightning

/-! ## Soft Lightning: propagation on the list of transient sources -/

namespace SoftLightning

/-- The number of transient sources. -/
theorem transients_length (st : State) : (transients st).length = (st.nLights - 1).toNat := by
  simp [transients]

/-- Entry `m` of the transient list is slot `m + 1`. -/
theorem transients_getElem (st : State) (m : Nat) (h : m < (transients st).length) :
    (transients st)[m] = st.lights ((m : Int) + 1) := by
  simp [transients]

/-- Writing slot `k + 1` writes entry `k` of the transient list. -/
theorem transients_update (st : State) (k : Nat) (v : light_t) :
    transients { st with lights := Function.update st.lights ((k : Int) + 1) v } =
      (transients st).set k v := by
  apply List.ext_getElem
  · simp [transients]
  · intro m h1 h2
    rw [transients_getElem _ _ h1, List.getElem_set]
    by_cases hkm : k = m
    · subst hkm
      simp
    · rw [if_neg hkm, transients_getElem]
      show Function.update st.lights ((k : Int) + 1) v ((m : Int) + 1) = _
      rw [Function.update_noteq (by omega)]

/-- Removing slot `k + 1` erases entry `k` of the transient list. -/
theorem transients_removeLight (st : State) (k : Nat) (hk : (k : Int) + 1 < st.nLights) :
    transients (removeLight ((k : Int) + 1) st) = (transients st).eraseIdx k := by
  have hlen : k < (transients st).length := by rw [transients_length]; omega
  apply List.ext_getElem
  · rw [List.length_eraseIdx, if_pos hlen, transients_length, transients_length]
    show (st.nLights - 1 - 1).toNat = _
    omega
  · intro m h1 h2
    rw [transients_getElem _ _ h1, List.getElem_eraseIdx]
    have hm : (m : Int) + 1 < st.nLights - 1 := by
      rw [transients_length] at h1
      have : (removeLight ((k : Int) + 1) st).nLights = st.nLights - 1 := rfl
      omega
    by_cases hmk : m < k
    · rw [dif_pos hmk, transients_getElem]
      show (if (k : Int) + 1 ≤ (m : Int) + 1 ∧
        (m : Int) + 1 < (k : Int) + 1 + (st.nLights - ((k : Int) + 1) - 1)
        then st.lights ((m : Int) + 1 + 1) else st.lights ((m : Int) + 1)) = _
      rw [if_neg (by omega)]
    · rw [dif_neg hmk, transients_getElem]
      show (if (k : Int) + 1 ≤ (m : Int) + 1 ∧
        (m : Int) + 1 < (k : Int) + 1 + (st.nLights - ((k : Int) + 1) - 1)
        then st.lights ((m : Int) + 1 + 1) else st.lights ((m : Int) + 1)) = _
      rw [if_pos (by omega)]
      push_cast
      rfl

/-- A write at index `k` is not seen by the first `k` entries. -/
theorem take_set_self (l : List light_t) (k : Nat) (a : light_t) :
    (l.set k a).take k = l.take k := by
  apply List.ext_getElem?
  intro m
  rw [List.getElem?_take, List.getElem?_take]
  by_cases h : m < k
  · rw [if_pos h, if_pos h, List.getElem?_set_ne (by omega)]
  · rw [if_neg h, if_neg h]

/-- The first `k + 1` entries after a write at index `k`. -/
theorem take_succ_set_self (l : List light_t) (k : Nat) (a : light_t) (h : k < l.length) :
    (l.set k a).take (k + 1) = l.take k ++ [a] := by
  rw [List.take_succ, take_set_self]
  simp [h]

/-- The loop of `propogateSources` from slot `i`: the transient sources before
slot `i` are left as they are, the others are advanced once and kept, in order,
when they pass the distance test. -/
theorem propogateLoop_transients (env : Env) (i : Int) (st : State) :
    1 ≤ i →
    transients (propogateLoop env i st) =
      (transients st).take (i - 1).toNat ++
        (((transients st).drop (i - 1).toNat).map advance).filter (staysInField env) := by
  induction i, st using propogateLoop.induct env with
  | case1 i st hlt st1 d hd ih =>
    intro h1
    obtain ⟨k, rfl⟩ : ∃ k : Nat, i = (k : Int) + 1 := ⟨(i - 1).toNat, by omega⟩
    have e : propogateLoop env ((k : Int) + 1) st =
        propogateLoop env ((k : Int) + 1) (removeLight ((k : Int) + 1) st1) := by
      rw [propogateLoop.eq_1, if_pos hlt]
      exact if_pos hd
    have hk : ((k : Int) + 1 - 1).toNat = k := by omega
    have hlen : k < (transients st).length := by rw [transients_length]; omega
    have hT1 : transients st1 = (transients st).set k (advance (st.lights ((k : Int) + 1))) :=
      transients_update st k _
    have hTR : transients (removeLight ((k : Int) + 1) st1) =
        (transients st).take k ++ (transients st).drop (k + 1) := by
      rw [transients_removeLight st1 k hlt, hT1, List.eraseIdx_eq_take_drop_succ,
        take_set_self, List.drop_set_of_lt _ _ (Nat.lt_succ_self k)]
    have hgone : staysInField env (advance ((transients st)[k])) = false := by
      rw [transients_getElem st k hlen]
      have hd2 : centerDistance env (advance (st.lights ((k : Int) + 1))) >
          10 * TILE_DISTANCE := by
        have : (st1.lights ((k : Int) + 1)) = advance (st.lights ((k : Int) + 1)) := by
          show Function.update st.lights ((k : Int) + 1) _ ((k : Int) + 1) = _
          rw [Function.update_same]
        rw [← this]
        exact hd
      simp [staysInField, hd2]
    have hlt2 : k ≤ (transients st).length := by omega
    rw [e, ih h1, hk, hTR, List.take_left' (by simp [hlt2]), List.drop_left' (by simp [hlt2]),
      List.drop_eq_getElem_cons hlen, List.map_cons, List.filter_cons]
    simp [hgone]
  | case2 i st hlt st1 d hd ih =>
    intro h1
    obtain ⟨k, rfl⟩ : ∃ k : Nat, i = (k : Int) + 1 := ⟨(i - 1).toNat, by omega⟩
    have e : propogateLoop env ((k : Int) + 1) st = propogateLoop env ((k : Int) + 1 + 1) st1 := by
      rw [propogateLoop.eq_1, if_pos hlt]
      exact if_neg hd
    have hk : ((k : Int) + 1 - 1).toNat = k := by omega
    have hk1 : ((k : Int) + 1 + 1 - 1).toNat = k + 1 := by omega
    have hlen : k < (transients st).length := by rw [transients_length]; omega
    have hT1 : transients st1 = (transients st).set k (advance (st.lights ((k : Int) + 1))) :=
      transients_update st k _
    have hstay : staysInField env (advance ((transients st)[k])) = true := by
      rw [transients_getElem st k hlen]
      have hd2 : ¬ centerDistance env (advance (st.lights ((k : Int) + 1))) >
          10 * TILE_DISTANCE := by
        have : (st1.lights ((k : Int) + 1)) = advance (st.lights ((k : Int) + 1)) := by
          show Function.update st.lights ((k : Int) + 1) _ ((k : Int) + 1) = _
          rw [Function.update_same]
        rw [← this]
        exact hd
      simp [staysInField, hd2]
    rw [e, ih (by omega), hk, hk1, hT1, take_succ_set_self _ _ _ hlen,
      List.drop_set_of_lt _ _ (Nat.lt_succ_self k), List.drop_eq_getElem_cons hlen,
      List.map_cons, List.filter_cons, if_pos hstay, transients_getElem st k hlen]
    simp
  | case3 i st hlt =>
    intro h1
    rw [propogateLoop.eq_1, if_neg hlt]
    have hle : (transients st).length ≤ (i - 1).toNat := by
      rw [transients_length]; omega
    rw [List.take_of_length_le hle, List.drop_of_length_le hle]
    simp

/-- The source function `propogateSources` on the list of transient sources, over the
exact arithmetic of the model: each is advanced once, and those that pass the
distance test remain, in order. -/
theorem propogateSources_transients (env : Env) (st : State) :
    transients (propogateSources env st) =
      ((transients st).map advance).filter (staysInField env) := by
  unfold propogateSources
  rw [propogateLoop_transients env 1 st le_rfl]
  simp

end SoftLightning

/-! ## The concrete states are reachable -/

/-- The single-bin frames are well formed. -/
theorem exFrame_wf (idx val energy : Nat) (b o : Bool) (h : val ≤ 255) :
    (exFrame idx val energy b o).wf := by
  refine ⟨by simp [exFrame, FFT_BINS], ?_⟩
  intro x hx
  simp only [exFrame] at hx
  rcases List.mem_or_eq_of_mem_set hx with h1 | h1
  · have := List.eq_of_mem_replicate h1
    omega
  · omega

/-- The example Patterned Beats state is reachable. -/
theorem PatternedBeats.patExState1_reachable :
    PatternedBeats.Reachable PatternedBeats.exEnv PatternedBeats.exState1 := by
  cases hg : PatternedBeats.getPluginFrame PatternedBeats.exEnv (exFrame 3 10 100 false false)
      (PatternedBeats.initPlugin PatternedBeats.exEnv) exOut with
  | none =>
    have : (PatternedBeats.getPluginFrame PatternedBeats.exEnv (exFrame 3 10 100 false false)
      (PatternedBeats.initPlugin PatternedBeats.exEnv) exOut).isSome = true := by decide
    simp [hg] at this
  | some p =>
    have e : PatternedBeats.exState1 = p.1 := by simp [PatternedBeats.exState1, hg]
    rw [e]
    exact PatternedBeats.Reachable.frame PatternedBeats.Reachable.init
      (exFrame_wf 3 10 100 false false (by decide)) hg

/-- The example Soft Lightning state is reachable. -/
theorem SoftLightning.softExState1_reachable :
    SoftLightning.Reachable SoftLightning.exEnv SoftLightning.exState1 := by
  cases hg : SoftLightning.getPluginFrame SoftLightning.exEnv (exFrame 3 10 100 false false)
      (SoftLightning.initPlugin SoftLightning.exEnv) exOut with
  | none =>
    have : (SoftLightning.getPluginFrame SoftLightning.exEnv (exFrame 3 10 100 false false)
      (SoftLightning.initPlugin SoftLightning.exEnv) exOut).isSome = true := by decide!
    simp [hg] at this
  | some p =>
    have e : SoftLightning.exState1 = p.1 := by simp [SoftLightning.exState1, hg]
    rw [e]
    exact SoftLightning.Reachable.frame SoftLightning.Reachable.init
      (exFrame_wf 3 10 100 false false (by decide)) hg

/-- The example field of two sources is a state of the light-source field. -/
theorem SoftLightning.exField1_reachable :
    SoftLightning.FieldReachable SoftLightning.exEnv SoftLightning.exField1 := by
  obtain ⟨s, hs⟩ := SoftLightning.createLight_isSome SoftLightning.exEnv
    (SoftLightning.initPlugin SoftLightning.exEnv) (by decide!)
  have e : SoftLightning.exField1 = s := by simp [SoftLightning.exField1, hs]
  rw [e]
  exact SoftLightning.FieldReachable.create SoftLightning.FieldReachable.init hs

/-- The example field holds two sources. -/
theorem SoftLightning.exField1_nLights : SoftLightning.exField1.nLights = 2 := by
  decide!

/-- The example Soft Lightning state is reached in one call. -/
theorem SoftLightning.softExState1_reachableIn :
    SoftLightning.ReachableIn SoftLightning.exEnv 1 SoftLightning.exState1 := by
  cases hg : SoftLightning.getPluginFrame SoftLightning.exEnv (exFrame 3 10 100 false false)
      (SoftLightning.initPlugin SoftLightning.exEnv) exOut with
  | none =>
    have : (SoftLightning.getPluginFrame SoftLightning.exEnv (exFrame 3 10 100 false false)
      (SoftLightning.initPlugin SoftLightning.exEnv) exOut).isSome = true := by decide!
    simp [hg] at this
  | some p =>
    have e : SoftLightning.exState1 = p.1 := by simp [SoftLightning.exState1, hg]
    rw [e]
    exact SoftLightning.ReachableIn.frame SoftLightning.ReachableIn.init
      (exFrame_wf 3 10 100 false false (by decide)) hg

/-- The call that leaves the example Patterned Beats state. -/
theorem PatternedBeats.patExState1_step :
    ∃ out1, PatternedBeats.getPluginFrame PatternedBeats.exEnv (exFrame 3 10 100 false false)
      (PatternedBeats.initPlugin PatternedBeats.exEnv) exOut =
        some (PatternedBeats.exState1, out1) := by
  cases hg : PatternedBeats.getPluginFrame PatternedBeats.exEnv (exFrame 3 10 100 false false)
      (PatternedBeats.initPlugin PatternedBeats.exEnv) exOut with
  | none =>
    have : (PatternedBeats.getPluginFrame PatternedBeats.exEnv (exFrame 3 10 100 false false)
      (PatternedBeats.initPlugin PatternedBeats.exEnv) exOut).isSome = true := by decide
    simp [hg] at this
  | some p =>
    have e : PatternedBeats.exState1 = p.1 := by simp [PatternedBeats.exState1, hg]
    exact ⟨p.2, by rw [e]⟩

/-- The call that leaves the example Soft Lightning state. -/
theorem SoftLightning.softExState1_step :
    ∃ out1, SoftLightning.getPluginFrame SoftLightning.exEnv (exFrame 3 10 100 false false)
      (SoftLightning.initPlugin SoftLightning.exEnv) exOut =
        some (SoftLightning.exState1, out1) := by
  cases hg : SoftLightning.getPluginFrame SoftLightning.exEnv (exFrame 3 10 100 false false)
      (SoftLightning.initPlugin SoftLightning.exEnv) exOut with
  | none =>
    have : (SoftLightning.getPluginFrame SoftLightning.exEnv (exFrame 3 10 100 false false)
      (SoftLightning.initPlugin SoftLightning.exEnv) exOut).isSome = true := by decide!
    simp [hg] at this
  | some p =>
    have e : SoftLightning.exState1 = p.1 := by simp [SoftLightning.exState1, hg]
    exact ⟨p.2, by rw [e]⟩

/-- The example field with the source on panel 101 holds two sources. -/
theorem SoftLightning.exFieldAtPanel_nLights : SoftLightning.exFieldAtPanel.nLights = 2 := by
  decide!

/-! ## A long run without a trigger: the index accumulator -/

/-- The bins of a single-bin frame as the scan reads them. -/
theorem exFrame_getD (idx val energy : Nat) (b o : Bool) (hidx : idx < 32) (j : Nat) :
    (exFrame idx val energy b o).fftBins.getD j 0 = if j = idx then val else 0 := by
  simp only [exFrame, List.getD_eq_getElem?_getD, List.getElem?_set, List.length_replicate]
  by_cases h : idx = j
  · subst h
    simp [hidx]
  · rw [if_neg h, if_neg (fun e => h e.symm), List.getElem?_replicate]
    split_ifs <;> rfl

/-- The scan of a frame with one non-zero bin ends with that bin as the dominant
one, whatever the statics on entry. -/
theorem detect_exFrame_index (idx val energy : Nat) (b o : Bool) (hidx : idx < 32)
    (hval : 0 < val) (lm avg : Int) :
    (detect (exFrame idx val energy b o).fftBins lm avg).maxBinIndex = (idx : Int) := by
  obtain ⟨h1, h2⟩ := scanPrefix_max (exFrame idx val energy b o).fftBins lm avg 32
  show (scanLoop (exFrame idx val energy b o).fftBins lm avg).maxBinIndex = _
  unfold scanLoop
  simp only [FFT_BINS]
  have hb := h1 idx hidx
  rw [exFrame_getD idx val energy b o hidx idx, if_pos rfl] at hb
  rcases h2 with ⟨hm, -⟩ | ⟨k, hk, -, hkv, -⟩
  · rw [hm] at hb
    omega
  · rw [hk]
    rw [exFrame_getD idx val energy b o hidx k] at hkv
    by_cases hki : k = idx
    · rw [hki]
    · rw [if_neg hki] at hkv
      rw [← hkv] at hb
      omega

namespace PatternedBeats

/-- A loud frame without the beat flag does not trigger: `beatDetection` stores the
scan values and adds the dominant index to the accumulator. -/
theorem beatDetection_loud (env : Env) (idx val : Nat) (st : State) :
    beatDetection env (exFrame idx val 100 false false) st = some
      { st with
        avg := (detectOf (exFrame idx val 100 false false) st).avg
        latest_min := (detectOf (exFrame idx val 100 false false) st).latest_min
        maxBinIndexSum := wrap32 (st.maxBinIndexSum +
          (detectOf (exFrame idx val 100 false false) st).maxBinIndex) } := by
  have ht : triggers (exFrame idx val 100 false false)
      (detect (exFrame idx val 100 false false).fftBins st.latest_min st.avg) = false := by
    simp [triggers, exFrame, ENERGY_THRESHOLD]
  unfold beatDetection detectOf
  simp [ht]

/-- A frame with the beat flag triggers: with a non-empty palette `beatDetection`
reduces the accumulator to `whichCol` and regenerates the mask. -/
theorem beatDetection_beat (env : Env) (idx val energy : Nat) (o : Bool) (st : State)
    (hpal : env.paletteColors ≠ []) :
    beatDetection env (exFrame idx val energy true o) st = some (generatePattern env
      { st with
        avg := (detectOf (exFrame idx val energy true o) st).avg
        latest_min := (detectOf (exFrame idx val energy true o) st).latest_min
        maxBinIndexSum := 0
        whichCol := ((wrap32 (st.maxBinIndexSum +
          (detectOf (exFrame idx val energy true o) st).maxBinIndex)).tdiv sampleCount).tmod
            env.nColors }) := by
  have hn : env.nColors ≠ 0 := by
    have := nColors_pos env hpal
    omega
  have ht : triggers (exFrame idx val energy true o)
      (detect (exFrame idx val energy true o).fftBins st.latest_min st.avg) = true := by
    simp [triggers, exFrame]
  unfold beatDetection detectOf
  simp only [ht, if_true, if_neg hn]
  simp [sampleCount]

/-- From a reachable state, `k` loud frames without a beat and with dominant bin
`idx` all complete and leave the accumulator `k * idx` higher, as long as that stays
below `2 ^ 31`; the palette index, the mask and the draws made stay as they were. -/
theorem run_loud (env : Env) (out : Output) (idx val : Nat) (hidx : idx < 32)
    (hval : 0 < val) (hval2 : val ≤ 255) (hpal : env.paletteColors ≠ []) (k : Nat) :
    ∀ st : State, Reachable env st → 0 ≤ st.maxBinIndexSum →
      st.maxBinIndexSum + (idx : Int) * (k : Int) < 2147483648 →
      ∃ st1, run env out (List.replicate k (exFrame idx val 100 false false)) st = some st1 ∧
        Reachable env st1 ∧ st1.whichCol = st.whichCol ∧ st1.pattern = st.pattern ∧
        st1.randCalls = st.randCalls ∧
        st1.maxBinIndexSum = st.maxBinIndexSum + (idx : Int) * (k : Int) := by
  induction k with
  | zero =>
    intro st hr _ _
    exact ⟨st, rfl, hr, rfl, rfl, rfl, by simp⟩
  | succ k ih =>
    intro st hr h0 hk
    obtain ⟨-, -, -, i4, i5, -⟩ := reachable_inv env st hr
    have hb := beatDetection_loud env idx val st
    have hi : (detectOf (exFrame idx val 100 false false) st).maxBinIndex = (idx : Int) :=
      detect_exFrame_index idx val 100 false false hidx hval st.latest_min st.avg
    rw [hi] at hb
    have hk2 : (idx : Int) * ((k + 1 : Nat) : Int) = (idx : Int) + (idx : Int) * (k : Int) := by
      push_cast
      ring
    have hkn : 0 ≤ (idx : Int) * (k : Int) := by positivity
    have hw : wrap32 (st.maxBinIndexSum + (idx : Int)) = st.maxBinIndexSum + (idx : Int) :=
      wrap32_of_range _ ⟨by omega, by omega⟩
    rw [hw] at hb
    obtain ⟨c, -, hg⟩ := getPluginFrame_of_beatDetection env (exFrame idx val 100 false false)
      st _ out hb i4 (i5 hpal)
    obtain ⟨st1, r1, r2, r3, r4, r5, r6⟩ := ih _
      (Reachable.frame hr (exFrame_wf idx val 100 false false hval2) hg)
      (by show 0 ≤ st.maxBinIndexSum + (idx : Int); omega)
      (by show st.maxBinIndexSum + (idx : Int) + (idx : Int) * (k : Int) < 2147483648; omega)
    refine ⟨st1, ?_, r2, r3, r4, r5, ?_⟩
    · rw [List.replicate_succ]
      simp only [run, hg]
      exact r1
    · rw [r6, hk2]
      show st.maxBinIndexSum + (idx : Int) + (idx : Int) * (k : Int) = _
      ring

/-- On the example environment, 69273666 loud frames with dominant bin 31 and no
beat, from start-up, leave the accumulator at `2147483646 = 2 ^ 31 - 2`. -/
theorem run_to_the_limit :
    ∃ st, run exEnv exOut (List.replicate 69273666 (exFrame 31 10 100 false false))
        (initPlugin exEnv) = some st ∧
      Reachable exEnv st ∧ st.maxBinIndexSum = 2147483646 ∧ st.randCalls = 3 ∧
      st.pattern.length = MAX_PANELS := by
  obtain ⟨st, h1, h2, -, -, h5, h6⟩ := run_loud exEnv exOut 31 10 (by decide) (by decide)
    (by decide) (by decide) 69273666 (initPlugin exEnv) Reachable.init (by decide) (by decide)
  refine ⟨st, h1, h2, ?_, ?_, (reachable_inv exEnv st h2).2.2.2.2.2⟩
  · rw [h6]
    decide
  · rw [h5]
    decide

/-- The frame after that run, dominant bin 5 with the beat flag: the 32-bit sum is
negative, so is `whichCol`; the regenerated mask marks panel 1, and the read of
`paletteColors[whichCol]` is outside the palette. -/
theorem beat_after_the_limit (st : State) (hsum : st.maxBinIndexSum = 2147483646)
    (hrc : st.randCalls = 3) (hlen : st.pattern.length = MAX_PANELS) :
    ∃ s, beatDetection exEnv (exFrame 5 10 100 true false) st = some s ∧
      s.whichCol = -2 ∧ s.pattern.getD 1 0 = 1 ∧
      getPluginFrame exEnv (exFrame 5 10 100 true false) st exOut = none := by
  have hb := beatDetection_beat exEnv 5 10 100 false st (by decide)
  have hi : (detectOf (exFrame 5 10 100 true false) st).maxBinIndex = ((5 : Nat) : Int) :=
    detect_exFrame_index 5 10 100 true false (by decide) (by decide) st.latest_min st.avg
  rw [hi, hsum] at hb
  obtain ⟨g1, -, -, -, -, -⟩ := generatePattern_fields exEnv
    { st with
      avg := (detectOf (exFrame 5 10 100 true false) st).avg
      latest_min := (detectOf (exFrame 5 10 100 true false) st).latest_min
      maxBinIndexSum := 0
      whichCol := ((wrap32 (2147483646 + ((5 : Nat) : Int))).tdiv sampleCount).tmod
        exEnv.nColors }
  obtain ⟨-, -, g7, -⟩ := generatePattern_spec exEnv
    { st with
      avg := (detectOf (exFrame 5 10 100 true false) st).avg
      latest_min := (detectOf (exFrame 5 10 100 true false) st).latest_min
      maxBinIndexSum := 0
      whichCol := ((wrap32 (2147483646 + ((5 : Nat) : Int))).tdiv sampleCount).tmod
        exEnv.nColors }
  have hw : (generatePattern exEnv
    { st with
      avg := (detectOf (exFrame 5 10 100 true false) st).avg
      latest_min := (detectOf (exFrame 5 10 100 true false) st).latest_min
      maxBinIndexSum := 0
      whichCol := ((wrap32 (2147483646 + ((5 : Nat) : Int))).tdiv sampleCount).tmod
        exEnv.nColors }).whichCol = -2 := by
    rw [g1]
    show ((wrap32 (2147483646 + ((5 : Nat) : Int))).tdiv sampleCount).tmod exEnv.nColors = -2
    decide
  refine ⟨_, hb, hw, ?_, ?_⟩
  · rw [g7 1 (by decide) (by show 1 < st.pattern.length; rw [hlen]; decide)]
    show ((exEnv.rand (st.randCalls + 1) % 2 : Nat) : Int) = 1
    rw [hrc]
    decide
  · unfold getPluginFrame
    simp only [hb]
    rw [hw, paletteAt_none exEnv.paletteColors (-2) (Or.inl (by decide))]

end PatternedBeats

/-! ## The detector claims -/

/-- C1. Both plugins: in every state reached from start-up by frames of 32 bins in
0..255 the noise floor `latest_min` is at least 0; and a scan iteration entered with
a zero floor never takes the decrement branch (the floor becomes the bin value on a
new maximum and stays 0 otherwise). -/
theorem C1_noise_floor_nonneg :
    (∀ (env : PatternedBeats.Env) (st : PatternedBeats.State),
      PatternedBeats.Reachable env st → 0 ≤ st.latest_min) ∧
    (∀ (env : SoftLightning.Env) (st : SoftLightning.State),
      SoftLightning.Reachable env st → 0 ≤ st.latest_min) ∧
    (∀ (s : Scan) (i b : Nat), s.latest_min = 0 →
      (scanBin s i b).latest_min = if (b : Int) > s.maxBin then (b : Int) else 0) := by
  refine ⟨fun env st h => (PatternedBeats.reachable_inv env st h).1,
    fun env st h => (SoftLightning.soft_reachable_inv env st h).1, ?_⟩
  intro s i b h0
  unfold scanBin
  by_cases h1 : (b : Int) > s.maxBin
  · rw [if_pos h1, if_pos h1]
    dsimp only
    rw [if_pos (Or.inl h0)]
  · rw [if_neg h1, if_neg h1]
    exact h0

/-- C1 at the states left by one loud frame in each plugin. -/
theorem C1_noise_floor_nonneg_witness :
    0 ≤ PatternedBeats.exState1.latest_min ∧ 0 ≤ SoftLightning.exState1.latest_min :=
  ⟨C1_noise_floor_nonneg.1 _ _ PatternedBeats.patExState1_reachable,
   C1_noise_floor_nonneg.2.1 _ _ SoftLightning.softExState1_reachable⟩

/-- C2. Both plugins: in every state reachable from start-up, on a frame whose 32
bins are all 0 the scan ends with `maxBin = 0` and the magnitude comparison
(`maxBin > latest_min + 2 * avg`, resp. `maxBin > latest_min + 1.8 * avg`) is false
whatever the energy; the trigger condition then equals the external flag, and in
Patterned Beats `beatDetection` leaves the statics as they were when the beat flag
is clear. -/
theorem C2_silent_frame_only_flag_triggers :
    (∀ (env : PatternedBeats.Env) (st : PatternedBeats.State) (f : Features),
      PatternedBeats.Reachable env st → f.wf → (∀ b ∈ f.fftBins, b = 0) →
        (PatternedBeats.detectOf f st).maxBin = 0 ∧
        ¬ ((PatternedBeats.detectOf f st).maxBin >
            (PatternedBeats.detectOf f st).latest_min + 2 * (PatternedBeats.detectOf f st).avg) ∧
        PatternedBeats.triggers f (PatternedBeats.detectOf f st) = f.isBeat ∧
        (f.isBeat = false → PatternedBeats.beatDetection env f st = some st)) ∧
    (∀ (env : SoftLightning.Env) (st : SoftLightning.State) (f : Features),
      SoftLightning.Reachable env st → f.wf → (∀ b ∈ f.fftBins, b = 0) →
        (SoftLightning.detectOf f st).maxBin = 0 ∧
        ¬ (((SoftLightning.detectOf f st).maxBin : ℚ) >
            ((SoftLightning.detectOf f st).latest_min : ℚ) +
              (9 / 5) * ((SoftLightning.detectOf f st).avg : ℚ)) ∧
        ∀ flag : Bool, SoftLightning.triggers flag f (SoftLightning.detectOf f st) = flag) := by
  constructor
  · intro env st f hr _ hz
    obtain ⟨h1, h2, h3, -⟩ := PatternedBeats.reachable_inv env st hr
    have hd := detect_silent f.fftBins hz st.latest_min st.avg
    have hcmp : ¬ ((0 : Int) > st.latest_min + 2 * st.avg) := by omega
    have htr : PatternedBeats.triggers f (PatternedBeats.detectOf f st) = f.isBeat := by
      simp only [PatternedBeats.triggers, PatternedBeats.detectOf, hd]
      simp [hcmp]
    refine ⟨by simp [PatternedBeats.detectOf, hd], ?_, htr, ?_⟩
    · simpa [PatternedBeats.detectOf, hd] using hcmp
    · intro hb
      have htr2 : PatternedBeats.triggers f (detect f.fftBins st.latest_min st.avg) = false := by
        have := htr
        rw [hb] at this
        exact this
      unfold PatternedBeats.beatDetection
      simp only [htr2]
      simp [hd, wrap32_of_range _ h3]
  · intro env st f hr _ hz
    obtain ⟨h1, h2, -⟩ := SoftLightning.soft_reachable_inv env st hr
    have hd := detect_silent f.fftBins hz st.latest_min st.avg
    have hcmp : ¬ (((0 : Int) : ℚ) > (st.latest_min : ℚ) + (9 / 5) * (st.avg : ℚ)) := by
      have a1 : (0 : ℚ) ≤ (st.latest_min : ℚ) := by exact_mod_cast h1
      have a2 : (0 : ℚ) ≤ (st.avg : ℚ) := by exact_mod_cast h2
      push_cast
      linarith
    refine ⟨by simp [SoftLightning.detectOf, hd], ?_, ?_⟩
    · simpa [SoftLightning.detectOf, hd] using hcmp
    · intro flag
      simp only [SoftLightning.triggers, SoftLightning.detectOf, hd]
      simp only [decide_eq_false hcmp]
      simp

/-- The silent frames are well formed. -/
theorem exSilent_wf (energy : Nat) (b o : Bool) : (exSilent energy b o).wf := by
  refine ⟨by simp [exSilent, FFT_BINS], ?_⟩
  intro x hx
  have := List.eq_of_mem_replicate hx
  omega

/-- Every bin of a silent frame is 0. -/
theorem exSilent_zero (energy : Nat) (b o : Bool) : ∀ x ∈ (exSilent energy b o).fftBins, x = 0 :=
  fun _ hx => List.eq_of_mem_replicate hx

/-- C2 at the states left by one loud frame: a silent frame with energy 40 and no
beat leaves the Patterned Beats statics as they were, and in Soft Lightning the
trigger condition is the flag. -/
theorem C2_silent_frame_only_flag_triggers_witness :
    PatternedBeats.beatDetection PatternedBeats.exEnv (exSilent 40 false false)
        PatternedBeats.exState1 = some PatternedBeats.exState1 ∧
    ∀ flag : Bool, SoftLightning.triggers flag (exSilent 40 false false)
        (SoftLightning.detectOf (exSilent 40 false false) SoftLightning.exState1) = flag :=
  ⟨(C2_silent_frame_only_flag_triggers.1 PatternedBeats.exEnv PatternedBeats.exState1
      (exSilent 40 false false) PatternedBeats.patExState1_reachable (exSilent_wf 40 false false)
      (exSilent_zero 40 false false)).2.2.2 rfl,
   (C2_silent_frame_only_flag_triggers.2 SoftLightning.exEnv SoftLightning.exState1
      (exSilent 40 false false) SoftLightning.softExState1_reachable (exSilent_wf 40 false false)
      (exSilent_zero 40 false false)).2.2⟩

/-- C3. Patterned Beats, non-empty palette: from any statics and on any frame,
`beatDetection` recomputes `whichCol` and regenerates the mask when the beat flag is
set or (`maxBin > latest_min + 2 * avg` and `energy ≤ 50`) on the values at the end
of the scan, and otherwise only stores the scan values and the index accumulator;
with floor 10, avg 5, maxBin 25, energy 40 and no beat the condition holds. -/
theorem C3_pattern_trigger_condition (env : PatternedBeats.Env) (f : Features)
    (st : PatternedBeats.State) (hpal : env.paletteColors ≠ []) :
    ((f.isBeat = true ∨
        ((PatternedBeats.detectOf f st).maxBin >
            (PatternedBeats.detectOf f st).latest_min + 2 * (PatternedBeats.detectOf f st).avg ∧
          (f.energy : Int) ≤ 50)) →
      PatternedBeats.beatDetection env f st = some (PatternedBeats.generatePattern env
        { st with
          avg := (PatternedBeats.detectOf f st).avg
          latest_min := (PatternedBeats.detectOf f st).latest_min
          maxBinIndexSum := 0
          whichCol := ((wrap32 (st.maxBinIndexSum + (PatternedBeats.detectOf f st).maxBinIndex)).tdiv
            sampleCount).tmod env.nColors })) ∧
    (¬ (f.isBeat = true ∨
        ((PatternedBeats.detectOf f st).maxBin >
            (PatternedBeats.detectOf f st).latest_min + 2 * (PatternedBeats.detectOf f st).avg ∧
          (f.energy : Int) ≤ 50)) →
      PatternedBeats.beatDetection env f st = some
        { st with
          avg := (PatternedBeats.detectOf f st).avg
          latest_min := (PatternedBeats.detectOf f st).latest_min
          maxBinIndexSum := wrap32 (st.maxBinIndexSum + (PatternedBeats.detectOf f st).maxBinIndex) }) ∧
    (∀ (bins : List Nat) (onset : Bool) (idx : Int),
      PatternedBeats.triggers
        { fftBins := bins, energy := 40, isBeat := false, isOnset := onset }
        { latest_min := 10, avg := 5, maxBin := 25, maxBinIndex := idx } = true) := by
  have hn : env.nColors ≠ 0 := by
    have := PatternedBeats.nColors_pos env hpal
    omega
  have key : PatternedBeats.triggers f (PatternedBeats.detectOf f st) = true ↔
      (f.isBeat = true ∨
        ((PatternedBeats.detectOf f st).maxBin >
            (PatternedBeats.detectOf f st).latest_min + 2 * (PatternedBeats.detectOf f st).avg ∧
          (f.energy : Int) ≤ 50)) := by
    simp [PatternedBeats.triggers, ENERGY_THRESHOLD]
  refine ⟨?_, ?_, ?_⟩
  · intro hc
    have ht := key.mpr hc
    simp only [PatternedBeats.detectOf] at ht ⊢
    unfold PatternedBeats.beatDetection
    simp only [ht, if_true, if_neg hn]
    simp [sampleCount]
  · intro hc
    have ht : PatternedBeats.triggers f (PatternedBeats.detectOf f st) = false := by
      cases h : PatternedBeats.triggers f (PatternedBeats.detectOf f st)
      · rfl
      · exact absurd (key.mp h) hc
    simp only [PatternedBeats.detectOf] at ht ⊢
    unfold PatternedBeats.beatDetection
    simp [ht]
  · intro bins onset idx
    simp [PatternedBeats.triggers, ENERGY_THRESHOLD]

/-- C3 on the example layout: from start-up a loud frame with the beat flag set
regenerates the mask and picks palette entry 0; after one faint frame a frame with
no beat, energy 40 and `maxBin = 3 > 0 + 2 * 1` regenerates it through the magnitude
comparison and picks entry 1. -/
theorem C3_pattern_trigger_condition_witness :
    (PatternedBeats.beatDetection PatternedBeats.exEnv (exFrame 3 10 100 true false)
      (PatternedBeats.initPlugin PatternedBeats.exEnv)).map
        (fun s => (s.whichCol, s.randCalls, s.pattern.take 3)) = some (0, 6, [0, 1, 0]) ∧
    (PatternedBeats.beatDetection PatternedBeats.exEnv (exFrame 4 3 40 false false)
      PatternedBeats.exState0).map
        (fun s => (s.whichCol, s.randCalls, s.latest_min, s.avg)) = some (1, 6, 0, 1) := by
  constructor
  · rw [(C3_pattern_trigger_condition PatternedBeats.exEnv (exFrame 3 10 100 true false)
      (PatternedBeats.initPlugin PatternedBeats.exEnv) (by decide)).1 (Or.inl rfl)]
    decide
  · rw [(C3_pattern_trigger_condition PatternedBeats.exEnv (exFrame 4 3 40 false false)
      PatternedBeats.exState0 (by decide)).1 (Or.inr ⟨by decide, by decide⟩)]
    decide

/-- C4 evaluated. The divisor is the local `n`, which is 1 on every call. After one
untriggered frame with dominant bin 3, a beat frame with dominant bin 5 selects
`(3 + 5) mod 3 = 2` in Patterned Beats and paints the ambient source with palette
entry 2 in Soft Lightning, where the average `(3 + 5) / 2 = 4` gives `4 mod 3 = 1`;
the accumulator is zero afterwards. -/
theorem C4_divisor_is_always_one :
    sampleCount = 1 ∧
    PatternedBeats.exState1.maxBinIndexSum = 3 ∧
    (PatternedBeats.beatDetection PatternedBeats.exEnv (exFrame 5 10 100 true false)
      PatternedBeats.exState1).map (fun s => (s.whichCol, s.maxBinIndexSum)) = some (2, 0) ∧
    ((3 + 5 : Int).tdiv (1 + 1)).tmod 3 = 1 ∧
    SoftLightning.exState1.maxBinIndexSum = 3 ∧
    (SoftLightning.getPluginFrame SoftLightning.exEnv (exFrame 5 10 100 true false)
      SoftLightning.exState1 exOut).map
        (fun p => ((p.1.lights 0).R, (p.1.lights 0).G, (p.1.lights 0).B, p.1.maxBinIndexSum)) =
      some (0, 0, 255, 0) := by
  refine ⟨by decide, by decide, by decide, by decide, by decide!, ?_⟩
  decide!

/-- C5 evaluated at a long run without a trigger. Patterned Beats, three-colour
example palette: 69273666 frames from start-up, each with dominant bin 31, energy
100 and no beat flag, all complete and leave the accumulator `maxBinIndexSum` at
2147483646. On the next frame, dominant bin 5 with the beat flag set, the 32-bit
addition `maxBinIndexSum += 5` wraps to -2147483645, the division by `n = 1` and
`% 3` leave `whichCol = -2`, and `paletteColors[-2]` is outside the palette. Soft
Lightning reduces its accumulator by the same expression: at that value the argument
of `colorize` is -2 and the read in `colorize` is outside the palette. -/
theorem C5_accumulator_wraps_to_a_negative_index :
    ∃ st : PatternedBeats.State,
      PatternedBeats.run PatternedBeats.exEnv exOut
        (List.replicate 69273666 (exFrame 31 10 100 false false))
        (PatternedBeats.initPlugin PatternedBeats.exEnv) = some st ∧
      PatternedBeats.Reachable PatternedBeats.exEnv st ∧
      st.maxBinIndexSum = 2147483646 ∧
      wrap32 (st.maxBinIndexSum + 5) = -2147483645 ∧
      (PatternedBeats.beatDetection PatternedBeats.exEnv (exFrame 5 10 100 true false) st).map
        (fun s => s.whichCol) = some (-2) ∧
      paletteAt PatternedBeats.exEnv.paletteColors (-2) = none ∧
      SoftLightning.colourArg SoftLightning.exEnv (wrap32 (st.maxBinIndexSum + 5))
        sampleCount = some (-2) ∧
      (SoftLightning.colorize SoftLightning.exEnv (-2) SoftLightning.exState1).isNone = true := by
  obtain ⟨st, h1, h2, h3, h4, h5⟩ := PatternedBeats.run_to_the_limit
  obtain ⟨s, hb, hw, -, -⟩ := PatternedBeats.beat_after_the_limit st h3 h4 h5
  refine ⟨st, h1, h2, h3, ?_, ?_, by decide, ?_, by decide⟩
  · rw [h3]
    decide
  · rw [hb]
    show some s.whichCol = some (-2)
    rw [hw]
  · rw [h3]
    decide

/-! ## The Patterned Beats mask and frame -/

/-- C6. Patterned Beats, layout of at most 50 panels, non-empty palette, any reachable
statics: a call of `getPluginFrame` on a frame that does not trigger completes,
leaves `pattern` and `whichCol` as they were and draws no random number; on a frame
that triggers `beatDetection` completes, and in the statics it leaves (which are
those after any completed `getPluginFrame`) entry `i` of the mask, for each
`i < nPanels`, is the next unused draw `rand() % 2` (the `i`-th after the draws
already made), a value in {0,1}, while the entries from `nPanels` on and the
capacity are as before; that call of `getPluginFrame` completes whenever the 32-bit
accumulator has not wrapped to a negative value. -/
theorem C6_mask_regenerated_only_on_trigger (env : PatternedBeats.Env) (f : Features)
    (st : PatternedBeats.State) (out : Output) (hr : PatternedBeats.Reachable env st)
    (hpal : env.paletteColors ≠ [])
    (hn : env.layoutData.nPanels ≤ PatternedBeats.MAX_PANELS) :
    (PatternedBeats.triggers f (PatternedBeats.detectOf f st) = false →
      ∃ st1 out1, PatternedBeats.getPluginFrame env f st out = some (st1, out1) ∧
        st1.pattern = st.pattern ∧ st1.whichCol = st.whichCol ∧
        st1.randCalls = st.randCalls) ∧
    (PatternedBeats.triggers f (PatternedBeats.detectOf f st) = true →
      ∃ st1, PatternedBeats.beatDetection env f st = some st1 ∧
        (∀ st2 out2, PatternedBeats.getPluginFrame env f st out = some (st2, out2) →
          st2 = st1) ∧
        (0 ≤ wrap32 (st.maxBinIndexSum + (PatternedBeats.detectOf f st).maxBinIndex) →
          ∃ out1, PatternedBeats.getPluginFrame env f st out = some (st1, out1)) ∧
        st1.randCalls = st.randCalls + env.layoutData.nPanels ∧
        st1.pattern.length = PatternedBeats.MAX_PANELS ∧
        (∀ i, i < env.layoutData.nPanels →
          st1.pattern[i]? = some ((env.rand (st.randCalls + i) % 2 : Nat) : Int) ∧
          (st1.pattern[i]? = some 0 ∨ st1.pattern[i]? = some 1)) ∧
        (∀ i, env.layoutData.nPanels ≤ i → st1.pattern.getD i 0 = st.pattern.getD i 0)) := by
  have hinv := PatternedBeats.reachable_inv env st hr
  have hlen : st.pattern.length = PatternedBeats.MAX_PANELS := hinv.2.2.2.2.2
  have hc0 : env.nColors ≠ 0 := by
    have := PatternedBeats.nColors_pos env hpal
    omega
  constructor
  · intro ht
    have hb : PatternedBeats.beatDetection env f st = some
        { st with
          avg := (PatternedBeats.detectOf f st).avg
          latest_min := (PatternedBeats.detectOf f st).latest_min
          maxBinIndexSum :=
            wrap32 (st.maxBinIndexSum + (PatternedBeats.detectOf f st).maxBinIndex) } := by
      simp only [PatternedBeats.detectOf] at ht ⊢
      unfold PatternedBeats.beatDetection
      simp [ht]
    obtain ⟨c, -, hg⟩ := PatternedBeats.getPluginFrame_of_beatDetection env f st _ out hb
      hinv.2.2.2.1 (hinv.2.2.2.2.1 hpal)
    exact ⟨_, _, hg, rfl, rfl, rfl⟩
  · intro ht
    have hb : PatternedBeats.beatDetection env f st = some (PatternedBeats.generatePattern env
        { st with
          avg := (PatternedBeats.detectOf f st).avg
          latest_min := (PatternedBeats.detectOf f st).latest_min
          maxBinIndexSum := 0
          whichCol :=
            ((wrap32 (st.maxBinIndexSum + (PatternedBeats.detectOf f st).maxBinIndex)).tdiv
              sampleCount).tmod env.nColors }) := by
      simp only [PatternedBeats.detectOf] at ht ⊢
      unfold PatternedBeats.beatDetection
      simp only [ht, if_true, if_neg hc0]
      simp [sampleCount]
    obtain ⟨g1, -, -, -, -, -⟩ := PatternedBeats.generatePattern_fields env
      { st with
        avg := (PatternedBeats.detectOf f st).avg
        latest_min := (PatternedBeats.detectOf f st).latest_min
        maxBinIndexSum := 0
        whichCol :=
          ((wrap32 (st.maxBinIndexSum + (PatternedBeats.detectOf f st).maxBinIndex)).tdiv
            sampleCount).tmod env.nColors }
    obtain ⟨g5, g6, g7, g8⟩ := PatternedBeats.generatePattern_spec env
      { st with
        avg := (PatternedBeats.detectOf f st).avg
        latest_min := (PatternedBeats.detectOf f st).latest_min
        maxBinIndexSum := 0
        whichCol :=
          ((wrap32 (st.maxBinIndexSum + (PatternedBeats.detectOf f st).maxBinIndex)).tdiv
            sampleCount).tmod env.nColors }
    refine ⟨_, hb, fun st2 out2 hg => PatternedBeats.getPluginFrame_state env f st _ st2 out out2
      hb hg, ?_, g5, g6.trans hlen, ?_, g8⟩
    · intro hacc
      have hrange := PatternedBeats.paletteIndex_range
        (wrap32 (st.maxBinIndexSum + (PatternedBeats.detectOf f st).maxBinIndex)) env.nColors
        hacc (PatternedBeats.nColors_pos env hpal)
      obtain ⟨c, -, hg⟩ := PatternedBeats.getPluginFrame_of_beatDetection env f st _ out hb
        (by rw [g1]; exact hrange.1) (by rw [g1]; exact hrange.2)
      exact ⟨_, hg⟩
    · intro i hi
      have hil : i < st.pattern.length := by omega
      have e := g7 i hi hil
      have e2 := PatternedBeats.getElem?_of_getD _ i (lt_of_lt_of_eq hil g6.symm)
      rw [e] at e2
      refine ⟨e2, ?_⟩
      rw [e2]
      have hm : env.rand (st.randCalls + i) % 2 = 0 ∨ env.rand (st.randCalls + i) % 2 = 1 := by
        omega
      rcases hm with hm | hm
      · left; rw [hm]; rfl
      · right; rw [hm]; rfl

/-- C6 on the example layout: the beat frame after one loud frame redraws the three
mask entries from the next three draws, and the call of `getPluginFrame` completes. -/
theorem C6_mask_regenerated_only_on_trigger_witness :
    ∃ st1, PatternedBeats.beatDetection PatternedBeats.exEnv (exFrame 5 10 100 true false)
        PatternedBeats.exState1 = some st1 ∧
      (∃ out1, PatternedBeats.getPluginFrame PatternedBeats.exEnv (exFrame 5 10 100 true false)
        PatternedBeats.exState1 exOut = some (st1, out1)) ∧
      st1.randCalls = PatternedBeats.exState1.randCalls +
        PatternedBeats.exEnv.layoutData.nPanels ∧
      st1.pattern.length = PatternedBeats.MAX_PANELS ∧
      (∀ i, i < PatternedBeats.exEnv.layoutData.nPanels →
        st1.pattern[i]? = some ((PatternedBeats.exEnv.rand
          (PatternedBeats.exState1.randCalls + i) % 2 : Nat) : Int) ∧
        (st1.pattern[i]? = some 0 ∨ st1.pattern[i]? = some 1)) ∧
      (∀ i, PatternedBeats.exEnv.layoutData.nPanels ≤ i →
        st1.pattern.getD i 0 = PatternedBeats.exState1.pattern.getD i 0) := by
  obtain ⟨st1, h1, -, h3, h4, h5, h6, h7⟩ :=
    (C6_mask_regenerated_only_on_trigger PatternedBeats.exEnv (exFrame 5 10 100 true false)
      PatternedBeats.exState1 exOut PatternedBeats.patExState1_reachable (by decide)
      (by decide)).2 (by decide)
  exact ⟨st1, h1, h3 (by decide), h4, h5, h6, h7⟩

/-- Patterned Beats, layout of at most 50 panels, reachable statics: when
`beatDetection` completes and leaves a palette index inside the palette,
`getPluginFrame` completes, sets `*nFrames = nPanels`, and for every `i < nPanels`
writes `frames[i]` with panel `i`'s identifier, `transTime = 3` and, with
`c = paletteColors[whichCol]`, colour `c` when `pattern[i] = 1` and (255,255,255)
otherwise. -/
theorem PatternedBeats.getPluginFrame_records (env : PatternedBeats.Env) (f : Features)
    (st st1 : PatternedBeats.State) (out : Output) (hr : PatternedBeats.Reachable env st)
    (hn : env.layoutData.nPanels ≤ PatternedBeats.MAX_PANELS)
    (hb : PatternedBeats.beatDetection env f st = some st1)
    (h0 : 0 ≤ st1.whichCol) (h1 : st1.whichCol < env.nColors) :
    ∃ out1 c, PatternedBeats.getPluginFrame env f st out = some (st1, out1) ∧
      paletteAt env.paletteColors st1.whichCol = some c ∧
      out1.nFrames = (env.layoutData.nPanels : Int) ∧
      ∀ (i : Nat) (hi : i < env.layoutData.nPanels),
        ∃ m, st1.pattern[i]? = some m ∧
          out1.frames i =
            { panelId := (env.layoutData.panels.get ⟨i, hi⟩).panelId
              r := if m = 1 then c.R else 255
              g := if m = 1 then c.G else 255
              b := if m = 1 then c.B else 255
              transTime := 3 } := by
  have hinv := PatternedBeats.reachable_inv env st hr
  obtain ⟨c, hc, hg⟩ := PatternedBeats.getPluginFrame_of_beatDetection env f st st1 out hb h0 h1
  have hlen : st1.pattern.length = PatternedBeats.MAX_PANELS :=
    (PatternedBeats.beatDetection_inv env f st st1 hinv hb).2.2.2
  refine ⟨_, c, hg, hc, rfl, ?_⟩
  intro i hi
  have hi2 : i < st1.pattern.length := by omega
  refine ⟨st1.pattern.getD i 0, PatternedBeats.getElem?_of_getD _ i hi2, ?_⟩
  show PatternedBeats.renderFrames env st1 c out.frames i = _
  unfold PatternedBeats.renderFrames
  rw [PatternedBeats.renderFrames_range, if_pos hi]
  have hi3 : i < env.layoutData.panels.length := hi
  unfold PatternedBeats.panelFrame
  rw [List.getD_eq_getElem _ _ hi3]
  simp only [List.get_eq_getElem]
  split_ifs <;> rfl

/-- C7 evaluated at a long run without a trigger. Patterned Beats on the example
layout (three panels, three colours): after 69273666 completed frames with dominant
bin 31, energy 100 and no beat flag, the frame with dominant bin 5 and the beat flag
regenerates the mask with `pattern[1] = 1` and leaves `whichCol = -2` after the
32-bit accumulator wrapped; the read `paletteColors[whichCol]` that should colour
panel 1 is outside the palette, and the call has no defined result. -/
theorem C7_frame_after_the_wrap_reads_outside_the_palette :
    PatternedBeats.exEnv.layoutData.nPanels ≤ PatternedBeats.MAX_PANELS ∧
    PatternedBeats.exEnv.paletteColors ≠ [] ∧
    ∃ st : PatternedBeats.State,
      PatternedBeats.run PatternedBeats.exEnv exOut
        (List.replicate 69273666 (exFrame 31 10 100 false false))
        (PatternedBeats.initPlugin PatternedBeats.exEnv) = some st ∧
      (exFrame 5 10 100 true false).wf ∧
      (PatternedBeats.beatDetection PatternedBeats.exEnv (exFrame 5 10 100 true false) st).map
        (fun s => (s.whichCol, s.pattern.getD 1 0)) = some (-2, 1) ∧
      paletteAt PatternedBeats.exEnv.paletteColors (-2) = none ∧
      PatternedBeats.getPluginFrame PatternedBeats.exEnv (exFrame 5 10 100 true false) st
        exOut = none := by
  refine ⟨by decide, by decide, ?_⟩
  obtain ⟨st, h1, -, h3, h4, h5⟩ := PatternedBeats.run_to_the_limit
  obtain ⟨s, hb, hw, hp, hg⟩ := PatternedBeats.beat_after_the_limit st h3 h4 h5
  refine ⟨st, h1, exFrame_wf 5 10 100 true false (by decide), ?_, by decide, hg⟩
  rw [hb]
  show some (s.whichCol, s.pattern.getD 1 0) = some (-2, 1)
  rw [hw, hp]

/-! ## The Soft Lightning frame -/

/-- C8 refuted at the first invocation: on the three-panel example layout the first
call of `getPluginFrame` after `initPlugin` completes, leaves `*nFrames` at the
caller's `-1` and writes none of the three records. -/
theorem C8_first_invocation_writes_nothing :
    SoftLightning.exEnv.layoutData.nPanels = 3 ∧
    (SoftLightning.getPluginFrame SoftLightning.exEnv (exFrame 3 10 100 false false)
      (SoftLightning.initPlugin SoftLightning.exEnv) exOut).map
        (fun p => (p.2.nFrames, p.2.frames 0, p.2.frames 1, p.2.frames 2)) =
      some (-1, exOut.frames 0, exOut.frames 1, exOut.frames 2) := by
  constructor
  · decide
  · decide!

/-- C8 amended. Soft Lightning, after `k` completed calls (so the call in hand is
invocation `k + 1`): from a reachable state the call completes whenever the palette
is not empty, the truncated X extent of the layout is not zero and the 32-bit
accumulator has not wrapped to a negative value; a completed
even-numbered invocation (`k` odd) sets `*nFrames = nPanels` and writes, for every
`i < nPanels`, the record of panel `i` with its identifier, the colour of
`renderPanel` and `transTime = 3`; a completed odd-numbered invocation (`k` even)
returns at the gate and leaves the buffer and `*nFrames` untouched. -/
theorem C8_records_on_even_invocations (env : SoftLightning.Env) (k : Nat)
    (st : SoftLightning.State) (f : Features) (out : Output)
    (hr : SoftLightning.ReachableIn env k st) :
    (env.paletteColours ≠ [] →
      SoftLightning.truncToInt (SoftLightning.getMaxXCoord env) -
        SoftLightning.truncToInt (SoftLightning.getMinXCoord env) ≠ 0 →
      0 ≤ wrap32 (st.maxBinIndexSum + (SoftLightning.detectOf f st).maxBinIndex) →
      ∃ st1 out1, SoftLightning.getPluginFrame env f st out = some (st1, out1)) ∧
    (∀ st1 out1, SoftLightning.getPluginFrame env f st out = some (st1, out1) →
      (k % 2 = 1 →
        out1.nFrames = (env.layoutData.nPanels : Int) ∧
        ∃ st3, ∀ (i : Nat) (hi : i < env.layoutData.nPanels),
          out1.frames i =
            { panelId := (env.layoutData.panels.get ⟨i, hi⟩).panelId
              r := (SoftLightning.renderPanel env st3 (env.layoutData.panels.get ⟨i, hi⟩)).1
              g := (SoftLightning.renderPanel env st3 (env.layoutData.panels.get ⟨i, hi⟩)).2.1
              b := (SoftLightning.renderPanel env st3 (env.layoutData.panels.get ⟨i, hi⟩)).2.2
              transTime := 3 }) ∧
      (k % 2 = 0 → out1 = out)) := by
  obtain ⟨hreach, hcnt⟩ := SoftLightning.reachableIn_cnt env k st hr
  refine ⟨fun hpal hx hacc =>
    SoftLightning.getPluginFrame_isSome env f st out hreach hpal hx hacc, ?_⟩
  intro st1 out1 hg
  obtain ⟨st2, -, hc, h3⟩ := SoftLightning.getPluginFrame_some env f st st1 out out1 hg
  simp only [SoftLightning.SKIP_COUNT] at h3
  constructor
  · intro hk
    rcases h3 with ⟨hlt, -, -⟩ | ⟨-, st3, -, -, e⟩
    · omega
    · rw [e]
      refine ⟨rfl, st3, ?_⟩
      intro i hi
      show SoftLightning.renderFrames env st3 out.frames i = _
      unfold SoftLightning.renderFrames
      rw [SoftLightning.soft_renderFrames_range, if_pos hi]
      have hi3 : i < env.layoutData.panels.length := hi
      unfold SoftLightning.panelFrame
      rw [List.getD_eq_getElem _ _ hi3]
      simp only [List.get_eq_getElem]
  · intro hk
    rcases h3 with ⟨-, -, e⟩ | ⟨hlt, -⟩
    · exact e
    · omega

/-- C8 amended, at the second invocation on the example layout: the call completes
and reports three records. -/
theorem C8_records_on_even_invocations_witness :
    ∃ st1 out1, SoftLightning.getPluginFrame SoftLightning.exEnv (exFrame 5 10 100 true false)
        SoftLightning.exState1 exOut = some (st1, out1) ∧
      out1.nFrames = (SoftLightning.exEnv.layoutData.nPanels : Int) := by
  obtain ⟨st1, out1, hg⟩ := (C8_records_on_even_invocations SoftLightning.exEnv 1
    SoftLightning.exState1 (exFrame 5 10 100 true false) exOut
    SoftLightning.softExState1_reachableIn).1 (by decide) (by decide!) (by decide!)
  exact ⟨st1, out1, hg, ((C8_records_on_even_invocations SoftLightning.exEnv 1
    SoftLightning.exState1 (exFrame 5 10 100 true false) exOut
    SoftLightning.softExState1_reachableIn).2 st1 out1 hg).1 rfl |>.1⟩

/-! ## The light-source field -/

/-- C9. Light-source field: in every state reached from `initPlugin` by completed
`createLight`, `propogateSources` and `colorize` calls, `1 ≤ nLights ≤ MAX_SOURCES = 2`
and slot 0 sits at the layout's geometric center. -/
theorem C9_field_count_and_ambient (env : SoftLightning.Env) (st : SoftLightning.State)
    (h : SoftLightning.FieldReachable env st) :
    1 ≤ st.nLights ∧ st.nLights ≤ SoftLightning.MAX_SOURCES ∧ st.nLights ≤ 2 ∧
    (st.lights 0).x = env.layoutData.layoutGeometricCenter.x ∧
    (st.lights 0).y = env.layoutData.layoutGeometricCenter.y := by
  obtain ⟨h1, h2, h3, h4, -, -⟩ := SoftLightning.fieldReachable_inv env st h
  exact ⟨h1, h2, by simpa [SoftLightning.MAX_SOURCES] using h2, h3, h4⟩

/-- C9 at the example field of two sources. -/
theorem C9_field_count_and_ambient_witness :
    1 ≤ SoftLightning.exField1.nLights ∧
    SoftLightning.exField1.nLights ≤ SoftLightning.MAX_SOURCES ∧
    SoftLightning.exField1.nLights ≤ 2 ∧
    (SoftLightning.exField1.lights 0).x =
      SoftLightning.exEnv.layoutData.layoutGeometricCenter.x ∧
    (SoftLightning.exField1.lights 0).y =
      SoftLightning.exEnv.layoutData.layoutGeometricCenter.y :=
  C9_field_count_and_ambient SoftLightning.exEnv SoftLightning.exField1
    SoftLightning.exField1_reachable

/-- C10. Light-source field: in every state that holds the ambient source and one
transient source (`nLights = 2`), reached from `initPlugin` by calls on the field or
by calls of `getPluginFrame`, `createLight` completes and leaves exactly two
sources, slot 0 unchanged and slot 1 the new source, which does not depend on the
former slot 1: colour (255,255,255), `dirx = 0`, `speed` the float of `2 * 86.6`,
`radius = 1`, and with the edge draw, the float `(float) rand() / RAND_MAX`:
`y = minY`, `diry = 1` when the draw is at least 0.5, otherwise `y = maxY`,
`diry = -1`. Here `minY` and `maxY` are the least and the greatest Y among the
geometric center and the panel centroids. -/
theorem C10_create_at_capacity_evicts_oldest (env : SoftLightning.Env)
    (st : SoftLightning.State)
    (hr : SoftLightning.FieldReachable env st ∨ SoftLightning.Reachable env st)
    (h2 : st.nLights = 2) :
    ∃ st1, SoftLightning.createLight env st = some st1 ∧ st1.nLights = 2 ∧
      st1.lights 0 = st.lights 0 ∧
      st1.lights 1 = SoftLightning.newLight env st
        (env.floatQuot (env.rand st.randCalls) env.RAND_MAX)
        (env.rand (st.randCalls + 1) : Int) (SoftLightning.xExtent st) ∧
      ((st1.lights 1).R = 255 ∧ (st1.lights 1).G = 255 ∧ (st1.lights 1).B = 255) ∧
      (st1.lights 1).dirx = 0 ∧ (st1.lights 1).speed = env.toFloat (2 * (433 / 5)) ∧
      (st1.lights 1).radius = 1 ∧
      (env.floatQuot (env.rand st.randCalls) env.RAND_MAX ≥ 1 / 2 →
        (st1.lights 1).y = st.minY ∧ (st1.lights 1).diry = 1) ∧
      (¬ (env.floatQuot (env.rand st.randCalls) env.RAND_MAX ≥ 1 / 2) →
        (st1.lights 1).y = st.maxY ∧ (st1.lights 1).diry = -1) ∧
      IsMinOver (fun p => p.centroid.y) env.layoutData.panels
        env.layoutData.layoutGeometricCenter.y st.minY ∧
      IsMaxOver (fun p => p.centroid.y) env.layoutData.panels
        env.layoutData.layoutGeometricCenter.y st.maxY := by
  have hinv : SoftLightning.FieldInv env st := by
    rcases hr with hr | hr
    · exact SoftLightning.fieldReachable_inv env st hr
    · exact SoftLightning.reachable_fieldInv env st hr
  obtain ⟨i1, i2, -, -, hext, i6⟩ := hinv
  obtain ⟨-, -, b3, b4⟩ := SoftLightning.extentsFixed_boundingBox env st hext
  obtain ⟨-, -, e3, e4⟩ := hext
  obtain ⟨st1, hc⟩ := SoftLightning.createLight_isSome env st (i6 h2)
  obtain ⟨-, c2, c3, c4, -⟩ := SoftLightning.createLight_spec env st st1 hc i1 (by omega)
  refine ⟨st1, hc, c2, c3, c4, ?_, ?_, ?_, ?_, ?_, ?_, b4, b3⟩
  · rw [c4]; exact ⟨rfl, rfl, rfl⟩
  · rw [c4]; rfl
  · rw [c4]; rfl
  · rw [c4]; rfl
  · intro ht
    rw [c4, e4]
    simp only [SoftLightning.newLight]
    rw [if_pos ht, if_pos ht]
    exact ⟨rfl, rfl⟩
  · intro ht
    rw [c4, e3]
    simp only [SoftLightning.newLight]
    rw [if_neg ht, if_neg ht]
    exact ⟨rfl, rfl⟩

/-- C10 at the example field of two sources: the second `createLight` leaves two
sources, the ambient one and a white one; its edge draw 5234 / 32767 is below 0.5,
so the new source starts at `maxY = 50`, the greatest centroid Y, moving in `-Y`. -/
theorem C10_create_at_capacity_evicts_oldest_witness :
    ∃ st1, SoftLightning.createLight SoftLightning.exEnv SoftLightning.exField1 = some st1 ∧
      st1.nLights = 2 ∧ st1.lights 0 = SoftLightning.exField1.lights 0 ∧
      ((st1.lights 1).R = 255 ∧ (st1.lights 1).G = 255 ∧ (st1.lights 1).B = 255) ∧
      (st1.lights 1).y = 50 ∧ (st1.lights 1).diry = -1 := by
  obtain ⟨st1, a, b, c, -, d, -, -, -, -, e, -⟩ :=
    C10_create_at_capacity_evicts_oldest SoftLightning.exEnv
      SoftLightning.exField1 (Or.inl SoftLightning.exField1_reachable)
      SoftLightning.exField1_nLights
  have hdraw : ¬ (SoftLightning.exEnv.floatQuot
      (SoftLightning.exEnv.rand SoftLightning.exField1.randCalls)
      SoftLightning.exEnv.RAND_MAX ≥ 1 / 2) := by decide!
  have hmax : SoftLightning.exField1.maxY = 50 := by decide!
  exact ⟨st1, a, b, c, d, (e hdraw).1.trans hmax, (e hdraw).2⟩

/-! ## The scan claims -/

/-- C18. Both plugins (the scan is shared): for every frame and whatever floor and
average the statics hold, at the end of the scan `maxBin` is the maximum of the 32
magnitudes and `maxBinIndex` is the smallest index holding it, which is 0 when
every bin is 0. -/
theorem C18_scan_finds_first_maximum (fftBins : List Nat) (lm avg : Int) :
    ∃ k : Nat, (detect fftBins lm avg).maxBinIndex = (k : Int) ∧ k < FFT_BINS ∧
      ((fftBins.getD k 0 : Nat) : Int) = (detect fftBins lm avg).maxBin ∧
      (∀ j, j < FFT_BINS → ((fftBins.getD j 0 : Nat) : Int) ≤ (detect fftBins lm avg).maxBin) ∧
      (∀ j, j < k → ((fftBins.getD j 0 : Nat) : Int) < (detect fftBins lm avg).maxBin) ∧
      ((∀ j, j < FFT_BINS → fftBins.getD j 0 = 0) →
        k = 0 ∧ (detect fftBins lm avg).maxBin = 0) := by
  obtain ⟨h1, h2⟩ := scanPrefix_max fftBins lm avg FFT_BINS
  have hd : (detect fftBins lm avg).maxBin = (scanLoop fftBins lm avg).maxBin ∧
      (detect fftBins lm avg).maxBinIndex = (scanLoop fftBins lm avg).maxBinIndex := ⟨rfl, rfl⟩
  rw [hd.1, hd.2]
  unfold scanLoop
  rcases h2 with ⟨a, b⟩ | ⟨k, a, b, c, d⟩
  · refine ⟨0, by simpa using b, by decide, ?_, h1, fun j hj => absurd hj (by omega), ?_⟩
    · have := h1 0 (by decide)
      rw [a] at this ⊢
      omega
    · intro _; exact ⟨rfl, a⟩
  · refine ⟨k, a, b, c, h1, d, ?_⟩
    intro hz
    have hk := hz k b
    rw [hk] at c
    have h0 : ∀ j, j < k → False := by
      intro j hj
      have := d j hj
      rw [hz j (by omega)] at this
      rw [← c] at this
      simp at this
    refine ⟨?_, c.symm⟩
    by_contra hne
    exact h0 0 (by omega)

/-- C18 on a silent frame entered with floor 3 and average 4: index 0, maximum 0. -/
theorem C18_scan_finds_first_maximum_witness :
    (detect (List.replicate 32 0) 3 4).maxBinIndex = 0 ∧
    (detect (List.replicate 32 0) 3 4).maxBin = 0 := by
  obtain ⟨k, h1, -, -, -, -, h6⟩ := C18_scan_finds_first_maximum (List.replicate 32 0) 3 4
  obtain ⟨hk, hm⟩ := h6 (fun j _ => getD_of_all_zero _ (fun _ hb => List.eq_of_mem_replicate hb) j)
  rw [h1, hk]
  exact ⟨rfl, hm⟩

/-- C19 refuted after one loud frame: Patterned Beats holds `avg = 5`; on the next
frame, whose only new maximum is bin 5 at magnitude 10, the scan ends with
`avg = (5 + 10) / 2 = 7`, not with the sum of this scan alone over the count,
`10 / 2 = 5`. -/
theorem C19_previous_average_enters_the_sum :
    PatternedBeats.exState1.avg = 5 ∧
    (PatternedBeats.detectOf (exFrame 5 10 100 false false) PatternedBeats.exState1).avg = 7 ∧
    newMaximaSum (exFrame 5 10 100 false false).fftBins = 10 ∧
    contributingBins (exFrame 5 10 100 false false).fftBins = 2 ∧
    (newMaximaSum (exFrame 5 10 100 false false).fftBins).tdiv
      (contributingBins (exFrame 5 10 100 false false).fftBins) = 5 := by
  refine ⟨by decide, by decide, by decide, by decide, by decide⟩

/-- C19 amended. Both plugins: at the end of each frame's scan `avg` equals (the `avg`
left by the previous frame plus the sum of the magnitudes of the bins that set a new
maximum during this scan) divided, with truncating integer division, by
`contributingBins`, 1 plus the number of such bins; a completed call of
`getPluginFrame` stores that value in the static `avg`. -/
theorem C19_avg_is_running_over_frames :
    (∀ (fftBins : List Nat) (lm avg : Int),
      (detect fftBins lm avg).avg =
        (avg + newMaximaSum fftBins).tdiv (contributingBins fftBins)) ∧
    (∀ (env : PatternedBeats.Env) (f : Features) (st st1 : PatternedBeats.State)
        (out out1 : Output),
      PatternedBeats.getPluginFrame env f st out = some (st1, out1) →
        st1.avg = (st.avg + newMaximaSum f.fftBins).tdiv (contributingBins f.fftBins)) ∧
    (∀ (env : SoftLightning.Env) (f : Features) (st st1 : SoftLightning.State)
        (out out1 : Output),
      SoftLightning.getPluginFrame env f st out = some (st1, out1) →
        st1.avg = (st.avg + newMaximaSum f.fftBins).tdiv (contributingBins f.fftBins)) := by
  refine ⟨detect_avg, ?_, ?_⟩
  · intro env f st st1 out out1 hg
    rw [(PatternedBeats.pat_getPluginFrame_detect env f st st1 out out1 hg).1]
    exact detect_avg _ _ _
  · intro env f st st1 out out1 hg
    rw [(SoftLightning.soft_getPluginFrame_detect env f st st1 out out1 hg).1]
    exact detect_avg _ _ _

/-- C20. Both plugins: in every state reached from start-up by frames whose bins are
in 0..255 the running average and the noise floor are in 0..255, so
`latest_min + 2 * avg` and `latest_min + 1.8 * avg` are at most 765. -/
theorem C20_detector_state_bounds :
    (∀ (env : PatternedBeats.Env) (st : PatternedBeats.State),
      PatternedBeats.Reachable env st →
        (0 ≤ st.avg ∧ st.avg ≤ 255) ∧ (0 ≤ st.latest_min ∧ st.latest_min ≤ 255) ∧
        st.latest_min + 2 * st.avg ≤ 765) ∧
    (∀ (env : SoftLightning.Env) (st : SoftLightning.State),
      SoftLightning.Reachable env st →
        (0 ≤ st.avg ∧ st.avg ≤ 255) ∧ (0 ≤ st.latest_min ∧ st.latest_min ≤ 255) ∧
        (st.latest_min : ℚ) + (9 / 5) * (st.avg : ℚ) ≤ 765) := by
  constructor
  · intro env st hr
    obtain ⟨i1, i2, -⟩ := PatternedBeats.reachable_inv env st hr
    obtain ⟨u1, u2⟩ := PatternedBeats.pat_reachable_upper env st hr
    exact ⟨⟨i2, u2⟩, ⟨i1, u1⟩, by omega⟩
  · intro env st hr
    obtain ⟨i1, i2, -⟩ := SoftLightning.soft_reachable_inv env st hr
    obtain ⟨u1, u2⟩ := SoftLightning.soft_reachable_upper env st hr
    refine ⟨⟨i2, u2⟩, ⟨i1, u1⟩, ?_⟩
    have a1 : (st.latest_min : ℚ) ≤ 255 := by exact_mod_cast u1
    have a2 : (st.avg : ℚ) ≤ 255 := by exact_mod_cast u2
    linarith

/-- C19 amended, at the first call on the example layouts: the stored average is
`(0 + 10) / 2`, the start-up average plus this scan's only new maximum over 2. -/
theorem C19_avg_is_running_over_frames_witness :
    PatternedBeats.exState1.avg =
      ((PatternedBeats.initPlugin PatternedBeats.exEnv).avg +
        newMaximaSum (exFrame 3 10 100 false false).fftBins).tdiv
          (contributingBins (exFrame 3 10 100 false false).fftBins) ∧
    SoftLightning.exState1.avg =
      ((SoftLightning.initPlugin SoftLightning.exEnv).avg +
        newMaximaSum (exFrame 3 10 100 false false).fftBins).tdiv
          (contributingBins (exFrame 3 10 100 false false).fftBins) := by
  obtain ⟨o1, h1⟩ := PatternedBeats.patExState1_step
  obtain ⟨o2, h2⟩ := SoftLightning.softExState1_step
  exact ⟨C19_avg_is_running_over_frames.2.1 _ _ _ _ _ _ h1,
    C19_avg_is_running_over_frames.2.2 _ _ _ _ _ _ h2⟩

/-- C20 at the states left by one loud frame in each plugin. -/
theorem C20_detector_state_bounds_witness :
    ((0 ≤ PatternedBeats.exState1.avg ∧ PatternedBeats.exState1.avg ≤ 255) ∧
      (0 ≤ PatternedBeats.exState1.latest_min ∧ PatternedBeats.exState1.latest_min ≤ 255) ∧
      PatternedBeats.exState1.latest_min + 2 * PatternedBeats.exState1.avg ≤ 765) ∧
    ((0 ≤ SoftLightning.exState1.avg ∧ SoftLightning.exState1.avg ≤ 255) ∧
      (0 ≤ SoftLightning.exState1.latest_min ∧ SoftLightning.exState1.latest_min ≤ 255) ∧
      (SoftLightning.exState1.latest_min : ℚ) + (9 / 5) * (SoftLightning.exState1.avg : ℚ) ≤
        765) :=
  ⟨C20_detector_state_bounds.1 _ _ PatternedBeats.patExState1_reachable,
   C20_detector_state_bounds.2 _ _ SoftLightning.softExState1_reachable⟩

/-! ## The renderer claims -/

/-- C13. Diffusion renderer: when the field holds only the ambient source
(`nLights = 1`), `renderPanel` returns exactly the ambient source's `(R, G, B)`, for
every panel and every layout. -/
theorem C13_ambient_only_render (env : SoftLightning.Env) (st : SoftLightning.State)
    (panel : Panel) (h : st.nLights = 1) :
    SoftLightning.renderPanel env st panel =
      ((st.lights 0).R, (st.lights 0).G, (st.lights 0).B) := by
  rw [SoftLightning.renderPanel_eq]
  simp only [h, sub_self, Int.toNat_zero, List.range_zero, List.foldl_nil,
    SoftLightning.truncToInt_intCast]

/-- C13 on the example layout right after `initPlugin`, for panel 101. -/
theorem C13_ambient_only_render_witness :
    SoftLightning.renderPanel SoftLightning.exEnv
      (SoftLightning.initPlugin SoftLightning.exEnv) exPanel101 =
      (((SoftLightning.initPlugin SoftLightning.exEnv).lights 0).R,
       ((SoftLightning.initPlugin SoftLightning.exEnv).lights 0).G,
       ((SoftLightning.initPlugin SoftLightning.exEnv).lights 0).B) :=
  C13_ambient_only_render SoftLightning.exEnv (SoftLightning.initPlugin SoftLightning.exEnv)
    exPanel101 rfl

/-- C14. Diffusion renderer, over exact arithmetic with the truncation at the end:
for every panel and every field of at least the ambient source whose sources in
slots `0 .. nLights - 1` have all three channels in 0..255, the blend factor
`1 / (1.5 * d^2 + 1)` of every slot lies in (0, 1] and each channel returned by
`renderPanel` lies in 0..255. -/
theorem C14_render_channels_in_byte_range (env : SoftLightning.Env)
    (st : SoftLightning.State) (panel : Panel) (h1 : 1 ≤ st.nLights)
    (hc : ∀ j : Int, 0 ≤ j → j < st.nLights →
      InByte (st.lights j).R ∧ InByte (st.lights j).G ∧ InByte (st.lights j).B) :
    (∀ i : Int, 0 < SoftLightning.blendFactor env st panel i ∧
      SoftLightning.blendFactor env st panel i ≤ 1) ∧
    InByte (SoftLightning.renderPanel env st panel).1 ∧
    InByte (SoftLightning.renderPanel env st panel).2.1 ∧
    InByte (SoftLightning.renderPanel env st panel).2.2 := by
  refine ⟨fun i => SoftLightning.blendFactor_range env st panel i, ?_⟩
  obtain ⟨⟨a0, a1⟩, ⟨b0, b1⟩, ⟨c0, c1⟩⟩ := hc 0 le_rfl (by omega)
  obtain ⟨⟨r0, r1⟩, ⟨g0, g1⟩, ⟨bl0, bl1⟩⟩ := SoftLightning.renderLoop_byte env st panel hc
    (st.nLights - 1).toNat (by omega)
    { R := ((st.lights 0).R : ℚ), G := ((st.lights 0).G : ℚ), B := ((st.lights 0).B : ℚ) }
    ⟨⟨by show (0 : ℚ) ≤ ((st.lights 0).R : ℚ); exact_mod_cast a0,
        by show ((st.lights 0).R : ℚ) ≤ 255; exact_mod_cast a1⟩,
      ⟨by show (0 : ℚ) ≤ ((st.lights 0).G : ℚ); exact_mod_cast b0,
        by show ((st.lights 0).G : ℚ) ≤ 255; exact_mod_cast b1⟩,
      ⟨by show (0 : ℚ) ≤ ((st.lights 0).B : ℚ); exact_mod_cast c0,
        by show ((st.lights 0).B : ℚ) ≤ 255; exact_mod_cast c1⟩⟩
  rw [SoftLightning.renderPanel_eq]
  exact ⟨SoftLightning.truncToInt_byte _ r0 r1, SoftLightning.truncToInt_byte _ g0 g1,
    SoftLightning.truncToInt_byte _ bl0 bl1⟩

/-- C14 on the example field with one white transient source, for panel 101. -/
theorem C14_render_channels_in_byte_range_witness :
    (∀ i : Int, 0 < SoftLightning.blendFactor SoftLightning.exEnvAtPanel
        SoftLightning.exFieldAtPanel exPanel101 i ∧
      SoftLightning.blendFactor SoftLightning.exEnvAtPanel
        SoftLightning.exFieldAtPanel exPanel101 i ≤ 1) ∧
    InByte (SoftLightning.renderPanel SoftLightning.exEnvAtPanel
      SoftLightning.exFieldAtPanel exPanel101).1 ∧
    InByte (SoftLightning.renderPanel SoftLightning.exEnvAtPanel
      SoftLightning.exFieldAtPanel exPanel101).2.1 ∧
    InByte (SoftLightning.renderPanel SoftLightning.exEnvAtPanel
      SoftLightning.exFieldAtPanel exPanel101).2.2 := by
  apply C14_render_channels_in_byte_range SoftLightning.exEnvAtPanel
    SoftLightning.exFieldAtPanel exPanel101
  · rw [SoftLightning.exFieldAtPanel_nLights]; decide
  · intro j h0 h1
    rw [SoftLightning.exFieldAtPanel_nLights] at h1
    have hj : j = 0 ∨ j = 1 := by omega
    unfold InByte
    rcases hj with hj | hj <;> subst hj <;> decide!

/-- C15 refuted on the example layout: the only transient source, made by
`createLight` (radius 1, white), sits on the centroid of panel 101, at distance 0;
its blend factor is `1 / (1.5 * (0 - 1)^2 + 1) = 2/5`, not 1, and the panel is
rendered (102,102,102) over the black ambient source, not the source's
(255,255,255). -/
theorem C15_coincident_source_has_factor_two_fifths :
    SoftLightning.exFieldAtPanel.nLights = 2 ∧
    ((SoftLightning.exFieldAtPanel.lights 1).x = exPanel101.centroid.x ∧
      (SoftLightning.exFieldAtPanel.lights 1).y = exPanel101.centroid.y) ∧
    SoftLightning.distance SoftLightning.exEnvAtPanel exPanel101.centroid.x
      exPanel101.centroid.y (SoftLightning.exFieldAtPanel.lights 1).x
      (SoftLightning.exFieldAtPanel.lights 1).y = 0 ∧
    SoftLightning.blendFactor SoftLightning.exEnvAtPanel SoftLightning.exFieldAtPanel
      exPanel101 1 = 2 / 5 ∧
    ((SoftLightning.exFieldAtPanel.lights 1).R, (SoftLightning.exFieldAtPanel.lights 1).G,
      (SoftLightning.exFieldAtPanel.lights 1).B) = (255, 255, 255) ∧
    SoftLightning.renderPanel SoftLightning.exEnvAtPanel SoftLightning.exFieldAtPanel
      exPanel101 = (102, 102, 102) := by
  refine ⟨by decide!, ⟨by decide!, by decide!⟩, by decide!, by decide!, by decide!, by decide!⟩

/-- C15 amended. Diffusion renderer, field of the ambient source and one transient
source of radius 1 (as `createLight` makes them), colour channels in 0..255: a panel
whose centroid lies at Euclidean distance 86.6 from the source, one tile, is
rendered with exactly the source's colour (there the normalised distance equals the
radius and the factor is 1), provided `sqrt` is exact on that square; a panel whose
centroid coincides with the source (distance 0, `sqrt 0 = 0`) is rendered, channel
by channel, as the truncation of `3/5 * ambient + 2/5 * source`, that is
`(3 * ambient + 2 * source) / 5` in integers, the factor being
`1 / (1.5 * (0 - 1)^2 + 1)`. -/
theorem C15_factor_is_one_at_the_radius (env : SoftLightning.Env)
    (st : SoftLightning.State) (panel : Panel) (hn : st.nLights = 2)
    (hr : (st.lights 1).radius = 1)
    (hc : ∀ j : Int, 0 ≤ j → j < st.nLights →
      InByte (st.lights j).R ∧ InByte (st.lights j).G ∧ InByte (st.lights j).B) :
    (((st.lights 1).x - panel.centroid.x) * ((st.lights 1).x - panel.centroid.x) +
        ((st.lights 1).y - panel.centroid.y) * ((st.lights 1).y - panel.centroid.y) =
        SoftLightning.TILE_DISTANCE * SoftLightning.TILE_DISTANCE →
      env.sqrt (SoftLightning.TILE_DISTANCE * SoftLightning.TILE_DISTANCE) =
        SoftLightning.TILE_DISTANCE →
      SoftLightning.renderPanel env st panel =
        ((st.lights 1).R, (st.lights 1).G, (st.lights 1).B)) ∧
    ((st.lights 1).x = panel.centroid.x → (st.lights 1).y = panel.centroid.y →
      env.sqrt 0 = 0 →
      SoftLightning.renderPanel env st panel =
        ((3 * (st.lights 0).R + 2 * (st.lights 1).R).tdiv 5,
         (3 * (st.lights 0).G + 2 * (st.lights 1).G).tdiv 5,
         (3 * (st.lights 0).B + 2 * (st.lights 1).B).tdiv 5)) := by
  have hrange : List.range (st.nLights - 1).toNat = [0] := by
    rw [hn]; rfl
  constructor
  · intro hd hs
    have hk : SoftLightning.blendFactor env st panel (((0 : Nat) : Int) + 1) = 1 := by
      unfold SoftLightning.blendFactor SoftLightning.distance
      simp only [Nat.cast_zero, zero_add, hd, hs, hr]
      norm_num [SoftLightning.TILE_DISTANCE]
    rw [SoftLightning.renderPanel_eq]
    simp only [hrange, List.foldl_cons, List.foldl_nil, SoftLightning.blend_eq, hk]
    simp only [sub_self, mul_zero, zero_add, mul_one, Nat.cast_zero,
      SoftLightning.truncToInt_intCast]
  · intro hx hy hs
    have hk : SoftLightning.blendFactor env st panel (((0 : Nat) : Int) + 1) = 2 / 5 := by
      unfold SoftLightning.blendFactor SoftLightning.distance
      simp only [Nat.cast_zero, zero_add, hx, hy, hr, sub_self, mul_zero, add_zero, hs, zero_div]
      norm_num
    obtain ⟨⟨a1, -⟩, ⟨a2, -⟩, ⟨a3, -⟩⟩ := hc 0 le_rfl (by omega)
    obtain ⟨⟨s1, -⟩, ⟨s2, -⟩, ⟨s3, -⟩⟩ := hc 1 (by decide) (by omega)
    rw [← SoftLightning.truncToInt_mix _ _ a1 s1, ← SoftLightning.truncToInt_mix _ _ a2 s2,
      ← SoftLightning.truncToInt_mix _ _ a3 s3, SoftLightning.renderPanel_eq]
    simp only [hrange, List.foldl_cons, List.foldl_nil, SoftLightning.blend_eq, hk]
    norm_num

/-- C15 amended, on the layout with a panel one tile from panel 101: the white
source on the centroid of panel 101 renders panel 102, at distance 86.6, exactly
white, and panel 101, at distance 0, (102,102,102) over the black ambient source. -/
theorem C15_factor_is_one_at_the_radius_witness :
    SoftLightning.renderPanel SoftLightning.exEnvTile SoftLightning.exFieldTile exPanelTile =
      (255, 255, 255) ∧
    SoftLightning.renderPanel SoftLightning.exEnvTile SoftLightning.exFieldTile exPanel101 =
      (102, 102, 102) := by
  have hn : SoftLightning.exFieldTile.nLights = 2 := by decide!
  have hr : (SoftLightning.exFieldTile.lights 1).radius = 1 := by decide!
  have hc : ∀ j : Int, 0 ≤ j → j < SoftLightning.exFieldTile.nLights →
      InByte (SoftLightning.exFieldTile.lights j).R ∧
      InByte (SoftLightning.exFieldTile.lights j).G ∧
      InByte (SoftLightning.exFieldTile.lights j).B := by
    intro j h0 h1
    rw [hn] at h1
    have hj : j = 0 ∨ j = 1 := by omega
    unfold InByte
    rcases hj with hj | hj <;> subst hj <;> decide!
  constructor
  · rw [(C15_factor_is_one_at_the_radius SoftLightning.exEnvTile SoftLightning.exFieldTile
      exPanelTile hn hr hc).1 (by decide!) (by decide!)]
    decide!
  · rw [(C15_factor_is_one_at_the_radius SoftLightning.exEnvTile SoftLightning.exFieldTile
      exPanel101 hn hr hc).2 (by decide!) (by decide!) (by decide!)]
    decide!

/-! ## Spawning -/

/-- C11 evaluated. On the one-panel layout `(int)maxX - (int)minX = 0` and
`createLight` ends at `rand() % dist` without a new source. On the layout with
centroids at `x = 1/2` and `x = 21/2` the range is `minX = 1/2`, `maxX = 21/2`, and with
the X draw 30 the new source gets `x = 30 % 10 + 0 = 0`, left of `minX`. -/
theorem C11_createLight_fails_or_leaves_the_range :
    (SoftLightning.getMinXCoord SoftLightning.exEnvOnePanel = 100 ∧
      SoftLightning.getMaxXCoord SoftLightning.exEnvOnePanel = 100 ∧
      (SoftLightning.createLight SoftLightning.exEnvOnePanel
        (SoftLightning.initPlugin SoftLightning.exEnvOnePanel)).isNone = true) ∧
    (SoftLightning.getMinXCoord SoftLightning.exEnvFraction = 1 / 2 ∧
      SoftLightning.getMaxXCoord SoftLightning.exEnvFraction = 21 / 2 ∧
      (SoftLightning.createLight SoftLightning.exEnvFraction
        (SoftLightning.initPlugin SoftLightning.exEnvFraction)).map
          (fun s => (s.lights 1).x) = some 0 ∧
      ((0 : ℚ) < SoftLightning.getMinXCoord SoftLightning.exEnvFraction)) := by
  refine ⟨⟨by decide!, by decide!, by decide!⟩, by decide!, by decide!, by decide!, by decide!⟩

/-! ## Start-up and the frame-skip gate -/

/-- C16 refuted on an empty palette and a layout without panels: `initPlugin` of
both plugins returns the ordinary start-up statics, and a later frame fails: in
Patterned Beats the first call, at `paletteColors[whichCol]` on a quiet frame and at
`% nColors` on a beat; in Soft Lightning the first call with an onset, at
`rand() % dist`, and the second call with a beat, at `% nColours`. -/
theorem C16_empty_configuration_is_initialised :
    ((PatternedBeats.initPlugin PatternedBeats.exEnvEmpty).whichCol = 0 ∧
      PatternedBeats.exEnvEmpty.nColors = 0 ∧
      (PatternedBeats.getPluginFrame PatternedBeats.exEnvEmpty (exFrame 3 10 100 false false)
        (PatternedBeats.initPlugin PatternedBeats.exEnvEmpty) exOut).isNone = true ∧
      (PatternedBeats.beatDetection PatternedBeats.exEnvEmpty (exFrame 3 10 100 true false)
        (PatternedBeats.initPlugin PatternedBeats.exEnvEmpty)).isNone = true) ∧
    ((SoftLightning.initPlugin SoftLightning.exEnvEmpty).nLights = 1 ∧
      SoftLightning.exEnvEmpty.nColours = 0 ∧
      (SoftLightning.getPluginFrame SoftLightning.exEnvEmpty (exFrame 3 10 100 false true)
        (SoftLightning.initPlugin SoftLightning.exEnvEmpty) exOut).isNone = true ∧
      (SoftLightning.getPluginFrame SoftLightning.exEnvEmpty (exFrame 3 10 100 false false)
        (SoftLightning.initPlugin SoftLightning.exEnvEmpty) exOut).isSome = true ∧
      (SoftLightning.getPluginFrame SoftLightning.exEnvEmpty (exFrame 5 10 100 true false)
        SoftLightning.exStateEmpty1 exOut).isNone = true) := by
  refine ⟨⟨by decide, by decide, by decide, by decide⟩,
    by decide!, by decide!, by decide!, by decide!, by decide!⟩

/-- C16 amended. Both plugins: `initPlugin` checks neither the palette nor the
layout. Its result is the same for every palette, the empty one included. Patterned
Beats, layout of at most 50 panels: `whichCol = 0`, floor, average and index sum 0,
a mask of `MAX_PANELS` entries of which the first `nPanels` hold one draw
`rand() % 2` each and the others 0; for a layout without panels these are the
zero-initialised statics. Soft Lightning, any layout: floor, average, index sum and
skip counter 0, no draw made, one source, the ambient one at the geometric center,
and `maxX`, `minX`, `maxY`, `minY` the bounding box of the geometric center and the
panel centroids; for a layout without panels the bounding box is the center. -/
theorem C16_initPlugin_does_not_validate :
    (∀ (env : PatternedBeats.Env) (palette : List RGB_t),
      PatternedBeats.initPlugin { env with paletteColors := palette } =
        PatternedBeats.initPlugin env) ∧
    (∀ env : PatternedBeats.Env, env.layoutData.nPanels ≤ PatternedBeats.MAX_PANELS →
      (PatternedBeats.initPlugin env).whichCol = 0 ∧
      (PatternedBeats.initPlugin env).latest_min = 0 ∧
      (PatternedBeats.initPlugin env).avg = 0 ∧
      (PatternedBeats.initPlugin env).maxBinIndexSum = 0 ∧
      (PatternedBeats.initPlugin env).pattern.length = PatternedBeats.MAX_PANELS ∧
      (PatternedBeats.initPlugin env).randCalls = env.layoutData.nPanels ∧
      (∀ i, i < env.layoutData.nPanels →
        (PatternedBeats.initPlugin env).pattern[i]? = some ((env.rand i % 2 : Nat) : Int)) ∧
      (∀ i, env.layoutData.nPanels ≤ i → i < PatternedBeats.MAX_PANELS →
        (PatternedBeats.initPlugin env).pattern[i]? = some 0)) ∧
    (∀ env : PatternedBeats.Env, env.layoutData.panels = [] →
      PatternedBeats.initPlugin env = PatternedBeats.State.zero) ∧
    (∀ (env : SoftLightning.Env) (palette : List RGB_t),
      SoftLightning.initPlugin { env with paletteColours := palette } =
        SoftLightning.initPlugin env) ∧
    (∀ env : SoftLightning.Env,
      (SoftLightning.initPlugin env).nLights = 1 ∧
      (SoftLightning.initPlugin env).lights 0 =
        { SoftLightning.light_t.zero with
          x := env.layoutData.layoutGeometricCenter.x
          y := env.layoutData.layoutGeometricCenter.y } ∧
      IsBoundingBox env.layoutData (SoftLightning.initPlugin env).maxX
        (SoftLightning.initPlugin env).minX (SoftLightning.initPlugin env).maxY
        (SoftLightning.initPlugin env).minY ∧
      (SoftLightning.initPlugin env).latest_min = 0 ∧
      (SoftLightning.initPlugin env).avg = 0 ∧
      (SoftLightning.initPlugin env).maxBinIndexSum = 0 ∧
      (SoftLightning.initPlugin env).cnt = 0 ∧
      (SoftLightning.initPlugin env).randCalls = 0) ∧
    (∀ env : SoftLightning.Env, env.layoutData.panels = [] →
      (SoftLightning.initPlugin env).maxX = env.layoutData.layoutGeometricCenter.x ∧
      (SoftLightning.initPlugin env).minX = env.layoutData.layoutGeometricCenter.x ∧
      (SoftLightning.initPlugin env).maxY = env.layoutData.layoutGeometricCenter.y ∧
      (SoftLightning.initPlugin env).minY = env.layoutData.layoutGeometricCenter.y) := by
  refine ⟨fun env palette => rfl, ?_, ?_, fun env palette => rfl, ?_, ?_⟩
  · intro env hn
    obtain ⟨g1, g2, g3, g4, g5, g6⟩ := PatternedBeats.generatePattern_fields env
      PatternedBeats.State.zero
    obtain ⟨-, -, g7, g8⟩ := PatternedBeats.generatePattern_spec env PatternedBeats.State.zero
    have hlen : (PatternedBeats.generatePattern env PatternedBeats.State.zero).pattern.length =
        PatternedBeats.MAX_PANELS := by
      rw [g6]
      simp [PatternedBeats.State.zero]
    unfold PatternedBeats.initPlugin
    refine ⟨by rw [g1]; rfl, by rw [g3]; rfl, by rw [g2]; rfl, by rw [g4]; rfl, hlen,
      by rw [g5]; simp [PatternedBeats.State.zero], ?_, ?_⟩
    · intro i hi
      rw [PatternedBeats.getElem?_of_getD _ i (by rw [hlen]; omega),
        g7 i hi (by simp [PatternedBeats.State.zero]; omega)]
      simp [PatternedBeats.State.zero]
    · intro i hi hi2
      rw [PatternedBeats.getElem?_of_getD _ i (by rw [hlen]; exact hi2), g8 i hi]
      simp only [PatternedBeats.State.zero, List.getD_eq_getElem?_getD,
        List.getElem?_replicate, if_pos hi2]
      rfl
  · intro env he
    unfold PatternedBeats.initPlugin PatternedBeats.generatePattern LayoutData.nPanels
    rw [he]
    rfl
  · intro env
    refine ⟨?_, ?_, SoftLightning.getCoords_boundingBox env, rfl, rfl, rfl, rfl, rfl⟩
    · simp [SoftLightning.initPlugin, SoftLightning.State.zero]
    · simp [SoftLightning.initPlugin, SoftLightning.State.zero]
  · intro env he
    simp [SoftLightning.initPlugin, SoftLightning.getMaxXCoord, SoftLightning.getMinXCoord,
      SoftLightning.getMaxYCoord, SoftLightning.getMinYCoord, he]

/-- C16 amended, on the example inputs: with an empty palette and no panels
`initPlugin` of Patterned Beats leaves the zero-initialised statics and that of Soft
Lightning the bounding box `(0, 0)`; on the three-panel layout Patterned Beats makes
three draws. -/
theorem C16_initPlugin_does_not_validate_witness :
    PatternedBeats.initPlugin PatternedBeats.exEnvEmpty = PatternedBeats.State.zero ∧
    ((SoftLightning.initPlugin SoftLightning.exEnvEmpty).maxX = 0 ∧
      (SoftLightning.initPlugin SoftLightning.exEnvEmpty).minX = 0 ∧
      (SoftLightning.initPlugin SoftLightning.exEnvEmpty).maxY = 0 ∧
      (SoftLightning.initPlugin SoftLightning.exEnvEmpty).minY = 0) ∧
    (PatternedBeats.initPlugin PatternedBeats.exEnv).randCalls = 3 :=
  ⟨C16_initPlugin_does_not_validate.2.2.1 PatternedBeats.exEnvEmpty rfl,
   C16_initPlugin_does_not_validate.2.2.2.2.2 SoftLightning.exEnvEmpty rfl,
   (C16_initPlugin_does_not_validate.2.1 PatternedBeats.exEnv (by decide)).2.2.2.2.2.1⟩

/-- C17. Soft Lightning frame-skip gate: after `k` completed calls the next call is
invocation `k + 1`. When it completes, the onset/spawn step has run, giving `st2`,
and the gate test `cnt < SKIP_COUNT` holds exactly when `k + 1` is odd. On an odd
invocation the call returns there: only the skip counter changes after the spawn
step, the output is untouched and slot 0 is as before the call. On an even
invocation the recolour check, the rendering of every panel and the propagation
are performed. Hence over two consecutive completed invocations slot 0, the
ambient source, is unchanged by at least one of them. -/
theorem C17_gate_passes_on_even_invocations (env : SoftLightning.Env) (k : Nat)
    (st st1 : SoftLightning.State) (f : Features) (out out1 : Output)
    (hr : SoftLightning.ReachableIn env k st) (hf : f.wf)
    (hg : SoftLightning.getPluginFrame env f st out = some (st1, out1)) :
    (∃ st2,
      (if SoftLightning.triggers f.isOnset f (SoftLightning.detectOf f st) = true then
          SoftLightning.createLight env { st with
            avg := (SoftLightning.detectOf f st).avg
            latest_min := (SoftLightning.detectOf f st).latest_min
            maxBinIndexSum := wrap32 (st.maxBinIndexSum + (SoftLightning.detectOf f st).maxBinIndex) }
        else some { st with
            avg := (SoftLightning.detectOf f st).avg
            latest_min := (SoftLightning.detectOf f st).latest_min
            maxBinIndexSum := wrap32 (st.maxBinIndexSum + (SoftLightning.detectOf f st).maxBinIndex) }) =
        some st2 ∧
      (st2.cnt < SoftLightning.SKIP_COUNT ↔ (k + 1) % 2 = 1) ∧
      ((k + 1) % 2 = 1 →
        st1 = { st2 with cnt := st2.cnt + 1 } ∧ out1 = out ∧ st1.lights 0 = st.lights 0) ∧
      ((k + 1) % 2 = 0 →
        ∃ st3, SoftLightning.recolour env f (SoftLightning.detectOf f st)
            { st2 with cnt := 0 } = some st3 ∧
          st1 = SoftLightning.propogateSources env st3 ∧
          out1 = { frames := SoftLightning.renderFrames env st3 out.frames
                   nFrames := (env.layoutData.nPanels : Int) })) ∧
    (∀ (f2 : Features) (o2 o3 : Output) (st1b : SoftLightning.State),
      SoftLightning.getPluginFrame env f2 st1 o2 = some (st1b, o3) →
        st1.lights 0 = st.lights 0 ∨ st1b.lights 0 = st1.lights 0) := by
  have odd_keeps : ∀ (k : Nat) (st st1 : SoftLightning.State) (f : Features)
      (out out1 : Output), SoftLightning.ReachableIn env k st →
      SoftLightning.getPluginFrame env f st out = some (st1, out1) → (k + 1) % 2 = 1 →
      st1.lights 0 = st.lights 0 := by
    intro k st st1 f out out1 hr hg hk
    obtain ⟨hreach, hcnt⟩ := SoftLightning.reachableIn_cnt env k st hr
    obtain ⟨i1, i2, -⟩ := SoftLightning.reachable_fieldInv env st hreach
    obtain ⟨st2, h2, hc, h3⟩ := SoftLightning.getPluginFrame_some env f st st1 out out1 hg
    simp only [SoftLightning.SKIP_COUNT] at h3
    have hl : st2.lights 0 = st.lights 0 := by
      split_ifs at h2 with ht
      · exact (SoftLightning.createLight_spec env _ st2 h2 i1
          (by simpa [SoftLightning.MAX_SOURCES] using i2)).2.2.1
      · rw [← Option.some.inj h2]
    rcases h3 with ⟨-, e, -⟩ | ⟨hlt, -⟩
    · rw [e]; exact hl
    · omega
  constructor
  · obtain ⟨hreach, hcnt⟩ := SoftLightning.reachableIn_cnt env k st hr
    obtain ⟨st2, h2, hc, h3⟩ := SoftLightning.getPluginFrame_some env f st st1 out out1 hg
    refine ⟨st2, h2, ?_, ?_, ?_⟩
    · simp only [SoftLightning.SKIP_COUNT]; omega
    · intro hk
      simp only [SoftLightning.SKIP_COUNT] at h3
      rcases h3 with ⟨-, e, e2⟩ | ⟨hlt, -⟩
      · exact ⟨e, e2, odd_keeps k st st1 f out out1 hr hg hk⟩
      · omega
    · intro hk
      simp only [SoftLightning.SKIP_COUNT] at h3
      rcases h3 with ⟨hlt, -⟩ | ⟨-, st3, a, b, c⟩
      · omega
      · exact ⟨st3, a, b, c⟩
  · intro f2 o2 o3 st1b hg2
    by_cases hk : (k + 1) % 2 = 1
    · exact Or.inl (odd_keeps k st st1 f out out1 hr hg hk)
    · exact Or.inr (odd_keeps (k + 1) st1 st1b f2 o2 o3
        (SoftLightning.ReachableIn.frame hr hf hg) hg2 (by omega))

/-- C17 at the first invocation on the example layout: it returns at the gate and
leaves the output and slot 0 alone. -/
theorem C17_gate_passes_on_even_invocations_witness :
    ∃ out1, out1 = exOut ∧
      SoftLightning.exState1.lights 0 =
        (SoftLightning.initPlugin SoftLightning.exEnv).lights 0 := by
  obtain ⟨out1, hg⟩ := SoftLightning.softExState1_step
  obtain ⟨⟨st2, -, -, h1, -⟩, -⟩ := C17_gate_passes_on_even_invocations SoftLightning.exEnv 0
    (SoftLightning.initPlugin SoftLightning.exEnv) SoftLightning.exState1
    (exFrame 3 10 100 false false) exOut out1 SoftLightning.ReachableIn.init
    (exFrame_wf 3 10 100 false false (by decide)) hg
  exact ⟨out1, (h1 rfl).2.1, (h1 rfl).2.2⟩

end Aurora

